import Mathlib

/-!
# Prophesee video DMA pipeline (psee-dma.c)

Shallow embedding of the pipeline stream management and of the videobuf2 queue
operations of `psee-dma.c`.

* C `unsigned int` fields are natural numbers; every `++`, `--`, `+` and `- 1`
  of the source is taken modulo `2^32`.
* Kernel objects the driver only consults (the media graph, the sub-devices)
  are gathered in `media_device`; entities are named by natural numbers.
* Calls that leave the driver (sub-device `s_stream`, media pipeline start and
  stop, DMA engine kicks, `vb2_buffer_done`) are appended to a trace of
  `psee_event`s, in call order.
-/

namespace Psee

/-! ## Machine arithmetic and constants -/

/-- Increment of a C `unsigned int` (`x++`). -/
def u32_inc (x : Nat) : Nat := (x + 1) % 4294967296

/-- Decrement of a C `unsigned int` (`--x`, `x - 1`): `0` wraps to `2^32 - 1`. -/
def u32_dec (x : Nat) : Nat := (x + 4294967295) % 4294967296

/-- Sum of two C `unsigned int`s. -/
def u32_add (x y : Nat) : Nat := (x + y) % 4294967296

/-- Difference of two 32-bit unsigned values (`x - y` on `u32`). -/
def u32_sub (x y : Nat) : Nat := (x + (4294967296 - y % 4294967296)) % 4294967296

def EPIPE : Int := 32
def ENOMEM : Int := 12
def ENOIOCTLCMD : Int := 515
def EINVAL : Int := 22
def ENODEV : Int := 19

def V4L2_BUF_TYPE_VIDEO_CAPTURE : Nat := 1
def V4L2_BUF_TYPE_VIDEO_OUTPUT : Nat := 2
def V4L2_FIELD_NONE : Nat := 1

def MEDIA_PAD_FL_SINK : Nat := 1
def MEDIA_PAD_FL_SOURCE : Nat := 2
def MEDIA_ENT_F_IO_V4L : Nat := 65537

/-! ## Data model -/

/-- Kernel `struct media_pad`: owning entity, index in the entity, flags. -/
structure media_pad where
  entity : Nat
  index : Nat
  flags : Nat
deriving DecidableEq, Repr

/-- Kernel `enum vb2_buffer_state`, restricted to the states the driver hands
buffers back in. -/
inductive vb2_buffer_state where
  | QUEUED
  | DONE
  | ERROR
deriving DecidableEq, Repr

/-- Calls leaving the driver, in the order they are made. `chain_walk` marks an
entry into `psee_pipeline_start_stop` and `pipeline_cleanup` the call of
`psee_pipeline_cleanup` made by `psee_dma_stop_streaming`; the others are calls
into the kernel or into a sub-device: `prep_slave_single buf size dev_to_mem` is
`dmaengine_prep_slave_single` on the memory of buffer `buf`, `submit buf` is
`dmaengine_submit` of the descriptor whose completion parameter is `buf`. -/
inductive psee_event where
  | chain_walk (start : Bool)
  | s_stream (entity : Nat) (enable : Bool)
  | media_pipeline_start (entity : Nat)
  | media_pipeline_stop (entity : Nat)
  | issue_pending (entity : Nat)
  | terminate_all (entity : Nat)
  | buffer_done (buf : Nat) (state : vb2_buffer_state)
  | pipeline_cleanup
  | prep_slave_single (buf size : Nat) (dev_to_mem : Bool)
  | submit (buf : Nat)
deriving DecidableEq, Repr

/-- The media graph and the sub-devices as the driver sees them.

* `function e` is `entity->function`, `pad0 e` is `entity->pads[0]`; for a DMA
  channel this is `dma->pad` (`psee_dma_init` registers it as the only pad of
  `dma->video.entity`).
* `remote_pad` is `media_entity_remote_pad`, `is_subdev` is
  `is_media_entity_v4l2_subdev`.
* `walk_init_ok` tells whether `media_graph_walk_init` succeeds; it returns `0`
  or `-ENOMEM`.
* `graph_walk e` lists the entities returned by the successive calls of
  `media_graph_walk_next` after `media_graph_walk_start` at `e`; the kernel
  returns an entity at most once and indexes the entities of a media device by
  an `int`, so the list has fewer than `2^32` elements (`walk_bound`).
* `s_stream tr e on` is the value returned by `v4l2_subdev_call(subdev, video,
  s_stream, on)` on entity `e` when the calls made so far are `tr`;
  `media_pipeline_start tr e` likewise. -/
structure media_device where
  function : Nat → Nat
  pad0 : Nat → media_pad
  remote_pad : media_pad → Option media_pad
  is_subdev : Nat → Bool
  walk_init_ok : Bool
  graph_walk : Nat → List Nat
  walk_bound : ∀ e, (graph_walk e).length < 4294967296
  s_stream : List psee_event → Nat → Bool → Int
  media_pipeline_start : List psee_event → Nat → Int

/-- Driver `struct psee_pipeline`; `output` names the entity of the DMA channel
at the pipeline output (`none` is `NULL`). -/
structure psee_pipeline where
  use_count : Nat
  stream_count : Nat
  num_dmas : Nat
  output : Option Nat
deriving DecidableEq, Repr

/-- Driver `struct psee_dma`: the entity of `dma->video`, the sequence counter,
the transfer size and the list of queued buffers (oldest first), then
`dma->queue.type`, `dma->port` and `dma->pad.flags`; left out, the last three
are those of the capture channel of port 0. -/
structure psee_dma where
  entity : Nat
  sequence : Nat
  transfer_size : Nat
  queued_bufs : List Nat
  queue_type : Nat := 1
  port : Nat := 0
  pad_flags : Nat := 1
deriving DecidableEq, Repr

/-- Driver `struct psee_dma_buffer` with the fields of its `vb2_v4l2_buffer`
the driver reads or writes: the buffer identity, the size of plane 0, the
channel `buf->dma` (`none` is `NULL`), and the field, sequence number,
timestamp and payload of plane 0 stamped at completion. -/
structure psee_dma_buffer where
  id : Nat
  plane_size : Nat
  dma : Option Nat
  field : Nat
  sequence : Nat
  timestamp : Nat
  payload : Nat
deriving DecidableEq, Repr

/-- Outcome of running driver code that walks pointers and loops: it returns a
value, dereferences an invalid pointer (`NULL`, a poisoned list pointer), or is
still looping when the step budget ends. -/
inductive Run (α : Type) where
  | ret (a : α)
  | oops
  | fuel
deriving DecidableEq, Repr

/-! ## Pipeline stream management -/

/-- The `while (1)` loop of `psee_pipeline_start_stop`, from `entity`. -/
def psee_pipeline_start_stop_loop (env : media_device) (start : Bool) :
    Nat → Nat → List psee_event → Run (Int × List psee_event)
  | 0, _, _ => Run.fuel
  | n + 1, entity, tr =>
    let pad := env.pad0 entity
    if pad.flags &&& MEDIA_PAD_FL_SINK = 0 then Run.ret (0, tr)
    else
      match env.remote_pad pad with
      | none => Run.ret (0, tr)
      | some rpad =>
        if env.is_subdev rpad.entity = false then Run.ret (0, tr)
        else
          let ret := env.s_stream tr rpad.entity start
          let tr1 := tr ++ [psee_event.s_stream rpad.entity start]
          if start = true ∧ ret < 0 ∧ ret ≠ -ENOIOCTLCMD then Run.ret (ret, tr1)
          else psee_pipeline_start_stop_loop env start n rpad.entity tr1

/-- Source `psee_pipeline_start_stop`: walk the chain from `pipe->output`. -/
def psee_pipeline_start_stop (fuel : Nat) (env : media_device) (pipe : psee_pipeline)
    (start : Bool) (tr : List psee_event) : Run (Int × List psee_event) :=
  match pipe.output with
  | none => Run.oops
  | some dma =>
    psee_pipeline_start_stop_loop env start fuel dma (tr ++ [psee_event.chain_walk start])

/-- Source `psee_pipeline_set_stream`; `enable` is the argument `on`. -/
def psee_pipeline_set_stream (fuel : Nat) (env : media_device) (pipe : psee_pipeline)
    (enable : Bool) (tr : List psee_event) : Run (Int × psee_pipeline × List psee_event) :=
  if enable = true then
    if pipe.stream_count = u32_dec pipe.num_dmas then
      match psee_pipeline_start_stop fuel env pipe true tr with
      | Run.ret (ret, tr1) =>
        if ret < 0 then Run.ret (ret, pipe, tr1)
        else Run.ret (ret, { pipe with stream_count := u32_inc pipe.stream_count }, tr1)
      | Run.oops => Run.oops
      | Run.fuel => Run.fuel
    else Run.ret (0, { pipe with stream_count := u32_inc pipe.stream_count }, tr)
  else
    let pipe1 := { pipe with stream_count := u32_dec pipe.stream_count }
    if pipe1.stream_count = 0 then
      match psee_pipeline_start_stop fuel env pipe1 false tr with
      | Run.ret (_, tr1) => Run.ret (0, pipe1, tr1)
      | Run.oops => Run.oops
      | Run.fuel => Run.fuel
    else Run.ret (0, pipe1, tr)

/-- The graph walk of `psee_pipeline_validate` over the entities still to be
returned by `media_graph_walk_next`; the accumulator is
`(pipe->output, num_inputs, num_outputs)`. -/
def psee_pipeline_validate_loop (env : media_device) :
    List Nat → Option Nat × Nat × Nat → Option Nat × Nat × Nat
  | [], acc => acc
  | entity :: rest, (output, num_inputs, num_outputs) =>
    if env.function entity ≠ MEDIA_ENT_F_IO_V4L then
      psee_pipeline_validate_loop env rest (output, num_inputs, num_outputs)
    else if (env.pad0 entity).flags &&& MEDIA_PAD_FL_SINK ≠ 0 then
      psee_pipeline_validate_loop env rest (some entity, num_inputs, u32_inc num_outputs)
    else
      psee_pipeline_validate_loop env rest (output, u32_inc num_inputs, num_outputs)

/-- Source `psee_pipeline_validate`; `start` is the entity of the DMA channel
the walk starts from. -/
def psee_pipeline_validate (env : media_device) (pipe : psee_pipeline) (start : Nat) :
    Int × psee_pipeline :=
  if env.walk_init_ok = false then (-ENOMEM, pipe)
  else
    match psee_pipeline_validate_loop env (env.graph_walk start) (pipe.output, 0, 0) with
    | (output, num_inputs, num_outputs) =>
      let pipe1 := { pipe with output := output }
      if num_outputs ≠ 1 ∨ num_inputs > 1 then (-EPIPE, pipe1)
      else (0, { pipe1 with num_dmas := u32_add num_inputs num_outputs })

/-- Source `__psee_pipeline_cleanup`. -/
def __psee_pipeline_cleanup (pipe : psee_pipeline) : psee_pipeline :=
  { pipe with num_dmas := 0, output := none }

/-- Source `psee_pipeline_cleanup`. -/
def psee_pipeline_cleanup (pipe : psee_pipeline) : psee_pipeline :=
  let pipe1 := { pipe with use_count := u32_dec pipe.use_count }
  if pipe1.use_count = 0 then __psee_pipeline_cleanup pipe1 else pipe1

/-- Source `psee_pipeline_prepare`; `dma` is the entity of the calling channel. -/
def psee_pipeline_prepare (env : media_device) (pipe : psee_pipeline) (dma : Nat) :
    Int × psee_pipeline :=
  if pipe.use_count = 0 then
    match psee_pipeline_validate env pipe dma with
    | (ret, pipe1) =>
      if ret < 0 then (ret, __psee_pipeline_cleanup pipe1)
      else (0, { pipe1 with use_count := u32_inc pipe1.use_count })
  else (0, { pipe with use_count := u32_inc pipe.use_count })

/-! ## videobuf2 queue operations -/

/-- Source `psee_dma_verify_format` (with `psee_dma_remote_subdev` inlined). -/
def psee_dma_verify_format (env : media_device) (dma : psee_dma) : Int :=
  match env.remote_pad (env.pad0 dma.entity) with
  | none => -EPIPE
  | some remote => if env.is_subdev remote.entity = false then -EPIPE else 0

/-- The `list_for_each_entry_safe` loop closing `psee_dma_start_streaming` and
`psee_dma_stop_streaming`: every queued buffer is handed to `vb2_buffer_done`
in `state` and unlinked. Returns the list left and the trace. -/
def psee_dma_return_buffers (state : vb2_buffer_state) :
    List Nat → List psee_event → List Nat × List psee_event
  | [], tr => ([], tr)
  | buf :: rest, tr =>
    psee_dma_return_buffers state rest (tr ++ [psee_event.buffer_done buf state])

/-- Source `psee_dma_start_streaming`; `pipe` is the pipeline object the
channel resolves to (`to_psee_pipeline(&dma->video.entity)` or `&dma->pipe`). -/
def psee_dma_start_streaming (fuel : Nat) (env : media_device) (dma : psee_dma)
    (pipe : psee_pipeline) (tr : List psee_event) :
    Run (Int × psee_dma × psee_pipeline × List psee_event) :=
  let dma0 := { dma with sequence := 0 }
  let ret := env.media_pipeline_start tr dma0.entity
  let tr1 := tr ++ [psee_event.media_pipeline_start dma0.entity]
  if ret < 0 then
    match psee_dma_return_buffers vb2_buffer_state.QUEUED dma0.queued_bufs tr1 with
    | (bufs, tr2) => Run.ret (ret, { dma0 with queued_bufs := bufs }, pipe, tr2)
  else
    let ret1 := psee_dma_verify_format env dma0
    if ret1 < 0 then
      match psee_dma_return_buffers vb2_buffer_state.QUEUED dma0.queued_bufs
          (tr1 ++ [psee_event.media_pipeline_stop dma0.entity]) with
      | (bufs, tr2) => Run.ret (ret1, { dma0 with queued_bufs := bufs }, pipe, tr2)
    else
      match psee_pipeline_prepare env pipe dma0.entity with
      | (ret2, pipe1) =>
        if ret2 < 0 then
          match psee_dma_return_buffers vb2_buffer_state.QUEUED dma0.queued_bufs
              (tr1 ++ [psee_event.media_pipeline_stop dma0.entity]) with
          | (bufs, tr2) => Run.ret (ret2, { dma0 with queued_bufs := bufs }, pipe1, tr2)
        else
          match psee_pipeline_set_stream fuel env pipe1 true
              (tr1 ++ [psee_event.issue_pending dma0.entity]) with
          | Run.ret (_, pipe2, tr2) => Run.ret (0, dma0, pipe2, tr2)
          | Run.oops => Run.oops
          | Run.fuel => Run.fuel

/-- Sequencing of two steps that may fail to return: the second runs on the
result of the first. -/
def Run.bind {α β : Type} : Run α → (α → Run β) → Run β
  | Run.ret a, f => f a
  | Run.oops, _ => Run.oops
  | Run.fuel, _ => Run.fuel

/-- Source `psee_dma_stop_streaming`; `pipe` is
`to_psee_pipeline(&dma->video.entity)`. The result of
`psee_pipeline_set_stream` is not looked at. -/
def psee_dma_stop_streaming (fuel : Nat) (env : media_device) (dma : psee_dma)
    (pipe : psee_pipeline) (tr : List psee_event) :
    Run (psee_dma × psee_pipeline × List psee_event) :=
  Run.bind (psee_pipeline_set_stream fuel env pipe false tr) fun res =>
    let tr2 := res.2.2 ++ [psee_event.terminate_all dma.entity]
    let pipe2 := psee_pipeline_cleanup res.2.1
    let tr3 := tr2 ++ [psee_event.pipeline_cleanup, psee_event.media_pipeline_stop dma.entity]
    match psee_dma_return_buffers vb2_buffer_state.ERROR dma.queued_bufs tr3 with
    | (bufs, tr4) => Run.ret ({ dma with queued_bufs := bufs }, pipe2, tr4)

def psee_dma_queue_setup (dma : psee_dma) (nplanes sizes0 : Nat) : Int × Nat × Nat :=
  if nplanes ≠ 0 then
    (if sizes0 < dma.transfer_size then -EINVAL else 0, nplanes, sizes0)
  else (0, 1, dma.transfer_size)

/-- Source `psee_dma_buffer_prepare`. -/
def psee_dma_buffer_prepare (dma : psee_dma) (buf : psee_dma_buffer) :
    Int × psee_dma_buffer :=
  (0, { buf with dma := some dma.entity })

/-- Source `psee_dma_buffer_queue`; `desc_ok` tells whether
`dmaengine_prep_slave_single` returns a descriptor, `streaming` is
`vb2_is_streaming(&dma->queue)`. -/
def psee_dma_buffer_queue (dma : psee_dma) (buf : psee_dma_buffer) (desc_ok streaming : Bool)
    (tr : List psee_event) : psee_dma × List psee_event :=
  let tr1 := tr ++ [psee_event.prep_slave_single buf.id dma.transfer_size
    (decide (dma.queue_type = V4L2_BUF_TYPE_VIDEO_CAPTURE))]
  if desc_ok = false then
    (dma, tr1 ++ [psee_event.buffer_done buf.id vb2_buffer_state.ERROR])
  else
    let dma1 := { dma with queued_bufs := dma.queued_bufs ++ [buf.id] }
    let tr2 := tr1 ++ [psee_event.submit buf.id]
    if streaming = true then (dma1, tr2 ++ [psee_event.issue_pending dma.entity])
    else (dma1, tr2)

/-- Source `psee_dma_complete` for the channel `dma` that `buf->dma` points to,
with the residue reported by the engine and the value `now` of
`ktime_get_ns()`. `list_del` of a buffer that is not on the queued list follows
poisoned list pointers. -/
def psee_dma_complete (dma : psee_dma) (buf : psee_dma_buffer) (residue now : Nat)
    (tr : List psee_event) : Run (psee_dma × psee_dma_buffer × List psee_event) :=
  if buf.id ∈ dma.queued_bufs then
    Run.ret
      ({ dma with queued_bufs := dma.queued_bufs.erase buf.id,
                  sequence := u32_inc dma.sequence },
        { buf with field := V4L2_FIELD_NONE, sequence := dma.sequence, timestamp := now,
                   payload := u32_sub dma.transfer_size residue },
        tr ++ [psee_event.buffer_done buf.id vb2_buffer_state.DONE])
  else Run.oops

/-! ## Graph of the composite device (`psee-composite.c`) -/

def MEDIA_LNK_FL_ENABLED : Nat := 1
def ENOLINK : Int := 67

/-- Kernel `struct v4l2_fwnode_link` as filled by `v4l2_fwnode_parse_link`;
firmware nodes are named by numbers. -/
structure v4l2_fwnode_link where
  local_node : Nat
  local_port : Nat
  remote_node : Nat
  remote_port : Nat
deriving DecidableEq, Repr

/-- What the firmware helpers answer for one endpoint: `remote_parent` is the
result of `fwnode_graph_get_remote_port_parent` (`none` is `NULL`), `parse_ret`
and `link` are the value returned and the link filled by
`v4l2_fwnode_parse_link`. -/
structure fwnode_endpoint where
  remote_parent : Option Nat
  parse_ret : Int
  link : v4l2_fwnode_link
deriving DecidableEq, Repr

/-- Kernel `struct media_entity`: an identity and the flags of its pads;
`pads[i].index` is `i` and `num_pads` is the length. -/
structure media_entity where
  id : Nat
  pads : List Nat
deriving DecidableEq, Repr

/-- Kernel `struct v4l2_subdev`: an identity, its firmware node and its media
entity. -/
structure v4l2_subdev where
  id : Nat
  fwnode : Nat
  entity : media_entity
deriving DecidableEq, Repr

/-- Driver `struct psee_graph_entity`: `fwnode` is `asd.match.fwnode`,
`entity` and `subdev` are `NULL` (`none`) until the sub-device is bound. -/
structure psee_graph_entity where
  fwnode : Nat
  entity : Option media_entity
  subdev : Option Nat
deriving DecidableEq, Repr

/-- A pad link created by `media_create_pad_link(source, source_pad, sink,
sink_pad, flags)`; entities are named by their identity. -/
structure media_link where
  source : Nat
  source_pad : Nat
  sink : Nat
  sink_pad : Nat
  flags : Nat
deriving DecidableEq, Repr

/-- Driver `struct psee_composite_device`: `of_node` is `dev->of_node`,
`asd_list` is `notifier.asd_list` (oldest first), `dmas` the DMA channels,
`links` the pad links of `media_dev` (oldest first), `subdev_nodes` and
`registered` tell whether `v4l2_device_register_subdev_nodes` and
`media_device_register` have succeeded. -/
structure psee_composite_device where
  of_node : Nat
  asd_list : List psee_graph_entity
  dmas : List psee_dma
  links : List media_link
  subdev_nodes : Bool
  registered : Bool
deriving DecidableEq, Repr

/-- The firmware graph and the kernel services used while the graph is built.

* `endpoints n` lists the endpoints of node `n` in the order of
  `fwnode_graph_get_next_endpoint`;
* `add_subdev asds n` is 0 when `v4l2_async_notifier_add_fwnode_subdev` adds
  node `n` to the list `asds`, the negative `PTR_ERR` otherwise;
* `create_pad_link links l` is the value returned by `media_create_pad_link`
  for link `l` when `links` exist;
* `register_subdev_nodes` and `media_device_register` are the values returned
  by `v4l2_device_register_subdev_nodes` and `media_device_register`. -/
structure fwnode_graph where
  endpoints : Nat → List fwnode_endpoint
  add_subdev : List psee_graph_entity → Nat → Int
  create_pad_link : List media_link → media_link → Int
  register_subdev_nodes : Int
  media_device_register : Int

/-- Source `psee_graph_find_entity`: the first entry of the list whose node is
`fwnode`. -/
def psee_graph_find_entity (pdev : psee_composite_device) (fwnode : Nat) :
    Option psee_graph_entity :=
  pdev.asd_list.find? (fun entity => decide (entity.fwnode = fwnode))

/-- Body of the loop of `psee_graph_parse_one` over the endpoints left; both
error exits run `v4l2_async_notifier_cleanup`, which empties the list. -/
def psee_graph_parse_one_loop (env : fwnode_graph) :
    psee_composite_device → List fwnode_endpoint → Int × psee_composite_device
  | pdev, [] => (0, pdev)
  | pdev, ep :: rest =>
    match ep.remote_parent with
    | none => (-EINVAL, { pdev with asd_list := [] })
    | some remote =>
      if remote = pdev.of_node ∨ (psee_graph_find_entity pdev remote).isSome = true then
        psee_graph_parse_one_loop env pdev rest
      else
        if env.add_subdev pdev.asd_list remote < 0 then
          (env.add_subdev pdev.asd_list remote, { pdev with asd_list := [] })
        else
          psee_graph_parse_one_loop env
            { pdev with asd_list := pdev.asd_list ++
                [{ fwnode := remote, entity := none, subdev := none }] } rest

/-- Source `psee_graph_parse_one`. -/
def psee_graph_parse_one (env : fwnode_graph) (pdev : psee_composite_device) (fwnode : Nat) :
    Int × psee_composite_device :=
  psee_graph_parse_one_loop env pdev (env.endpoints fwnode)

/-- The `list_for_each_entry` loop of `psee_graph_parse`, at the entry of index
`i` of a list that grows at its tail while it is walked; `ret` is the value of
the variable `ret` on entry. -/
def psee_graph_parse_loop (env : fwnode_graph) :
    Nat → Nat → Int → psee_composite_device → Run (Int × psee_composite_device)
  | 0, _, _, _ => Run.fuel
  | fuel + 1, i, ret, pdev =>
    match pdev.asd_list[i]? with
    | none => Run.ret (ret, pdev)
    | some entity =>
      if (psee_graph_parse_one env pdev entity.fwnode).1 < 0 then
        Run.ret ((psee_graph_parse_one env pdev entity.fwnode).1,
          { (psee_graph_parse_one env pdev entity.fwnode).2 with asd_list := [] })
      else
        psee_graph_parse_loop env fuel (i + 1) (psee_graph_parse_one env pdev entity.fwnode).1
          (psee_graph_parse_one env pdev entity.fwnode).2

/-- Source `psee_graph_parse`. -/
def psee_graph_parse (fuel : Nat) (env : fwnode_graph) (pdev : psee_composite_device) :
    Run (Int × psee_composite_device) :=
  if (psee_graph_parse_one env pdev pdev.of_node).1 < 0 then
    Run.ret (0, (psee_graph_parse_one env pdev pdev.of_node).2)
  else
    psee_graph_parse_loop env fuel 0 (psee_graph_parse_one env pdev pdev.of_node).1
      (psee_graph_parse_one env pdev pdev.of_node).2

/-- The loop of `psee_graph_notify_bound` over the entries left: the value
returned and the entries after the call. -/
def psee_graph_notify_bound_loop (subdev : v4l2_subdev) :
    List psee_graph_entity → Int × List psee_graph_entity
  | [] => (-EINVAL, [])
  | entity :: rest =>
    if entity.fwnode ≠ subdev.fwnode then
      ((psee_graph_notify_bound_loop subdev rest).1,
        entity :: (psee_graph_notify_bound_loop subdev rest).2)
    else if entity.subdev.isSome = true then (-EINVAL, entity :: rest)
    else
      (0, { entity with entity := some subdev.entity, subdev := some subdev.id } :: rest)

/-- Source `psee_graph_notify_bound`. -/
def psee_graph_notify_bound (pdev : psee_composite_device) (subdev : v4l2_subdev) :
    Int × psee_composite_device :=
  ((psee_graph_notify_bound_loop subdev pdev.asd_list).1,
    { pdev with asd_list := (psee_graph_notify_bound_loop subdev pdev.asd_list).2 })

/-- One pass through the loop body of `psee_graph_build_one` for endpoint `ep`
when `links` exist: whether the loop goes on (`continue` or end of the body,
against `break`), the value left in `ret`, and the links. Debug prints are left
out; reading `num_pads` of an entity that is `NULL` does not return. -/
def psee_graph_build_one_step (env : fwnode_graph) (pdev : psee_composite_device)
    (entity : psee_graph_entity) (links : List media_link) (ep : fwnode_endpoint) :
    Run (Bool × Int × List media_link) :=
  if ep.parse_ret < 0 then Run.ret (true, ep.parse_ret, links)
  else
    match entity.entity with
    | none => Run.oops
    | some loc =>
      if loc.pads.length ≤ ep.link.local_port then Run.ret (false, -EINVAL, links)
      else if loc.pads.getD ep.link.local_port 0 &&& MEDIA_PAD_FL_SINK ≠ 0 then
        Run.ret (true, ep.parse_ret, links)
      else if ep.link.remote_node = pdev.of_node then Run.ret (true, ep.parse_ret, links)
      else
        match psee_graph_find_entity pdev ep.link.remote_node with
        | none => Run.ret (false, -ENODEV, links)
        | some ent =>
          match ent.entity with
          | none => Run.oops
          | some remote =>
            if remote.pads.length ≤ ep.link.remote_port then Run.ret (false, -EINVAL, links)
            else
              let l : media_link :=
                { source := loc.id, source_pad := ep.link.local_port, sink := remote.id,
                  sink_pad := ep.link.remote_port, flags := MEDIA_LNK_FL_ENABLED }
              if env.create_pad_link links l < 0 then
                Run.ret (false, env.create_pad_link links l, links)
              else Run.ret (true, env.create_pad_link links l, links ++ [l])

/-- The `while (1)` loop over the endpoints of a node, as written in
`psee_graph_build_one` and in `psee_graph_build_dma`, for the endpoints left and
with `ret` on entry; `body links ep` is one pass through the loop body. The
result tells whether the loop ran to the end of the endpoints, the value of
`ret`, and the links. -/
def endpoint_loop (body : List media_link → fwnode_endpoint → Run (Bool × Int × List media_link)) :
    Int → List media_link → List fwnode_endpoint → Run (Bool × Int × List media_link)
  | ret, links, [] => Run.ret (true, ret, links)
  | _, links, ep :: rest =>
    Run.bind (body links ep) fun res =>
      if res.1 = true then endpoint_loop body res.2.1 res.2.2 rest
      else Run.ret res

/-- Source `psee_graph_build_one` when `links` exist: the value returned and
the links. -/
def psee_graph_build_one (env : fwnode_graph) (pdev : psee_composite_device)
    (entity : psee_graph_entity) (links : List media_link) : Run (Int × List media_link) :=
  Run.bind (endpoint_loop (psee_graph_build_one_step env pdev entity) 0 links
    (env.endpoints entity.fwnode)) fun res => Run.ret res.2

/-- Source `psee_graph_find_dma`. -/
def psee_graph_find_dma (pdev : psee_composite_device) (port : Nat) : Option psee_dma :=
  pdev.dmas.find? (fun dma => decide (dma.port = port))

/-- One pass through the loop body of `psee_graph_build_dma`, as
`psee_graph_build_one_step`; the pad of a DMA channel has index 0. -/
def psee_graph_build_dma_step (env : fwnode_graph) (pdev : psee_composite_device)
    (links : List media_link) (ep : fwnode_endpoint) : Run (Bool × Int × List media_link) :=
  if ep.parse_ret < 0 then Run.ret (true, ep.parse_ret, links)
  else
    match psee_graph_find_dma pdev ep.link.local_port with
    | none => Run.ret (false, -EINVAL, links)
    | some dma =>
      match psee_graph_find_entity pdev ep.link.remote_node with
      | none => Run.ret (false, -ENODEV, links)
      | some ent =>
        match ent.entity with
        | none => Run.oops
        | some remote =>
          if remote.pads.length ≤ ep.link.remote_port then Run.ret (false, -EINVAL, links)
          else
            let l : media_link :=
              if dma.pad_flags &&& MEDIA_PAD_FL_SOURCE ≠ 0 then
                { source := dma.entity, source_pad := 0, sink := remote.id,
                  sink_pad := ep.link.remote_port, flags := MEDIA_LNK_FL_ENABLED }
              else
                { source := remote.id, source_pad := ep.link.remote_port, sink := dma.entity,
                  sink_pad := 0, flags := MEDIA_LNK_FL_ENABLED }
            if env.create_pad_link links l < 0 then
              Run.ret (false, env.create_pad_link links l, links)
            else Run.ret (true, env.create_pad_link links l, links ++ [l])

/-- Source `psee_graph_build_dma` when `links` exist. -/
def psee_graph_build_dma (env : fwnode_graph) (pdev : psee_composite_device)
    (links : List media_link) : Run (Int × List media_link) :=
  Run.bind (endpoint_loop (psee_graph_build_dma_step env pdev) 0 links
    (env.endpoints pdev.of_node)) fun res => Run.ret res.2

/-- The `list_for_each_entry` loop of `psee_graph_notify_complete` over the
entries left: `some ret` when the loop returns `ret` from the function, `none`
when it runs to its end; and the links. -/
def psee_graph_notify_complete_loop (env : fwnode_graph) (pdev : psee_composite_device) :
    List media_link → List psee_graph_entity → Run (Option Int × List media_link)
  | links, [] => Run.ret (none, links)
  | links, entity :: rest =>
    Run.bind (psee_graph_build_one env pdev entity links) fun res =>
      if res.1 < 0 then Run.ret (some res.1, res.2)
      else psee_graph_notify_complete_loop env pdev res.2 rest

/-- Source `psee_graph_notify_complete`. -/
def psee_graph_notify_complete (env : fwnode_graph) (pdev : psee_composite_device) :
    Run (Int × psee_composite_device) :=
  Run.bind (psee_graph_notify_complete_loop env pdev pdev.links pdev.asd_list) fun res =>
    match res.1 with
    | some ret => Run.ret (ret, { pdev with links := res.2 })
    | none =>
      Run.bind (psee_graph_build_dma env pdev res.2) fun res1 =>
        if res1.1 < 0 then Run.ret (res1.1, { pdev with links := res1.2 })
        else
          Run.ret (env.media_device_register,
            { pdev with links := res1.2,
                        subdev_nodes := pdev.subdev_nodes || decide (0 ≤ env.register_subdev_nodes),
                        registered := pdev.registered || decide (0 ≤ env.media_device_register) })

/-! ## Channel creation and diagnostic registers (`psee-dma.c`) -/

def DEFAULT_PACKET_LENGTH : Nat := 1048576

/-- Source `psee_dma_init` for the channel of video entity `entity`: the value
returned and the fields of `dma` it leaves. `kernel_ret` is the value of the
first kernel service that fails (`media_entity_pads_init`, `vb2_queue_init`,
`dma_request_chan`, `devm_ioremap_resource`, `video_register_device`), a value
that is not negative when none does. -/
def psee_dma_init (kernel_ret : Int) (entity type port : Nat) : Int × psee_dma :=
  (if kernel_ret < 0 then kernel_ret else 0,
    { entity := entity, sequence := 0, transfer_size := DEFAULT_PACKET_LENGTH, queued_bufs := [],
      queue_type := type, port := port,
      pad_flags := if type = V4L2_BUF_TYPE_VIDEO_CAPTURE then MEDIA_PAD_FL_SINK
        else MEDIA_PAD_FL_SOURCE })

/-- Kernel `struct v4l2_dbg_register`: `match_addr` is `match.addr`, `reg` and
`val` are 64-bit values. -/
structure v4l2_dbg_register where
  match_addr : Nat
  size : Nat
  reg : Nat
  val : Nat
deriving DecidableEq, Repr

/-- An access to a mapped register bank: `ioread32(iomem + addr)` or
`iowrite32(value, iomem + addr)`. -/
inductive io_access where
  | read (addr : Nat)
  | write (addr value : Nat)
deriving DecidableEq, Repr

/-- Conversion of a 64-bit value to the `u32` parameter of `read_reg` and
`write_reg`. -/
def to_u32 (x : Nat) : Nat := x % 4294967296

/-- Source `psee_dma_g_register` on a bank of `iosize` bytes; `ioread32 addr` is
the word the hardware gives at offset `addr`, `log` the accesses made so far.
Returns the value returned, `*reg` and the accesses. -/
def psee_dma_g_register (iosize : Nat) (ioread32 : Nat → Nat) (reg : v4l2_dbg_register)
    (log : List io_access) : Int × v4l2_dbg_register × List io_access :=
  if reg.match_addr > 0 then (-EINVAL, reg, log)
  else if reg.reg &&& 3 ≠ 0 then (-EINVAL, reg, log)
  else if reg.reg ≥ iosize then (-EINVAL, reg, log)
  else
    (0, { reg with val := ioread32 (to_u32 reg.reg), size := 4 },
      log ++ [io_access.read (to_u32 reg.reg)])

/-- Source `psee_dma_s_register`: the value returned and the accesses. -/
def psee_dma_s_register (iosize : Nat) (reg : v4l2_dbg_register) (log : List io_access) :
    Int × List io_access :=
  if reg.match_addr > 0 then (-EINVAL, log)
  else if reg.reg &&& 3 ≠ 0 then (-EINVAL, log)
  else if reg.reg ≥ iosize then (-EINVAL, log)
  else (0, log ++ [io_access.write (to_u32 reg.reg) (to_u32 reg.val)])

/-! ## Sub-device blocks (`psee-streamer.c`, `psee-tkeep-handler.c`) -/

def PAD_SINK : Nat := 0
def PAD_SOURCE : Nat := 1
def BIT_BYPASS : Nat := 2
def WORD_ORDER_SWAP : Nat := 1
def V4L2_SUBDEV_FORMAT_TRY : Nat := 0
def V4L2_SUBDEV_FORMAT_ACTIVE : Nat := 1

/-- Kernel `struct v4l2_mbus_framefmt` with its leading fields; the fields left
out are copied with the others. -/
structure v4l2_mbus_framefmt where
  width : Nat
  height : Nat
  code : Nat
  field : Nat
  colorspace : Nat
deriving DecidableEq, Repr

/-- Kernel `struct v4l2_subdev_format`. -/
structure v4l2_subdev_format where
  which : Nat
  pad : Nat
  format : v4l2_mbus_framefmt
deriving DecidableEq, Repr

/-- An array of two formats, one per pad: index `PAD_SINK` and index
`PAD_SOURCE`. -/
structure pad_formats where
  sink : v4l2_mbus_framefmt
  source : v4l2_mbus_framefmt
deriving DecidableEq, Repr

/-- The formats a pad operation can reach: `active` is the array `formats` of
the driver structure, `try_fmt` holds the try formats of `sd_state`. -/
structure subdev_formats where
  active : pad_formats
  try_fmt : pad_formats
deriving DecidableEq, Repr

/-- A pointer returned by `__get_pad_format`: into the try formats of
`sd_state` or into the array `formats`, at index `pad`. -/
inductive format_ref where
  | try_fmt (pad : Nat)
  | active (pad : Nat)
deriving DecidableEq, Repr

/-- Read of entry `pad` of an array of two formats; an index past the array
does not return. -/
def pad_formats.read (f : pad_formats) (pad : Nat) : Run v4l2_mbus_framefmt :=
  if pad = PAD_SINK then Run.ret f.sink
  else if pad = PAD_SOURCE then Run.ret f.source
  else Run.oops

/-- Write of entry `pad` of an array of two formats. -/
def pad_formats.write (f : pad_formats) (pad : Nat) (v : v4l2_mbus_framefmt) :
    Run pad_formats :=
  if pad = PAD_SINK then Run.ret { f with sink := v }
  else if pad = PAD_SOURCE then Run.ret { f with source := v }
  else Run.oops

/-- Read through a format pointer. -/
def subdev_formats.read (m : subdev_formats) : format_ref → Run v4l2_mbus_framefmt
  | format_ref.try_fmt pad => m.try_fmt.read pad
  | format_ref.active pad => m.active.read pad

/-- Write through a format pointer. -/
def subdev_formats.write (m : subdev_formats) (r : format_ref) (v : v4l2_mbus_framefmt) :
    Run subdev_formats :=
  match r with
  | format_ref.try_fmt pad => Run.bind (m.try_fmt.write pad v) fun t => Run.ret { m with try_fmt := t }
  | format_ref.active pad => Run.bind (m.active.write pad v) fun a => Run.ret { m with active := a }

/-- Source `__get_pad_format` of `psee-streamer.c`; `none` is `NULL`. -/
def psee_streamer.__get_pad_format (pad which : Nat) : Option format_ref :=
  if which = V4L2_SUBDEV_FORMAT_TRY then some (format_ref.try_fmt pad)
  else if which = V4L2_SUBDEV_FORMAT_ACTIVE then some (format_ref.active pad)
  else none

/-- Source `set_format` of `psee-streamer.c`; `control` is the word read from
`REG_CONTROL`. Returns the value returned, the formats and `*fmt`. -/
def psee_streamer.set_format (control : Nat) (mem : subdev_formats) (fmt : v4l2_subdev_format) :
    Run (Int × subdev_formats × v4l2_subdev_format) :=
  match psee_streamer.__get_pad_format fmt.pad fmt.which with
  | none => Run.ret (-EINVAL, mem, fmt)
  | some format =>
    if fmt.pad = PAD_SINK then
      Run.bind (mem.write format fmt.format) fun mem1 =>
        if control &&& BIT_BYPASS ≠ 0 then Run.ret (0, mem1, fmt)
        else
          match psee_streamer.__get_pad_format PAD_SOURCE fmt.which with
          | none => Run.oops
          | some source =>
            Run.bind (mem1.write source fmt.format) fun mem2 => Run.ret (0, mem2, fmt)
    else if control &&& BIT_BYPASS ≠ 0 then
      match psee_streamer.__get_pad_format PAD_SINK fmt.which with
      | none => Run.oops
      | some input =>
        Run.bind (mem.read input) fun input_format =>
          Run.bind (mem.write format input_format) fun mem1 =>
            Run.ret (0, mem1, { fmt with format := input_format })
    else
      Run.bind (mem.write format fmt.format) fun mem1 => Run.ret (0, mem1, fmt)

/-- Source `g_register` of `psee-streamer.c`, as `psee_dma_g_register`. -/
def psee_streamer.g_register (iosize : Nat) (ioread32 : Nat → Nat) (reg : v4l2_dbg_register)
    (log : List io_access) : Int × v4l2_dbg_register × List io_access :=
  if reg.reg &&& 3 ≠ 0 then (-EINVAL, reg, log)
  else if reg.reg ≥ iosize then (-EINVAL, reg, log)
  else
    (0, { reg with size := 4, val := ioread32 (to_u32 reg.reg) },
      log ++ [io_access.read (to_u32 reg.reg)])

/-- Source `s_register` of `psee-streamer.c`. -/
def psee_streamer.s_register (iosize : Nat) (reg : v4l2_dbg_register) (log : List io_access) :
    Int × List io_access :=
  if reg.reg &&& 3 ≠ 0 then (-EINVAL, log)
  else if reg.reg ≥ iosize then (-EINVAL, log)
  else (0, log ++ [io_access.write (to_u32 reg.reg) (to_u32 reg.val)])

/-- The media bus codes `MEDIA_BUS_FMT_PSEE_EVT21ME` and
`MEDIA_BUS_FMT_PSEE_EVT21`, which a kernel header outside these sources
defines; `mediabus_to_pixel` of `psee-dma.c` uses them as two labels of one
`switch`, so they differ. -/
structure media_bus_fmt where
  PSEE_EVT21ME : Nat
  PSEE_EVT21 : Nat
  differ : PSEE_EVT21ME ≠ PSEE_EVT21

/-- Source `__get_pad_format` of `psee-tkeep-handler.c`. -/
def psee_tkhdlr.__get_pad_format (pad which : Nat) : Option format_ref :=
  if which = V4L2_SUBDEV_FORMAT_TRY then some (format_ref.try_fmt pad)
  else if which = V4L2_SUBDEV_FORMAT_ACTIVE then some (format_ref.active pad)
  else none

/-- Source `set_format` of `psee-tkeep-handler.c`; `config` is the content of
`REG_CONFIG`, which holds the last word written to it. Returns the value
returned, the content of `REG_CONFIG`, the formats and `*fmt`. -/
def psee_tkhdlr.set_format (codes : media_bus_fmt) (config : Nat) (mem : subdev_formats)
    (fmt : v4l2_subdev_format) : Run (Int × Nat × subdev_formats × v4l2_subdev_format) :=
  match psee_tkhdlr.__get_pad_format fmt.pad fmt.which with
  | none => Run.ret (-EINVAL, config, mem, fmt)
  | some format =>
    if fmt.pad = PAD_SINK then
      Run.bind (mem.write format fmt.format) fun mem1 =>
        match psee_tkhdlr.__get_pad_format PAD_SOURCE fmt.which with
        | none => Run.oops
        | some source =>
          Run.bind (mem1.write source fmt.format) fun mem2 =>
            if fmt.format.code = codes.PSEE_EVT21ME ∧ config &&& WORD_ORDER_SWAP ≠ 0 then
              Run.bind (mem2.write source { fmt.format with code := codes.PSEE_EVT21 })
                fun mem3 => Run.ret (0, config, mem3, fmt)
            else Run.ret (0, 0, mem2, fmt)
    else
      match psee_tkhdlr.__get_pad_format PAD_SINK fmt.which with
      | none => Run.oops
      | some input =>
        Run.bind (mem.read input) fun input_format =>
          Run.bind (mem.write format input_format) fun mem1 =>
            if input_format.code = codes.PSEE_EVT21ME ∧ fmt.format.code = codes.PSEE_EVT21 then
              Run.bind (mem1.write format { input_format with code := codes.PSEE_EVT21 })
                fun mem2 =>
                  Run.ret (0, WORD_ORDER_SWAP, mem2,
                    { fmt with format := { input_format with code := codes.PSEE_EVT21 } })
            else Run.ret (0, 0, mem1, { fmt with format := input_format })

/-- Source `g_register` of `psee-tkeep-handler.c`. -/
def psee_tkhdlr.g_register (iosize : Nat) (ioread32 : Nat → Nat) (reg : v4l2_dbg_register)
    (log : List io_access) : Int × v4l2_dbg_register × List io_access :=
  if reg.reg &&& 3 ≠ 0 then (-EINVAL, reg, log)
  else if reg.reg ≥ iosize then (-EINVAL, reg, log)
  else
    (0, { reg with size := 4, val := ioread32 (to_u32 reg.reg) },
      log ++ [io_access.read (to_u32 reg.reg)])

/-- Source `s_register` of `psee-tkeep-handler.c`. -/
def psee_tkhdlr.s_register (iosize : Nat) (reg : v4l2_dbg_register) (log : List io_access) :
    Int × List io_access :=
  if reg.reg &&& 3 ≠ 0 then (-EINVAL, log)
  else if reg.reg ≥ iosize then (-EINVAL, log)
  else (0, log ++ [io_access.write (to_u32 reg.reg) (to_u32 reg.val)])

/-! ## Vocabulary of the properties -/

/-- A DMA channel entity whose pad is a sink pad: a pipeline output. -/
def is_output_dma (env : media_device) (e : Nat) : Bool :=
  decide (env.function e = MEDIA_ENT_F_IO_V4L) &&
    decide ((env.pad0 e).flags &&& MEDIA_PAD_FL_SINK ≠ 0)

/-- A DMA channel entity whose pad is not a sink pad: a pipeline input
(`psee_dma_init` gives every channel pad either the sink or the source flag). -/
def is_input_dma (env : media_device) (e : Nat) : Bool :=
  decide (env.function e = MEDIA_ENT_F_IO_V4L) &&
    decide ((env.pad0 e).flags &&& MEDIA_PAD_FL_SINK = 0)

/-- The freshly initialised pipeline (`Empty`). -/
def psee_pipeline_empty : psee_pipeline :=
  { use_count := 0, stream_count := 0, num_dmas := 0, output := none }

/-- A two-entity graph: DMA channel `0` (sink pad) fed by sub-device `1`, whose
`s_stream` returns `r`. -/
def env_single (r : Int) : media_device where
  function := fun e => if e = 0 then MEDIA_ENT_F_IO_V4L else 131072
  pad0 := fun e => { entity := e, index := 0, flags := if e = 0 then 1 else 2 }
  remote_pad := fun p =>
    if p.entity = 0 then some { entity := 1, index := 0, flags := 2 } else none
  is_subdev := fun e => decide (e = 1)
  walk_init_ok := true
  graph_walk := fun _ => [0, 1]
  walk_bound := by intro _; simp
  s_stream := fun _ _ _ => r
  media_pipeline_start := fun _ _ => 0

/-- A three-entity graph: input DMA channel `2` (source pad) feeds sub-device
`1`, which feeds output DMA channel `0` (sink pad); `s_stream` returns `r`. -/
def env_pair (r : Int) : media_device where
  function := fun e => if e = 1 then 131072 else MEDIA_ENT_F_IO_V4L
  pad0 := fun e => { entity := e, index := 0, flags := if e = 2 then 2 else 1 }
  remote_pad := fun p =>
    if p.entity = 0 then some { entity := 1, index := 1, flags := 2 }
    else if p.entity = 1 then some { entity := 2, index := 0, flags := 2 }
    else if p.entity = 2 then some { entity := 1, index := 0, flags := 1 }
    else none
  is_subdev := fun e => decide (e = 1)
  walk_init_ok := true
  graph_walk := fun _ => [0, 1, 2]
  walk_bound := by intro _; simp
  s_stream := fun _ _ _ => r
  media_pipeline_start := fun _ _ => 0

/-- A four-entity chain: sub-device `3` feeds `2`, which feeds `1`, which feeds
output DMA channel `0`; starting sub-device `2` fails with `-EIO`, every other
`s_stream` call returns 0. -/
def env_chain : media_device where
  function := fun e => if e = 0 then MEDIA_ENT_F_IO_V4L else 131072
  pad0 := fun e => { entity := e, index := 0, flags := 1 }
  remote_pad := fun p =>
    if p.entity < 3 then some { entity := p.entity + 1, index := 1, flags := 2 } else none
  is_subdev := fun e => decide (1 ≤ e)
  walk_init_ok := true
  graph_walk := fun _ => [0, 1, 2, 3]
  walk_bound := by intro _; simp
  s_stream := fun _ e enable => if e = 2 ∧ enable = true then -5 else 0
  media_pipeline_start := fun _ _ => 0

/-- Two output DMA channels `0` and `1` in one component, on a media device
whose graph walk cannot be initialised (allocation failure). -/
def env_nomem : media_device where
  function := fun _ => MEDIA_ENT_F_IO_V4L
  pad0 := fun e => { entity := e, index := 0, flags := 1 }
  remote_pad := fun _ => none
  is_subdev := fun _ => false
  walk_init_ok := false
  graph_walk := fun _ => [0, 1]
  walk_bound := by intro _; simp
  s_stream := fun _ _ _ => 0
  media_pipeline_start := fun _ _ => 0

/-- The pipeline after `n` successive calls of `psee_pipeline_prepare` from
channel `dma`. -/
def psee_pipeline_prepare_n (env : media_device) (dma : Nat) :
    Nat → psee_pipeline → psee_pipeline
  | 0, pipe => pipe
  | n + 1, pipe => (psee_pipeline_prepare env (psee_pipeline_prepare_n env dma n pipe) dma).2

/-- The pipeline after `n` successive calls of `psee_pipeline_cleanup`. -/
def psee_pipeline_cleanup_n : Nat → psee_pipeline → psee_pipeline
  | 0, pipe => pipe
  | n + 1, pipe => psee_pipeline_cleanup (psee_pipeline_cleanup_n n pipe)

/-- The chain walk moves from `entity` to sub-device `hop`: pad 0 of `entity`
is a sink pad whose remote pad belongs to `hop`. -/
def chain_step (env : media_device) (entity hop : Nat) : Bool :=
  decide ((env.pad0 entity).flags &&& MEDIA_PAD_FL_SINK ≠ 0) &&
    match env.remote_pad (env.pad0 entity) with
    | some rpad => decide (rpad.entity = hop) && env.is_subdev hop
    | none => false

/-- The chain walk stops at `entity`: pad 0 is not a sink pad, or it has no
remote pad, or the remote entity is not a sub-device. -/
def chain_end (env : media_device) (entity : Nat) : Bool :=
  decide ((env.pad0 entity).flags &&& MEDIA_PAD_FL_SINK = 0) ||
    match env.remote_pad (env.pad0 entity) with
    | some rpad => !env.is_subdev rpad.entity
    | none => true

/-- The chain walk from `entity` visits the sub-devices `hops`, in order. -/
def chain_path (env : media_device) : Nat → List Nat → Bool
  | _, [] => true
  | entity, hop :: rest => chain_step env entity hop && chain_path env hop rest

/-- The whole chain walked from `entity` is `hops`: the walk visits them in
order and stops after the last. -/
def chain_of (env : media_device) : Nat → List Nat → Bool
  | entity, [] => chain_end env entity
  | entity, hop :: rest => chain_step env entity hop && chain_of env hop rest

/-- The `s_stream` calls made on `hops`, in order. -/
def hop_events (enable : Bool) (hops : List Nat) : List psee_event :=
  hops.map (fun e => psee_event.s_stream e enable)

/-- The value `ret` of a hop's start operation is a failure for the chain start:
negative and not `-ENOIOCTLCMD` (operation not implemented). -/
def start_failed (ret : Int) : Prop := ret < 0 ∧ ret ≠ -ENOIOCTLCMD

instance (ret : Int) : Decidable (start_failed ret) := by
  unfold start_failed; infer_instance

/-- Called in order after the calls `tr`, no hop of `hops` fails to start. -/
def hops_start_ok (env : media_device) : List psee_event → List Nat → Prop
  | _, [] => True
  | tr, hop :: rest =>
    ¬ start_failed (env.s_stream tr hop true) ∧
      hops_start_ok env (tr ++ [psee_event.s_stream hop true]) rest

/-- The outcome of `n` successive calls of `psee_pipeline_set_stream` with the
same argument: the values returned, in call order, the pipeline and the trace. -/
def psee_pipeline_set_stream_n (fuel : Nat) (env : media_device) (enable : Bool) :
    Nat → psee_pipeline → List psee_event → Run (List Int × psee_pipeline × List psee_event)
  | 0, pipe, tr => Run.ret ([], pipe, tr)
  | n + 1, pipe, tr =>
    match psee_pipeline_set_stream_n fuel env enable n pipe tr with
    | Run.ret (rets, pipe1, tr1) =>
      match psee_pipeline_set_stream fuel env pipe1 enable tr1 with
      | Run.ret (ret, pipe2, tr2) => Run.ret (rets ++ [ret], pipe2, tr2)
      | Run.oops => Run.oops
      | Run.fuel => Run.fuel
    | Run.oops => Run.oops
    | Run.fuel => Run.fuel

/-- Pipeline states reached from Empty by calls of `psee_pipeline_prepare` (over
any media device and from any channel, validation succeeding or failing) and of
`psee_pipeline_cleanup`, where every cleanup releases an earlier successful
prepare and a prepare is called only while fewer than `limit` successful
prepares are outstanding. The index counts the outstanding prepares. -/
inductive prepare_reach (limit : Nat) : Nat → psee_pipeline → Prop where
  | empty : prepare_reach limit 0 psee_pipeline_empty
  | prepare (env : media_device) (dma held : Nat) (pipe : psee_pipeline) :
      prepare_reach limit held pipe → held < limit →
      prepare_reach limit
        (if (psee_pipeline_prepare env pipe dma).1 < 0 then held else held + 1)
        (psee_pipeline_prepare env pipe dma).2
  | cleanup (held : Nat) (pipe : psee_pipeline) :
      prepare_reach limit held pipe → 0 < held →
      prepare_reach limit (held - 1) (psee_pipeline_cleanup pipe)

/-- An entity that is a DMA channel (a V4L2 I/O entity). -/
def is_dma (env : media_device) (e : Nat) : Bool :=
  decide (env.function e = MEDIA_ENT_F_IO_V4L)

/-- The DMA channels of one pipeline of `env` are `chans`: the graph walk from
any of them returns no entity twice and finds exactly the channels `chans`. -/
def pipeline_channels (env : media_device) (chans : Finset Nat) : Prop :=
  ∀ c ∈ chans, (env.graph_walk c).Nodup ∧
    ((env.graph_walk c).filter (is_dma env)).toFinset = chans

instance (env : media_device) (chans : Finset Nat) : Decidable (pipeline_channels env chans) := by
  unfold pipeline_channels; infer_instance

/-- States reached from Empty through `psee_pipeline_prepare`,
`psee_pipeline_cleanup` and `psee_pipeline_set_stream` calls issued by the DMA
channels `chans` over the media device `env`: the pipeline, the channels holding
a prepare, the channels holding a stream-on, and the trace. A channel takes a
prepare or a stream-on only when it holds none, keeps it when the call
succeeds, and releases only what it holds. With `nested`, a channel moreover
takes its stream-on only while it holds its prepare and releases its prepare
only after its stream-on, the order of `psee_dma_start_streaming` and
`psee_dma_stop_streaming`. -/
inductive channel_reach (env : media_device) (chans : Finset Nat) (nested : Bool) :
    psee_pipeline → Finset Nat → Finset Nat → List psee_event → Prop where
  | empty : channel_reach env chans nested psee_pipeline_empty ∅ ∅ []
  | prepare (c : Nat) (pipe : psee_pipeline) (prep strm : Finset Nat)
      (tr : List psee_event) :
      channel_reach env chans nested pipe prep strm tr → c ∈ chans → c ∉ prep →
      channel_reach env chans nested (psee_pipeline_prepare env pipe c).2
        (if (psee_pipeline_prepare env pipe c).1 < 0 then prep else insert c prep) strm tr
  | cleanup (c : Nat) (pipe : psee_pipeline) (prep strm : Finset Nat)
      (tr : List psee_event) :
      channel_reach env chans nested pipe prep strm tr → c ∈ prep →
      (nested = true → c ∉ strm) →
      channel_reach env chans nested (psee_pipeline_cleanup pipe) (prep.erase c) strm tr
  | stream_on (c fuel : Nat) (ret : Int) (pipe pipe1 : psee_pipeline)
      (prep strm : Finset Nat) (tr tr1 : List psee_event) :
      channel_reach env chans nested pipe prep strm tr → c ∈ chans → c ∉ strm →
      (nested = true → c ∈ prep) →
      psee_pipeline_set_stream fuel env pipe true tr = Run.ret (ret, pipe1, tr1) →
      channel_reach env chans nested pipe1 prep
        (if ret < 0 then strm else insert c strm) tr1
  | stream_off (c fuel : Nat) (ret : Int) (pipe pipe1 : psee_pipeline)
      (prep strm : Finset Nat) (tr tr1 : List psee_event) :
      channel_reach env chans nested pipe prep strm tr → c ∈ strm →
      psee_pipeline_set_stream fuel env pipe false tr = Run.ret (ret, pipe1, tr1) →
      channel_reach env chans nested pipe1 prep (strm.erase c) tr1

instance hops_start_ok_decidable (env : media_device) :
    ∀ (tr : List psee_event) (hops : List Nat), Decidable (hops_start_ok env tr hops)
  | _, [] => isTrue trivial
  | tr, hop :: rest =>
    match (inferInstance : Decidable (¬ start_failed (env.s_stream tr hop true))),
      hops_start_ok_decidable env (tr ++ [psee_event.s_stream hop true]) rest with
    | isTrue h1, isTrue h2 => isTrue ⟨h1, h2⟩
    | isFalse h1, _ => isFalse (fun h => h1 h.1)
    | _, isFalse h2 => isFalse (fun h => h2 h.2)

/-- The single-channel graph of `env_single 0` on a media device whose first
`media_pipeline_start` fails with `-EBUSY` and whose later ones succeed. -/
def env_busy : media_device where
  function := fun e => if e = 0 then MEDIA_ENT_F_IO_V4L else 131072
  pad0 := fun e => { entity := e, index := 0, flags := if e = 0 then 1 else 2 }
  remote_pad := fun p =>
    if p.entity = 0 then some { entity := 1, index := 0, flags := 2 } else none
  is_subdev := fun e => decide (e = 1)
  walk_init_ok := true
  graph_walk := fun _ => [0, 1]
  walk_bound := by intro _; simp
  s_stream := fun _ _ _ => 0
  media_pipeline_start := fun tr e =>
    if psee_event.media_pipeline_start e ∈ tr then 0 else -16

/-- A buffer of `size` bytes named `id`, not yet prepared nor stamped. -/
def fresh_buffer (id size : Nat) : psee_dma_buffer :=
  { id := id, plane_size := size, dma := none, field := 0, sequence := 0, timestamp := 0,
    payload := 0 }

/-- Channel states in which `k` completions have run since the last call of
`psee_dma_start_streaming` returned (with success or not): after the start,
buffers are enqueued and completed in any order. -/
inductive complete_reach : Nat → psee_dma → Prop where
  | start (fuel : Nat) (env : media_device) (dma dma1 : psee_dma) (pipe pipe1 : psee_pipeline)
      (tr tr1 : List psee_event) (ret : Int) :
      psee_dma_start_streaming fuel env dma pipe tr = Run.ret (ret, dma1, pipe1, tr1) →
      complete_reach 0 dma1
  | enqueue (k : Nat) (dma : psee_dma) (buf : psee_dma_buffer) (desc_ok streaming : Bool)
      (tr : List psee_event) :
      complete_reach k dma →
      complete_reach k (psee_dma_buffer_queue dma buf desc_ok streaming tr).1
  | complete (k : Nat) (dma dma1 : psee_dma) (buf buf1 : psee_dma_buffer) (residue now : Nat)
      (tr tr1 : List psee_event) :
      complete_reach k dma →
      psee_dma_complete dma buf residue now tr = Run.ret (dma1, buf1, tr1) →
      complete_reach (k + 1) dma1

/-- An endpoint of port `port` of node `node` wired to port `remote_port` of
node `remote`. -/
def fw_ep (node port remote remote_port : Nat) : fwnode_endpoint :=
  { remote_parent := some remote, parse_ret := 0,
    link := { local_node := node, local_port := port, remote_node := remote,
              remote_port := remote_port } }

/-- An endpoint of port `port` of node `node` without remote endpoint:
`fwnode_graph_get_remote_port_parent` gives `NULL` and `v4l2_fwnode_parse_link`
fails with `-ENOLINK`. -/
def fw_ep_dangling (node port : Nat) : fwnode_endpoint :=
  { remote_parent := none, parse_ret := -ENOLINK,
    link := { local_node := node, local_port := port, remote_node := 0, remote_port := 0 } }

/-- The device node 0 with two DMA ports and two sub-device nodes: DMA port 1
feeds port 0 of node 2, port 1 of node 2 feeds port 0 of node 1, port 1 of
node 1 feeds DMA port 0. Node 1 has one more endpoint on its port 0, wired to a
port 7 of node 2. Every kernel service succeeds. -/
def fw_pair : fwnode_graph where
  endpoints := fun n =>
    if n = 0 then [fw_ep 0 0 1 1, fw_ep 0 1 2 0]
    else if n = 1 then [fw_ep 1 0 2 7, fw_ep 1 0 2 1, fw_ep 1 1 0 0]
    else if n = 2 then [fw_ep 2 0 0 1, fw_ep 2 1 1 0]
    else []
  add_subdev := fun _ _ => 0
  create_pad_link := fun _ _ => 0
  register_subdev_nodes := 0
  media_device_register := 0

/-- The device node 0 wired to port 0 of node 1 and back, with one more
endpoint, without remote, at the end of node `node`. -/
def fw_dangling (node : Nat) : fwnode_graph where
  endpoints := fun n =>
    (if n = 0 then [fw_ep 0 0 1 0] else if n = 1 then [fw_ep 1 0 0 0] else []) ++
      (if n = node then [fw_ep_dangling n 1] else [])
  add_subdev := fun _ _ => 0
  create_pad_link := fun _ _ => 0
  register_subdev_nodes := 0
  media_device_register := 0

/-- The composite device of node 0 after `psee_graph_dma_init` on two ports:
capture channel of port 0 (entity 20, sink pad), output channel of port 1
(entity 21, source pad); nothing discovered yet. -/
def pdev_init : psee_composite_device :=
  { of_node := 0, asd_list := [],
    dmas := [{ entity := 20, sequence := 0, transfer_size := 1048576, queued_bufs := [],
               queue_type := V4L2_BUF_TYPE_VIDEO_CAPTURE, port := 0,
               pad_flags := MEDIA_PAD_FL_SINK },
             { entity := 21, sequence := 0, transfer_size := 1048576, queued_bufs := [],
               queue_type := V4L2_BUF_TYPE_VIDEO_OUTPUT, port := 1,
               pad_flags := MEDIA_PAD_FL_SOURCE }],
    links := [], subdev_nodes := false, registered := false }

/-- The device `pdev_init` once `fw_pair` is discovered and both sub-devices
are bound: node 1 is entity 11, node 2 is entity 12, each with a sink pad 0 and
a source pad 1. -/
def pdev_pair : psee_composite_device :=
  { pdev_init with
    asd_list := [{ fwnode := 1, entity := some { id := 11, pads := [1, 2] }, subdev := some 101 },
                 { fwnode := 2, entity := some { id := 12, pads := [1, 2] }, subdev := some 102 }] }

/-- Nodes of the pending list, oldest first. -/
def asd_fwnodes (pdev : psee_composite_device) : List Nat :=
  pdev.asd_list.map (fun entity => entity.fwnode)

/-- No pending node is the device root and no two pending nodes are the same
node. -/
def graph_parse_inv (pdev : psee_composite_device) : Prop :=
  pdev.of_node ∉ asd_fwnodes pdev ∧ (asd_fwnodes pdev).Nodup

/-- Link `l` goes to pad `remote_port` of the entity bound to the node
`remote_node` named by an endpoint of node `fwnode`, and that node is in the
pending list and is not the device root. -/
def link_to_pending (env : fwnode_graph) (pdev : psee_composite_device) (fwnode : Nat)
    (l : media_link) : Prop :=
  ∃ ep ent remote, ep ∈ env.endpoints fwnode ∧ ep.link.remote_node ≠ pdev.of_node ∧
    psee_graph_find_entity pdev ep.link.remote_node = some ent ∧
    ent.fwnode = ep.link.remote_node ∧ ent.entity = some remote ∧
    l.sink = remote.id ∧ l.sink_pad = ep.link.remote_port

/-- Every node named as remote port parent by an endpoint is below `n`. -/
def fwnodes_below (env : fwnode_graph) (n : Nat) : Prop :=
  ∀ node ep remote, ep ∈ env.endpoints node → ep.remote_parent = some remote → remote < n

/-- The graph `fw_pair` with the only endpoint of node 1 on its source port 1,
wired to a port 5 of node 2. -/
def fw_bad_pad : fwnode_graph where
  endpoints := fun n =>
    if n = 0 then [fw_ep 0 1 2 0]
    else if n = 1 then [fw_ep 1 1 2 5]
    else if n = 2 then [fw_ep 2 0 0 1]
    else []
  add_subdev := fun _ _ => 0
  create_pad_link := fun _ _ => 0
  register_subdev_nodes := 0
  media_device_register := 0

/-- The all-zero format a zeroed allocation holds. -/
def fmt_zero : v4l2_mbus_framefmt :=
  { width := 0, height := 0, code := 0, field := 0, colorspace := 0 }

/-- The formats of a sub-device block after `probe`, with a fresh `sd_state`:
every format is zero. -/
def subdev_formats_zero : subdev_formats :=
  { active := { sink := fmt_zero, source := fmt_zero },
    try_fmt := { sink := fmt_zero, source := fmt_zero } }

/-- The property of the tkeep handler between `REG_CONFIG` and the active
formats: the swap bit is set exactly when the active sink code is
`MEDIA_BUS_FMT_PSEE_EVT21ME` and the active source code is
`MEDIA_BUS_FMT_PSEE_EVT21`, and with the bit clear both active formats are the
same. -/
def tkhdlr_config_inv (codes : media_bus_fmt) (config : Nat) (mem : subdev_formats) : Prop :=
  (config &&& WORD_ORDER_SWAP ≠ 0 ↔
    (mem.active.sink.code = codes.PSEE_EVT21ME ∧ mem.active.source.code = codes.PSEE_EVT21)) ∧
  (config &&& WORD_ORDER_SWAP = 0 → mem.active.source = mem.active.sink)

/-- The link that `psee_graph_build_one` asks for, from pad `local_port` of the
entity `loc` it walks to pad `remote_port` of the entity `remote`. -/
def node_link (loc remote : media_entity) (ep : fwnode_endpoint) : media_link :=
  { source := loc.id, source_pad := ep.link.local_port, sink := remote.id,
    sink_pad := ep.link.remote_port, flags := MEDIA_LNK_FL_ENABLED }

/-- The link from pad `remote_port` of `remote` into the pad of channel `dma`. -/
def dma_link_in (dma : psee_dma) (remote : media_entity) (ep : fwnode_endpoint) : media_link :=
  { source := remote.id, source_pad := ep.link.remote_port, sink := dma.entity, sink_pad := 0,
    flags := MEDIA_LNK_FL_ENABLED }

/-- The link from the pad of channel `dma` to pad `remote_port` of `remote`. -/
def dma_link_out (dma : psee_dma) (remote : media_entity) (ep : fwnode_endpoint) : media_link :=
  { source := dma.entity, source_pad := 0, sink := remote.id, sink_pad := ep.link.remote_port,
    flags := MEDIA_LNK_FL_ENABLED }

/-- Entity `id` exists on the device and has a pad of index `pad`: it is the
entity of a bound pending node with more than `pad` pads, or the video entity
of a DMA channel, which has one pad. -/
def pad_exists (pdev : psee_composite_device) (id pad : Nat) : Prop :=
  (∃ ent e, ent ∈ pdev.asd_list ∧ ent.entity = some e ∧ e.id = id ∧ pad < e.pads.length) ∨
  (∃ dma, dma ∈ pdev.dmas ∧ dma.entity = id ∧ pad < 1)

/-- Both ends of link `l` are pads that exist on the device. -/
def link_pads_valid (pdev : psee_composite_device) (l : media_link) : Prop :=
  pad_exists pdev l.source l.source_pad ∧ pad_exists pdev l.sink l.sink_pad

/-- The source end of link `l` is a pad of the device that is not a sink: a
pad of a bound entity or the pad of a DMA channel, without
`MEDIA_PAD_FL_SINK`. -/
def origin_not_sink (pdev : psee_composite_device) (l : media_link) : Prop :=
  (∃ ent e, ent ∈ pdev.asd_list ∧ ent.entity = some e ∧ e.id = l.source ∧
    l.source_pad < e.pads.length ∧ e.pads.getD l.source_pad 0 &&& MEDIA_PAD_FL_SINK = 0) ∨
  (∃ dma, dma ∈ pdev.dmas ∧ dma.entity = l.source ∧ l.source_pad = 0 ∧
    dma.pad_flags &&& MEDIA_PAD_FL_SINK = 0)

/-- Every DMA channel of the device has the pad flags `psee_dma_init` gives: sink
alone or source alone. -/
def dmas_initialised (pdev : psee_composite_device) : Prop :=
  ∀ dma ∈ pdev.dmas,
    dma.pad_flags = MEDIA_PAD_FL_SINK ∨ dma.pad_flags = MEDIA_PAD_FL_SOURCE

/-- No pad of a bound entity of the device is both a source and a sink: the
media controller asks for one and only one of `MEDIA_PAD_FL_SINK` and
`MEDIA_PAD_FL_SOURCE` on every pad. -/
def pads_typed (pdev : psee_composite_device) : Prop :=
  ∀ ent ∈ pdev.asd_list, ∀ e, ent.entity = some e → ∀ pad, pad < e.pads.length →
    e.pads.getD pad 0 &&& MEDIA_PAD_FL_SOURCE ≠ 0 → e.pads.getD pad 0 &&& MEDIA_PAD_FL_SINK = 0

/-- The check of the kernel's `media_create_pad_link` on the source end of the
link, as the environment `env` answers for the entities of the device: the
creation of a link fails when its source end is a pad of a bound entity
without `MEDIA_PAD_FL_SOURCE`. -/
def create_pad_link_checks_source (env : fwnode_graph) (pdev : psee_composite_device) : Prop :=
  ∀ links l ent e, ent ∈ pdev.asd_list → ent.entity = some e → e.id = l.source →
    e.pads.getD l.source_pad 0 &&& MEDIA_PAD_FL_SOURCE = 0 → env.create_pad_link links l < 0

/-- A connection of the topology: port `src_port` of node `src_node` feeds port
`dst_port` of node `dst_node`. -/
structure connection where
  src_node : Nat
  src_port : Nat
  dst_node : Nat
  dst_port : Nat
deriving DecidableEq, Repr

/-- The endpoint describing connection `c` at its source end. -/
def connection_src_ep (c : connection) : fwnode_endpoint :=
  fw_ep c.src_node c.src_port c.dst_node c.dst_port

/-- The endpoint describing connection `c` at its sink end. -/
def connection_dst_ep (c : connection) : fwnode_endpoint :=
  fw_ep c.dst_node c.dst_port c.src_node c.src_port

/-- The endpoints that the connections give node `n`: for each connection
with an end on `n`, the endpoint of that end. -/
def connection_endpoints (conns : List connection) (n : Nat) : List fwnode_endpoint :=
  conns.flatMap fun c =>
    (if c.src_node = n then [connection_src_ep c] else []) ++
      (if c.dst_node = n then [connection_dst_ep c] else [])

/-- The pad at port `port` of node `node`, as entity, pad index and pad flags:
for the device root the pad of the DMA channel of that port, for another node
the pad of that index of the entity bound to it. -/
def connection_pad (pdev : psee_composite_device) (node port : Nat) : Option (Nat × Nat × Nat) :=
  if node = pdev.of_node then
    (psee_graph_find_dma pdev port).map fun dma => (dma.entity, 0, dma.pad_flags)
  else
    match psee_graph_find_entity pdev node with
    | none => none
    | some ent =>
      match ent.entity with
      | none => none
      | some e => if port < e.pads.length then some (e.id, port, e.pads.getD port 0) else none

/-- The enabled link from the pad at the source end of connection `c` to the
pad at its sink end. -/
def connection_link (pdev : psee_composite_device) (c : connection) : media_link :=
  match connection_pad pdev c.src_node c.src_port, connection_pad pdev c.dst_node c.dst_port with
  | some s, some d =>
    { source := s.1, source_pad := s.2.1, sink := d.1, sink_pad := d.2.1,
      flags := MEDIA_LNK_FL_ENABLED }
  | _, _ => { source := 0, source_pad := 0, sink := 0, sink_pad := 0, flags := 0 }

/-- Connection `c` joins a source pad that exists to a sink pad that exists. -/
def connection_ok (pdev : psee_composite_device) (c : connection) : Prop :=
  ∃ s d, connection_pad pdev c.src_node c.src_port = some s ∧
    connection_pad pdev c.dst_node c.dst_port = some d ∧
    s.2.2 &&& MEDIA_PAD_FL_SINK = 0 ∧ s.2.2 &&& MEDIA_PAD_FL_SOURCE ≠ 0 ∧
    d.2.2 &&& MEDIA_PAD_FL_SINK ≠ 0 ∧ d.2.2 &&& MEDIA_PAD_FL_SOURCE = 0

/-- The firmware graph `env` describes the connections `conns`, each by one
endpoint at each of its ends (in any order on a node), the pending list of the
device has neither the root nor a node twice, and every connection joins a
source pad to a sink pad, both in range. -/
def well_formed (env : fwnode_graph) (pdev : psee_composite_device) (conns : List connection) :
    Prop :=
  (∀ n, (env.endpoints n).Perm (connection_endpoints conns n)) ∧ graph_parse_inv pdev ∧
  ∀ c ∈ conns, connection_ok pdev c

/-- The links that one pass of a loop body adds for endpoint `ep` when none
exist. -/
def step_links (body : List media_link → fwnode_endpoint → Run (Bool × Int × List media_link))
    (ep : fwnode_endpoint) : List media_link :=
  match body [] ep with
  | Run.ret res => res.2.2
  | Run.oops => []
  | Run.fuel => []

/-- The firmware graph that describes the connections `conns`, each by one
endpoint at each end, in the order of the connections. Every kernel service
succeeds. -/
def fw_of_connections (conns : List connection) : fwnode_graph where
  endpoints := connection_endpoints conns
  add_subdev := fun _ _ => 0
  create_pad_link := fun _ _ => 0
  register_subdev_nodes := 0
  media_device_register := 0

/-- The chain of the scenario: port 0 of the sensor (node 1) feeds port 0 of the
filter (node 2), port 1 of the filter feeds port 0 of the device (node 0). -/
def conns_chain : List connection :=
  [{ src_node := 1, src_port := 0, dst_node := 2, dst_port := 0 },
   { src_node := 2, src_port := 1, dst_node := 0, dst_port := 0 }]

/-- The composite device of node 0 with its capture channel of port 0 (entity
20), once the chain is discovered (the filter first, then the sensor) and
bound: the sensor is entity 11 with one source pad, the filter is entity 12
with a sink pad 0 and a source pad 1. -/
def pdev_chain : psee_composite_device :=
  { of_node := 0,
    asd_list := [{ fwnode := 2, entity := some { id := 12, pads := [1, 2] }, subdev := some 102 },
                 { fwnode := 1, entity := some { id := 11, pads := [2] }, subdev := some 101 }],
    dmas := [(psee_dma_init 0 20 V4L2_BUF_TYPE_VIDEO_CAPTURE 0).2],
    links := [], subdev_nodes := false, registered := false }

/-- A topology with a connection between two DMA ports of the device: port 1
of node 1 feeds the capture port 0, and the output port 1 of the device feeds
its capture port 0. -/
def conns_loopback : List connection :=
  [{ src_node := 1, src_port := 1, dst_node := 0, dst_port := 0 },
   { src_node := 0, src_port := 1, dst_node := 0, dst_port := 0 }]

/-- The device `pdev_init` once node 1 is discovered and bound to entity 11
with a sink pad 0 and a source pad 1. -/
def pdev_one : psee_composite_device :=
  { pdev_init with
    asd_list := [{ fwnode := 1, entity := some { id := 11, pads := [1, 2] },
                   subdev := some 101 }] }

/-- Flags of pad `pad` of the entity `id` of the device: a pad of the bound
entity with that id, or the one pad of the DMA channel whose video entity has
that id; `none` when there is no such pad. -/
def media_pad_flags (pdev : psee_composite_device) (id pad : Nat) : Option Nat :=
  match (pdev.asd_list.filterMap fun ent => ent.entity).find? fun e => decide (e.id = id) with
  | some e => e.pads[pad]?
  | none =>
    match pdev.dmas.find? fun dma => decide (dma.entity = id) with
    | some dma => if pad = 0 then some dma.pad_flags else none
    | none => none

/-- The argument checks of the kernel's `media_create_pad_link`, a function of
the media controller and not of the driver, on the entities of the device:
`-EINVAL` when a pad index is out of range, when the source pad is without
`MEDIA_PAD_FL_SOURCE` or when the sink pad is without `MEDIA_PAD_FL_SINK`;
success otherwise, no allocation failing. -/
def media_create_pad_link (pdev : psee_composite_device) (l : media_link) : Int :=
  match media_pad_flags pdev l.source l.source_pad, media_pad_flags pdev l.sink l.sink_pad with
  | some fsource, some fsink =>
    if fsource &&& MEDIA_PAD_FL_SOURCE = 0 then -EINVAL
    else if fsink &&& MEDIA_PAD_FL_SINK = 0 then -EINVAL
    else 0
  | _, _ => -EINVAL

/-- The graph `fw_pair` with link creation answering as `media_create_pad_link`
on the entities of `pdev_pair`. -/
def fw_pair_checked : fwnode_graph :=
  { fw_pair with create_pad_link := fun _ l => media_create_pad_link pdev_pair l }

/-- The device node 0 whose capture port 0 is wired to port 0 of node 1, the
sink pad of its entity in `pdev_one`; link creation answers as
`media_create_pad_link` on the entities of `pdev_one`. -/
def fw_capture_from_sink : fwnode_graph where
  endpoints := fun n =>
    if n = 0 then [fw_ep 0 0 1 0] else if n = 1 then [fw_ep 1 0 0 0] else []
  add_subdev := fun _ _ => 0
  create_pad_link := fun _ l => media_create_pad_link pdev_one l
  register_subdev_nodes := 0
  media_device_register := 0

/-- The entities that a link joins to entity `e`, at either end. -/
def link_neighbours (links : List media_link) (e : Nat) : List Nat :=
  links.flatMap fun l =>
    (if l.source = e then [l.sink] else []) ++ (if l.sink = e then [l.source] else [])

/-- The entities reached from `seen` in at most `n` links, each once, in the
order in which they are met. -/
def media_graph_reach (links : List media_link) : Nat → List Nat → List Nat
  | 0, seen => seen
  | n + 1, seen =>
    media_graph_reach links n
      ((seen.flatMap (link_neighbours links)).foldl
        (fun acc e => if e ∈ acc then acc else acc ++ [e]) seen)

/-- The entities joined to `start` by a path of links, each once: the entities
that a graph walk from `start` returns. -/
def media_graph_component (links : List media_link) (start : Nat) : List Nat :=
  media_graph_reach links links.length [start]

/-- A media device for the completed chain: the walk from any entity returns
the channel 20, the filter 12 and the sensor 11; entity 20 is the video node
with its sink pad, fed by pad 1 of the filter, itself fed by the sensor.
Every kernel service succeeds. -/
def env_sensor_chain : media_device where
  function := fun e => if e = 20 then MEDIA_ENT_F_IO_V4L else 131072
  pad0 := fun e => { entity := e, index := 0, flags := if e = 11 then 2 else 1 }
  remote_pad := fun p =>
    if p.entity = 20 then some { entity := 12, index := 1, flags := 2 }
    else if p.entity = 12 then some { entity := 11, index := 0, flags := 2 }
    else none
  is_subdev := fun e => decide (e = 11 ∨ e = 12)
  walk_init_ok := true
  graph_walk := fun _ => [20, 12, 11]
  walk_bound := by intro _; simp
  s_stream := fun _ _ _ => 0
  media_pipeline_start := fun _ _ => 0

/-! ## Lemmas on the validation walk -/

theorem u32_inc_mod (a : Nat) : u32_inc (a % 4294967296) = (a + 1) % 4294967296 := by
  unfold u32_inc; omega

theorem validate_loop_eq (env : media_device) (l : List Nat) :
    ∀ (out : Option Nat) (a b : Nat),
      psee_pipeline_validate_loop env l (out, a % 4294967296, b % 4294967296) =
        ((l.filter (is_output_dma env)).foldl (fun _ e => some e) out,
          (a + (l.filter (is_input_dma env)).length) % 4294967296,
          (b + (l.filter (is_output_dma env)).length) % 4294967296) := by
  induction l with
  | nil => intro out a b; simp [psee_pipeline_validate_loop]
  | cons e rest ih =>
    intro out a b
    by_cases hf : env.function e = MEDIA_ENT_F_IO_V4L
    · by_cases hs : (env.pad0 e).flags &&& MEDIA_PAD_FL_SINK = 0
      · simp only [psee_pipeline_validate_loop, hf, hs, ne_eq, not_true_eq_false, if_false,
          u32_inc_mod, ih]
        simp [List.filter_cons, is_output_dma, is_input_dma, hf, hs, Nat.add_assoc,
          Nat.add_comm 1]
      · simp only [psee_pipeline_validate_loop, hf, hs, ne_eq, not_true_eq_false, if_false,
          not_false_eq_true, if_true, u32_inc_mod, ih]
        simp [List.filter_cons, is_output_dma, is_input_dma, hf, hs, Nat.add_assoc,
          Nat.add_comm 1]
    · simp only [psee_pipeline_validate_loop, hf, ne_eq, not_false_eq_true, if_true, ih]
      simp [List.filter_cons, is_output_dma, is_input_dma, hf]

theorem filter_length_lt (env : media_device) (start : Nat) (p : Nat → Bool) :
    ((env.graph_walk start).filter p).length < 4294967296 :=
  Nat.lt_of_le_of_lt (List.length_filter_le p _) (env.walk_bound start)

theorem validate_walk_eq (env : media_device) (start : Nat) (out : Option Nat) :
    psee_pipeline_validate_loop env (env.graph_walk start) (out, 0, 0) =
      (((env.graph_walk start).filter (is_output_dma env)).foldl (fun _ e => some e) out,
        ((env.graph_walk start).filter (is_input_dma env)).length,
        ((env.graph_walk start).filter (is_output_dma env)).length) := by
  have h := validate_loop_eq env (env.graph_walk start) out 0 0
  simp only [Nat.zero_mod, Nat.zero_add] at h
  rw [h, Nat.mod_eq_of_lt (filter_length_lt env start _),
    Nat.mod_eq_of_lt (filter_length_lt env start _)]

theorem validate_eq (env : media_device) (pipe : psee_pipeline) (start : Nat)
    (hinit : env.walk_init_ok = true) :
    psee_pipeline_validate env pipe start =
      if ((env.graph_walk start).filter (is_output_dma env)).length ≠ 1 ∨
          ((env.graph_walk start).filter (is_input_dma env)).length > 1 then
        (-EPIPE, { pipe with
          output := ((env.graph_walk start).filter (is_output_dma env)).foldl
            (fun _ e => some e) pipe.output })
      else
        (0, { pipe with
          output := ((env.graph_walk start).filter (is_output_dma env)).foldl
            (fun _ e => some e) pipe.output,
          num_dmas := u32_add ((env.graph_walk start).filter (is_input_dma env)).length
            ((env.graph_walk start).filter (is_output_dma env)).length }) := by
  unfold psee_pipeline_validate
  rw [validate_walk_eq]
  simp only [hinit, Bool.true_eq_false, if_false]

theorem prepare_first (env : media_device) (pipe : psee_pipeline)
    (start d k : Nat) (huse : pipe.use_count = 0) (hinit : env.walk_init_ok = true)
    (hout : (env.graph_walk start).filter (is_output_dma env) = [d])
    (hin : ((env.graph_walk start).filter (is_input_dma env)).length = k) (hk : k ≤ 1) :
    psee_pipeline_prepare env pipe start =
      (0, { use_count := 1, stream_count := pipe.stream_count, num_dmas := k + 1,
            output := some d }) := by
  have h1 : k + 1 < 4294967296 := by omega
  have h2 : ¬ (k > 1) := by omega
  unfold psee_pipeline_prepare
  rw [validate_eq env pipe start hinit, hout, hin]
  simp [huse, h2, u32_add, u32_inc, Nat.mod_eq_of_lt h1]

theorem prepare_used (env : media_device) (pipe : psee_pipeline) (dma : Nat)
    (huse : pipe.use_count ≠ 0) :
    psee_pipeline_prepare env pipe dma =
      (0, { pipe with use_count := u32_inc pipe.use_count }) := by
  simp [psee_pipeline_prepare, huse]

/-- Nested prepares on a used pipeline only count, up to the wrap of the
counter. -/
theorem prepare_n_used (env : media_device) (dma : Nat) (pipe : psee_pipeline) :
    ∀ n, 1 ≤ pipe.use_count → pipe.use_count + n ≤ 4294967296 →
      pipe.use_count < 4294967296 →
      psee_pipeline_prepare_n env dma n pipe =
        { pipe with use_count := (pipe.use_count + n) % 4294967296 } := by
  intro n
  induction n with
  | zero =>
    intro h1 h2 h3
    have h4 : (pipe.use_count + 0) % 4294967296 = pipe.use_count := by omega
    rw [psee_pipeline_prepare_n, h4]
  | succ n ih =>
    intro h1 h2 h3
    have hne : (pipe.use_count + n) % 4294967296 ≠ 0 := by omega
    have hinc : u32_inc ((pipe.use_count + n) % 4294967296) =
        (pipe.use_count + (n + 1)) % 4294967296 := by unfold u32_inc; omega
    rw [psee_pipeline_prepare_n, ih h1 (by omega) h3, prepare_used _ _ _ hne]
    simp only [hinc]

theorem cleanup_n_succ_left (pipe : psee_pipeline) :
    ∀ n, psee_pipeline_cleanup_n (n + 1) pipe =
      psee_pipeline_cleanup_n n (psee_pipeline_cleanup pipe) := by
  intro n
  induction n with
  | zero => simp only [psee_pipeline_cleanup_n]
  | succ n ih => rw [psee_pipeline_cleanup_n, ih, psee_pipeline_cleanup_n]

/-- Cleanups that do not release the last of `v` holders only count down. -/
theorem cleanup_n_held (pipe : psee_pipeline) (v : Nat) (hv1 : 1 ≤ v)
    (hv2 : v ≤ 4294967296) (huse : pipe.use_count = v % 4294967296) :
    ∀ m, m < v →
      psee_pipeline_cleanup_n m pipe =
        { pipe with use_count := (v - m) % 4294967296 } := by
  intro m
  induction m with
  | zero =>
    intro _
    rw [psee_pipeline_cleanup_n, Nat.sub_zero, ← huse]
  | succ m ih =>
    intro hm
    rw [psee_pipeline_cleanup_n, ih (by omega)]
    have hne : (v - (m + 1)) % 4294967296 ≠ 0 := by omega
    have heq : u32_dec ((v - m) % 4294967296) = (v - (m + 1)) % 4294967296 := by
      unfold u32_dec; omega
    simp only [psee_pipeline_cleanup, heq, hne, if_false]

theorem cleanup_last (pipe : psee_pipeline) (huse : pipe.use_count = 1) :
    psee_pipeline_cleanup pipe =
      { use_count := 0, stream_count := pipe.stream_count, num_dmas := 0,
        output := none } := by
  simp [psee_pipeline_cleanup, huse, u32_dec, __psee_pipeline_cleanup]

theorem prepare_n_succ_left (env : media_device) (dma : Nat) (pipe : psee_pipeline) :
    ∀ n, psee_pipeline_prepare_n env dma (n + 1) pipe =
      psee_pipeline_prepare_n env dma n (psee_pipeline_prepare env pipe dma).2 := by
  intro n
  induction n with
  | zero => simp only [psee_pipeline_prepare_n]
  | succ n ih => rw [psee_pipeline_prepare_n, ih, psee_pipeline_prepare_n]

/-- The pipeline after `j ≥ 1` nested prepares over a valid component, as long
as the use count has not wrapped past `2^32`. -/
theorem prepare_n_valid (env : media_device) (pipe : psee_pipeline)
    (start d k : Nat) (huse : pipe.use_count = 0) (hinit : env.walk_init_ok = true)
    (hout : (env.graph_walk start).filter (is_output_dma env) = [d])
    (hin : ((env.graph_walk start).filter (is_input_dma env)).length = k) (hk : k ≤ 1)
    (j : Nat) (hj1 : 1 ≤ j) (hj2 : j ≤ 4294967296) :
    psee_pipeline_prepare_n env start j pipe =
      { use_count := j % 4294967296, stream_count := pipe.stream_count, num_dmas := k + 1,
        output := some d } := by
  obtain ⟨n, rfl⟩ : ∃ n, j = n + 1 := ⟨j - 1, by omega⟩
  rw [prepare_n_succ_left, prepare_first env pipe start d k huse hinit hout hin hk,
    prepare_n_used env start _ n (Nat.le_refl 1) (by show 1 + n ≤ 4294967296; omega)
      (by show 1 < 4294967296; omega)]
  have h : (1 + n) % 4294967296 = (n + 1) % 4294967296 := by omega
  simp only [h]

/-- The two outcomes of `psee_pipeline_prepare` on an unused pipeline: an error
that leaves it empty, or success on a component with one output and at most one
input channel. -/
theorem prepare_unused (env : media_device) (pipe : psee_pipeline) (dma : Nat)
    (huse : pipe.use_count = 0) :
    (∃ r, r < 0 ∧ psee_pipeline_prepare env pipe dma =
      (r, { use_count := 0, stream_count := pipe.stream_count, num_dmas := 0,
            output := none })) ∨
    (∃ o, ((env.graph_walk dma).filter (is_output_dma env)).length = 1 ∧
      ((env.graph_walk dma).filter (is_input_dma env)).length ≤ 1 ∧
      psee_pipeline_prepare env pipe dma =
        (0, { use_count := 1, stream_count := pipe.stream_count,
              num_dmas := ((env.graph_walk dma).filter (is_input_dma env)).length + 1,
              output := o })) := by
  by_cases hinit : env.walk_init_ok = true
  · by_cases hshape : ((env.graph_walk dma).filter (is_output_dma env)).length ≠ 1 ∨
        ((env.graph_walk dma).filter (is_input_dma env)).length > 1
    · left
      refine ⟨-EPIPE, by decide, ?_⟩
      unfold psee_pipeline_prepare
      rw [if_pos huse, validate_eq env pipe dma hinit, if_pos hshape]
      simp only [show (-EPIPE : Int) < 0 by decide, if_true, __psee_pipeline_cleanup, huse]
    · right
      have h1 : ((env.graph_walk dma).filter (is_output_dma env)).length = 1 := by omega
      have h2 : ((env.graph_walk dma).filter (is_input_dma env)).length ≤ 1 := by omega
      refine ⟨((env.graph_walk dma).filter (is_output_dma env)).foldl
        (fun _ e => some e) pipe.output, h1, h2, ?_⟩
      unfold psee_pipeline_prepare
      rw [if_pos huse, validate_eq env pipe dma hinit, if_neg hshape]
      have h3 : u32_add ((env.graph_walk dma).filter (is_input_dma env)).length
          ((env.graph_walk dma).filter (is_output_dma env)).length =
          ((env.graph_walk dma).filter (is_input_dma env)).length + 1 := by
        unfold u32_add; omega
      have h4 : u32_inc 0 = 1 := by decide
      simp only [show ¬ ((0 : Int) < 0) by decide, if_false, huse, h3, h4]
  · left
    refine ⟨-ENOMEM, by decide, ?_⟩
    have hfalse : env.walk_init_ok = false := by simpa using hinit
    unfold psee_pipeline_prepare psee_pipeline_validate
    rw [if_pos huse, if_pos hfalse]
    simp only [show (-ENOMEM : Int) < 0 by decide, if_true, __psee_pipeline_cleanup, huse]

theorem cleanup_eq (pipe : psee_pipeline) :
    psee_pipeline_cleanup pipe =
      if u32_dec pipe.use_count = 0 then
        { use_count := 0, stream_count := pipe.stream_count, num_dmas := 0, output := none }
      else { pipe with use_count := u32_dec pipe.use_count } := by
  unfold psee_pipeline_cleanup
  by_cases h : u32_dec pipe.use_count = 0
  · simp only [h, if_true, __psee_pipeline_cleanup]
  · simp only [h, if_false]

/-- The invariant of nested prepares below the wrap of the use count. -/
theorem prepare_reach_inv (held : Nat) (pipe : psee_pipeline)
    (h : prepare_reach 4294967295 held pipe) :
    held ≤ 4294967295 ∧ pipe.use_count = held ∧ (held = 0 → pipe.num_dmas = 0) ∧
      (held ≠ 0 → pipe.num_dmas ≠ 0) := by
  induction h with
  | empty => exact ⟨by omega, rfl, fun _ => rfl, fun h => absurd rfl h⟩
  | prepare env dma held pipe _ hlt ih =>
    obtain ⟨_, huse, hz, hnz⟩ := ih
    have hpos : ¬ ((0 : Int) < 0) := by decide
    by_cases h0 : held = 0
    · have huse0 : pipe.use_count = 0 := by omega
      rcases prepare_unused env pipe dma huse0 with ⟨r, hr, heq⟩ | ⟨o, _, hin, heq⟩
      · rw [heq, if_pos hr]
        exact ⟨by omega, h0.symm, fun _ => rfl, fun h => absurd h0 h⟩
      · rw [heq, if_neg hpos]
        refine ⟨by omega, ?_, fun h => by omega, fun _ => ?_⟩
        · show 1 = held + 1
          omega
        · show ((env.graph_walk dma).filter (is_input_dma env)).length + 1 ≠ 0
          omega
    · have hne : pipe.use_count ≠ 0 := by omega
      rw [prepare_used env pipe dma hne, if_neg hpos]
      have hinc : u32_inc pipe.use_count = held + 1 := by unfold u32_inc; omega
      exact ⟨by omega, hinc, fun h => by omega, fun _ => hnz h0⟩
  | cleanup held pipe _ hpos ih =>
    obtain ⟨hle, huse, hz, hnz⟩ := ih
    have hdec : u32_dec pipe.use_count = held - 1 := by unfold u32_dec; omega
    rw [cleanup_eq, hdec]
    by_cases h1 : held - 1 = 0
    · rw [if_pos h1]
      exact ⟨by omega, h1.symm, fun _ => rfl, fun h => absurd h1 h⟩
    · rw [if_neg h1]
      exact ⟨by omega, rfl, fun h => absurd h h1, fun _ => hnz (by omega)⟩

/-- With `2^32` prepares allowed at a time, `n + 1` nested prepares over the
single-channel graph are reachable and leave the use count at `(n + 1) mod
2^32`. -/
theorem prepare_reach_many (n : Nat) (hn : n + 1 ≤ 4294967296) :
    prepare_reach 4294967296 (n + 1)
      { use_count := (n + 1) % 4294967296, stream_count := 0, num_dmas := 1,
        output := some 0 } := by
  induction n with
  | zero =>
    have h := prepare_reach.prepare (env_single 0) 0 0 psee_pipeline_empty
      (prepare_reach.empty : prepare_reach 4294967296 0 psee_pipeline_empty) (by omega)
    rw [prepare_first (env_single 0) _ 0 0 0 rfl rfl (by decide) (by decide) (by decide)]
      at h
    simpa using h
  | succ n ih =>
    have hne : (n + 1) % 4294967296 ≠ 0 := by omega
    have h := prepare_reach.prepare (env_single 0) 0 (n + 1) _ (ih (by omega)) (by omega)
    rw [prepare_used _ _ _ hne] at h
    have hinc : u32_inc ((n + 1) % 4294967296) = (n + 1 + 1) % 4294967296 := by
      unfold u32_inc; omega
    simp only [show ¬ ((0 : Int) < 0) by decide, if_false, hinc] at h
    exact h

/-! ## Lemmas on the chain walk -/

theorem loop_step (env : media_device) (start : Bool) (n entity hop : Nat)
    (tr : List psee_event) (h : chain_step env entity hop = true) :
    psee_pipeline_start_stop_loop env start (n + 1) entity tr =
      if start = true ∧ env.s_stream tr hop start < 0 ∧ env.s_stream tr hop start ≠ -ENOIOCTLCMD
      then Run.ret (env.s_stream tr hop start, tr ++ [psee_event.s_stream hop start])
      else psee_pipeline_start_stop_loop env start n hop
        (tr ++ [psee_event.s_stream hop start]) := by
  unfold chain_step at h
  simp only [Bool.and_eq_true, decide_eq_true_eq] at h
  obtain ⟨hflag, hrem⟩ := h
  rw [psee_pipeline_start_stop_loop]
  cases hr : env.remote_pad (env.pad0 entity) with
  | none => simp [hr] at hrem
  | some rpad =>
    simp only [hr, Bool.and_eq_true, decide_eq_true_eq] at hrem
    obtain ⟨he, hsub⟩ := hrem
    subst he
    simp only [hflag, if_false, hsub, Bool.true_eq_false]

theorem loop_end (env : media_device) (start : Bool) (n entity : Nat)
    (tr : List psee_event) (h : chain_end env entity = true) :
    psee_pipeline_start_stop_loop env start (n + 1) entity tr = Run.ret (0, tr) := by
  unfold chain_end at h
  rw [psee_pipeline_start_stop_loop]
  by_cases hflag : (env.pad0 entity).flags &&& MEDIA_PAD_FL_SINK = 0
  · simp only [hflag, if_true]
  · cases hr : env.remote_pad (env.pad0 entity) with
    | none => simp only [hflag, if_false]
    | some rpad =>
      simp only [hflag, hr, decide_False, Bool.false_or, Bool.not_eq_true'] at h
      simp only [hflag, if_false, h, if_true]

/-- The stop walk calls `s_stream(0)` on every hop of the chain and returns 0,
whatever the hops return. -/
theorem loop_stop (env : media_device) (hops : List Nat) :
    ∀ (entity fuel : Nat) (tr : List psee_event), chain_of env entity hops = true →
      hops.length < fuel →
      psee_pipeline_start_stop_loop env false fuel entity tr =
        Run.ret (0, tr ++ hop_events false hops) := by
  induction hops with
  | nil =>
    intro entity fuel tr hc hf
    obtain ⟨n, rfl⟩ : ∃ n, fuel = n + 1 := ⟨fuel - 1, by simp at hf; omega⟩
    simpa [hop_events] using loop_end env false n entity tr hc
  | cons hop rest ih =>
    intro entity fuel tr hc hf
    obtain ⟨n, rfl⟩ : ∃ n, fuel = n + 1 := ⟨fuel - 1, by simp at hf; omega⟩
    simp only [chain_of, Bool.and_eq_true] at hc
    rw [loop_step env false n entity hop tr hc.1]
    simp only [Bool.false_eq_true, false_and, if_false]
    rw [ih hop n _ hc.2 (by simpa using hf)]
    simp [hop_events]

/-- The start walk over a chain none of whose hops fails calls `s_stream(1)` on
every hop and returns 0. -/
theorem loop_start_ok (env : media_device) (hops : List Nat) :
    ∀ (entity fuel : Nat) (tr : List psee_event), chain_of env entity hops = true →
      hops_start_ok env tr hops → hops.length < fuel →
      psee_pipeline_start_stop_loop env true fuel entity tr =
        Run.ret (0, tr ++ hop_events true hops) := by
  induction hops with
  | nil =>
    intro entity fuel tr hc _ hf
    obtain ⟨n, rfl⟩ : ∃ n, fuel = n + 1 := ⟨fuel - 1, by simp at hf; omega⟩
    simpa [hop_events] using loop_end env true n entity tr hc
  | cons hop rest ih =>
    intro entity fuel tr hc hok hf
    obtain ⟨n, rfl⟩ : ∃ n, fuel = n + 1 := ⟨fuel - 1, by simp at hf; omega⟩
    simp only [chain_of, Bool.and_eq_true] at hc
    obtain ⟨hok1, hok2⟩ := hok
    rw [loop_step env true n entity hop tr hc.1]
    have hnf : ¬ (true = true ∧ env.s_stream tr hop true < 0 ∧
        env.s_stream tr hop true ≠ -ENOIOCTLCMD) := fun h => hok1 h.2
    rw [if_neg hnf, ih hop n _ hc.2 hok2 (by simpa using hf)]
    simp [hop_events]

/-- The start walk stops at the first hop that fails and returns its error. -/
theorem loop_start_fail (env : media_device) (pre : List Nat) (bad : Nat) (post : List Nat) :
    ∀ (entity fuel : Nat) (tr : List psee_event),
      chain_path env entity (pre ++ bad :: post) = true →
      hops_start_ok env tr pre →
      start_failed (env.s_stream (tr ++ hop_events true pre) bad true) →
      pre.length < fuel →
      psee_pipeline_start_stop_loop env true fuel entity tr =
        Run.ret (env.s_stream (tr ++ hop_events true pre) bad true,
          tr ++ hop_events true (pre ++ [bad])) := by
  induction pre with
  | nil =>
    intro entity fuel tr hc _ hbad hf
    obtain ⟨n, rfl⟩ : ∃ n, fuel = n + 1 := ⟨fuel - 1, by omega⟩
    simp only [List.nil_append, chain_path, Bool.and_eq_true] at hc
    simp only [hop_events, List.map_nil, List.append_nil] at hbad
    rw [loop_step env true n entity bad tr hc.1]
    have hf : true = true ∧ env.s_stream tr bad true < 0 ∧
        env.s_stream tr bad true ≠ -ENOIOCTLCMD := ⟨rfl, hbad⟩
    rw [if_pos hf]
    simp [hop_events]
  | cons hop rest ih =>
    intro entity fuel tr hc hok hbad hf
    obtain ⟨n, rfl⟩ : ∃ n, fuel = n + 1 := ⟨fuel - 1, by simp at hf; omega⟩
    simp only [List.cons_append, chain_path, Bool.and_eq_true] at hc
    obtain ⟨hok1, hok2⟩ := hok
    rw [loop_step env true n entity hop tr hc.1]
    have hnf : ¬ (true = true ∧ env.s_stream tr hop true < 0 ∧
        env.s_stream tr hop true ≠ -ENOIOCTLCMD) := fun h => hok1 h.2
    have hbad2 : start_failed
        (env.s_stream (tr ++ [psee_event.s_stream hop true] ++ hop_events true rest) bad true) := by
      simpa [hop_events] using hbad
    rw [if_neg hnf, ih hop n _ hc.2 hok2 hbad2 (by simpa using hf)]
    simp [hop_events]

/-- Whatever the chain walk returns, its trace extends the one it was given,
and the value is 0 or negative. -/
theorem loop_trace (env : media_device) (start : Bool) :
    ∀ (fuel entity : Nat) (tr : List psee_event) (r : Int) (tr1 : List psee_event),
      psee_pipeline_start_stop_loop env start fuel entity tr = Run.ret (r, tr1) →
      (∃ rest, tr1 = tr ++ rest) ∧ (r = 0 ∨ r < 0) := by
  intro fuel
  induction fuel with
  | zero =>
    intro entity tr r tr1 h
    rw [psee_pipeline_start_stop_loop] at h
    exact absurd h (by simp)
  | succ n ih =>
    intro entity tr r tr1 h
    by_cases hend : chain_end env entity = true
    · rw [loop_end env start n entity tr hend] at h
      simp only [Run.ret.injEq, Prod.mk.injEq] at h
      exact ⟨⟨[], by simp [h.2]⟩, Or.inl h.1.symm⟩
    · obtain ⟨hop, hstep⟩ : ∃ hop, chain_step env entity hop = true := by
        unfold chain_end at hend
        unfold chain_step
        cases hr : env.remote_pad (env.pad0 entity) with
        | none => simp [hr] at hend
        | some rpad =>
          refine ⟨rpad.entity, ?_⟩
          simp only [hr, Bool.or_eq_true, decide_eq_true_eq, Bool.not_eq_true', not_or,
            Bool.not_eq_false] at hend
          simp [hend.1, hend.2]
      rw [loop_step env start n entity hop tr hstep] at h
      by_cases hfail : start = true ∧ env.s_stream tr hop start < 0 ∧
          env.s_stream tr hop start ≠ -ENOIOCTLCMD
      · rw [if_pos hfail] at h
        simp only [Run.ret.injEq, Prod.mk.injEq] at h
        exact ⟨⟨_, h.2.symm⟩, Or.inr (h.1 ▸ hfail.2.1)⟩
      · rw [if_neg hfail] at h
        obtain ⟨⟨rest, hrest⟩, hr⟩ := ih _ _ _ _ h
        exact ⟨⟨psee_event.s_stream hop start :: rest, by simp [hrest]⟩, hr⟩

/-! ## Lemmas on the stream state -/

theorem set_stream_count_eta (pipe : psee_pipeline) (n : Nat) (h : pipe.stream_count = n) :
    ({ pipe with stream_count := n } : psee_pipeline) = pipe := by
  cases pipe
  simp only at h
  subst h
  rfl

theorem start_stop_eq (fuel : Nat) (env : media_device) (pipe : psee_pipeline) (out : Nat)
    (start : Bool) (tr : List psee_event) (hout : pipe.output = some out) :
    psee_pipeline_start_stop fuel env pipe start tr =
      psee_pipeline_start_stop_loop env start fuel out
        (tr ++ [psee_event.chain_walk start]) := by
  unfold psee_pipeline_start_stop
  simp only [hout]

theorem set_stream_on_below (fuel : Nat) (env : media_device) (pipe : psee_pipeline)
    (tr : List psee_event) (h : pipe.stream_count ≠ u32_dec pipe.num_dmas) :
    psee_pipeline_set_stream fuel env pipe true tr =
      Run.ret (0, { pipe with stream_count := u32_inc pipe.stream_count }, tr) := by
  unfold psee_pipeline_set_stream
  simp only [if_true, h, if_false]

theorem set_stream_on_barrier (fuel : Nat) (env : media_device) (pipe : psee_pipeline)
    (tr : List psee_event) (r : Int) (tr1 : List psee_event)
    (h : pipe.stream_count = u32_dec pipe.num_dmas)
    (hrun : psee_pipeline_start_stop fuel env pipe true tr = Run.ret (r, tr1)) :
    psee_pipeline_set_stream fuel env pipe true tr =
      if r < 0 then Run.ret (r, pipe, tr1)
      else Run.ret (r, { pipe with stream_count := u32_inc pipe.stream_count }, tr1) := by
  unfold psee_pipeline_set_stream
  simp only [if_true, h, hrun]

theorem set_stream_off_nz (fuel : Nat) (env : media_device) (pipe : psee_pipeline)
    (tr : List psee_event) (h : u32_dec pipe.stream_count ≠ 0) :
    psee_pipeline_set_stream fuel env pipe false tr =
      Run.ret (0, { pipe with stream_count := u32_dec pipe.stream_count }, tr) := by
  unfold psee_pipeline_set_stream
  simp only [Bool.false_eq_true, if_false, h]

theorem set_stream_off_z (fuel : Nat) (env : media_device) (pipe : psee_pipeline)
    (tr : List psee_event) (r : Int) (tr1 : List psee_event)
    (h : u32_dec pipe.stream_count = 0)
    (hrun : psee_pipeline_start_stop fuel env
      { pipe with stream_count := u32_dec pipe.stream_count } false tr = Run.ret (r, tr1)) :
    psee_pipeline_set_stream fuel env pipe false tr =
      Run.ret (0, { pipe with stream_count := u32_dec pipe.stream_count }, tr1) := by
  unfold psee_pipeline_set_stream
  rw [h] at hrun
  simp only [Bool.false_eq_true, if_false, h, if_true, hrun]

theorem set_stream_n_succ (fuel : Nat) (env : media_device) (enable : Bool) (n : Nat)
    (pipe pipe1 pipe2 : psee_pipeline) (tr tr1 tr2 : List psee_event) (rets : List Int)
    (ret : Int)
    (h1 : psee_pipeline_set_stream_n fuel env enable n pipe tr = Run.ret (rets, pipe1, tr1))
    (h2 : psee_pipeline_set_stream fuel env pipe1 enable tr1 = Run.ret (ret, pipe2, tr2)) :
    psee_pipeline_set_stream_n fuel env enable (n + 1) pipe tr =
      Run.ret (rets ++ [ret], pipe2, tr2) := by
  rw [psee_pipeline_set_stream_n]
  simp only [h1, h2]

/-- Stream-on calls below the barrier only count. -/
theorem set_stream_n_on_below (fuel : Nat) (env : media_device) (pipe : psee_pipeline)
    (tr : List psee_event) (n : Nat) (hn2 : n < 4294967296) (hnum : pipe.num_dmas = n)
    (hsc : pipe.stream_count = 0) :
    ∀ k, k < n →
      psee_pipeline_set_stream_n fuel env true k pipe tr =
        Run.ret (List.replicate k 0, { pipe with stream_count := k }, tr) := by
  intro k
  induction k with
  | zero =>
    intro _
    rw [psee_pipeline_set_stream_n, set_stream_count_eta pipe 0 hsc, List.replicate_zero]
  | succ k ih =>
    intro hk
    have hne : k ≠ u32_dec n := by unfold u32_dec; omega
    have hinc : u32_inc k = k + 1 := by unfold u32_inc; omega
    have hstep := set_stream_on_below fuel env { pipe with stream_count := k } tr
      (by rw [hnum]; exact hne)
    rw [set_stream_n_succ fuel env true k pipe _ _ tr _ _ _ _ (ih (by omega)) hstep,
      List.replicate_succ']
    simp only [hinc]

/-- Stream-off calls above zero only count. -/
theorem set_stream_n_off_above (fuel : Nat) (env : media_device) (pipe : psee_pipeline)
    (tr : List psee_event) (n : Nat) (hn2 : n < 4294967296) (hsc : pipe.stream_count = n) :
    ∀ k, k < n →
      psee_pipeline_set_stream_n fuel env false k pipe tr =
        Run.ret (List.replicate k 0, { pipe with stream_count := n - k }, tr) := by
  intro k
  induction k with
  | zero =>
    intro _
    rw [psee_pipeline_set_stream_n, Nat.sub_zero, set_stream_count_eta pipe n hsc,
      List.replicate_zero]
  | succ k ih =>
    intro hk
    have hdec : u32_dec (n - k) = n - (k + 1) := by unfold u32_dec; omega
    have hne : u32_dec (n - k) ≠ 0 := by unfold u32_dec; omega
    have hstep := set_stream_off_nz fuel env { pipe with stream_count := n - k } tr hne
    rw [set_stream_n_succ fuel env false k pipe _ _ tr _ _ _ _ (ih (by omega)) hstep,
      List.replicate_succ']
    simp only [hdec]

theorem set_stream_on_cases (fuel : Nat) (env : media_device) (pipe pipe1 : psee_pipeline)
    (tr tr1 : List psee_event) (ret : Int)
    (h : psee_pipeline_set_stream fuel env pipe true tr = Run.ret (ret, pipe1, tr1)) :
    (ret < 0 ∧ pipe1 = pipe) ∨
      (¬ ret < 0 ∧ pipe1 = { pipe with stream_count := u32_inc pipe.stream_count }) := by
  by_cases hb : pipe.stream_count = u32_dec pipe.num_dmas
  · cases hrun : psee_pipeline_start_stop fuel env pipe true tr with
    | ret a =>
      obtain ⟨r, t⟩ := a
      rw [set_stream_on_barrier fuel env pipe tr r t hb hrun] at h
      by_cases hr : r < 0
      · rw [if_pos hr] at h
        simp only [Run.ret.injEq, Prod.mk.injEq] at h
        exact Or.inl ⟨h.1 ▸ hr, h.2.1.symm⟩
      · rw [if_neg hr] at h
        simp only [Run.ret.injEq, Prod.mk.injEq] at h
        exact Or.inr ⟨h.1 ▸ hr, h.2.1.symm⟩
    | oops =>
      unfold psee_pipeline_set_stream at h
      simp only [if_true, hb, hrun] at h
      exact absurd h (by simp)
    | fuel =>
      unfold psee_pipeline_set_stream at h
      simp only [if_true, hb, hrun] at h
      exact absurd h (by simp)
  · rw [set_stream_on_below fuel env pipe tr hb] at h
    simp only [Run.ret.injEq, Prod.mk.injEq] at h
    exact Or.inr ⟨h.1 ▸ (by decide), h.2.1.symm⟩

theorem set_stream_off_cases (fuel : Nat) (env : media_device) (pipe pipe1 : psee_pipeline)
    (tr tr1 : List psee_event) (ret : Int)
    (h : psee_pipeline_set_stream fuel env pipe false tr = Run.ret (ret, pipe1, tr1)) :
    pipe1 = { pipe with stream_count := u32_dec pipe.stream_count } := by
  by_cases hz : u32_dec pipe.stream_count = 0
  · cases hrun : psee_pipeline_start_stop fuel env
        { pipe with stream_count := u32_dec pipe.stream_count } false tr with
    | ret a =>
      obtain ⟨r, t⟩ := a
      rw [set_stream_off_z fuel env pipe tr r t hz hrun] at h
      simp only [Run.ret.injEq, Prod.mk.injEq] at h
      exact h.2.1.symm
    | oops =>
      unfold psee_pipeline_set_stream at h
      rw [hz] at hrun
      simp only [Bool.false_eq_true, if_false, hz, if_true, hrun] at h
      exact absurd h (by simp)
    | fuel =>
      unfold psee_pipeline_set_stream at h
      rw [hz] at hrun
      simp only [Bool.false_eq_true, if_false, hz, if_true, hrun] at h
      exact absurd h (by simp)
  · rw [set_stream_off_nz fuel env pipe tr hz] at h
    simp only [Run.ret.injEq, Prod.mk.injEq] at h
    exact h.2.1.symm

/-! ## Lemmas on the channels of a pipeline -/

theorem dma_split (env : media_device) (l : List Nat) :
    (l.filter (is_output_dma env)).length + (l.filter (is_input_dma env)).length =
      (l.filter (is_dma env)).length := by
  induction l with
  | nil => rfl
  | cons e rest ih =>
    by_cases hf : env.function e = MEDIA_ENT_F_IO_V4L
    · by_cases hs : (env.pad0 e).flags &&& MEDIA_PAD_FL_SINK = 0
      · simp only [List.filter_cons, is_output_dma, is_input_dma, is_dma, hf, hs, ne_eq,
          not_true_eq_false, decide_True, decide_False, Bool.and_true, Bool.and_false,
          if_true, Bool.false_eq_true, if_false, List.length_cons] at ih ⊢
        omega
      · simp only [List.filter_cons, is_output_dma, is_input_dma, is_dma, hf, hs, ne_eq,
          not_false_eq_true, decide_True, decide_False, Bool.and_true, Bool.and_false,
          if_true, Bool.false_eq_true, if_false, List.length_cons] at ih ⊢
        omega
    · simp only [List.filter_cons, is_output_dma, is_input_dma, is_dma, hf, decide_False,
        Bool.false_and, Bool.false_eq_true, if_false] at ih ⊢
      exact ih

theorem channels_card (env : media_device) (chans : Finset Nat)
    (hch : pipeline_channels env chans) (c : Nat) (hc : c ∈ chans) :
    ((env.graph_walk c).filter (is_output_dma env)).length +
        ((env.graph_walk c).filter (is_input_dma env)).length = chans.card ∧
      chans.card < 4294967296 := by
  obtain ⟨hnd, hset⟩ := hch c hc
  have hlen : ((env.graph_walk c).filter (is_dma env)).length = chans.card := by
    rw [← hset, List.toFinset_card_of_nodup (hnd.filter _)]
  have hlt := filter_length_lt env c (is_dma env)
  rw [dma_split]
  exact ⟨hlen, by omega⟩

/-- The invariant of the channel protocol with nested stream-ons: the use count
is the number of channels holding a prepare, the stream count the number of
channels holding a stream-on, and a used pipeline counts all its channels. -/
theorem channel_reach_inv (env : media_device) (chans : Finset Nat)
    (hch : pipeline_channels env chans) (pipe : psee_pipeline) (prep strm : Finset Nat)
    (tr : List psee_event) (h : channel_reach env chans true pipe prep strm tr) :
    strm ⊆ prep ∧ prep ⊆ chans ∧ pipe.use_count = prep.card ∧
      pipe.stream_count = strm.card ∧ (prep = ∅ → pipe.num_dmas = 0) ∧
      (prep ≠ ∅ → pipe.num_dmas = chans.card) := by
  induction h with
  | empty =>
    exact ⟨Finset.Subset.refl _, Finset.empty_subset _, rfl, rfl, fun _ => rfl,
      fun h => absurd rfl h⟩
  | prepare c pipe prep strm tr _ hc hcp ih =>
    obtain ⟨hsp, hpc, huse, hsc, hz, hnz⟩ := ih
    obtain ⟨hcount, hlt⟩ := channels_card env chans hch c hc
    have hins : insert c prep ⊆ chans := Finset.insert_subset hc hpc
    have hcard : prep.card + 1 ≤ chans.card := by
      rw [← Finset.card_insert_of_not_mem hcp]
      exact Finset.card_le_card hins
    have hpos : ¬ ((0 : Int) < 0) := by decide
    by_cases h0 : prep = ∅
    · have huse0 : pipe.use_count = 0 := by rw [huse, h0, Finset.card_empty]
      rcases prepare_unused env pipe c huse0 with ⟨r, hr, heq⟩ | ⟨o, hout, _, heq⟩
      · rw [heq, if_pos hr]
        refine ⟨hsp, hpc, ?_, hsc, fun _ => rfl, fun h => absurd h0 h⟩
        show 0 = prep.card
        rw [h0, Finset.card_empty]
      · rw [heq, if_neg hpos]
        refine ⟨hsp.trans (Finset.subset_insert c prep), hins, ?_, hsc,
          fun h => absurd h (Finset.insert_ne_empty c prep), fun _ => ?_⟩
        · show 1 = (insert c prep).card
          rw [Finset.card_insert_of_not_mem hcp, h0, Finset.card_empty]
        · show ((env.graph_walk c).filter (is_input_dma env)).length + 1 = chans.card
          omega
    · have hne : pipe.use_count ≠ 0 := by
        rw [huse]
        exact fun h => h0 (Finset.card_eq_zero.mp h)
      have hinc : u32_inc pipe.use_count = (insert c prep).card := by
        rw [Finset.card_insert_of_not_mem hcp, huse]
        unfold u32_inc
        omega
      rw [prepare_used env pipe c hne, if_neg hpos]
      exact ⟨hsp.trans (Finset.subset_insert c prep), hins, hinc, hsc,
        fun h => absurd h (Finset.insert_ne_empty c prep), fun _ => hnz h0⟩
  | cleanup c pipe prep strm tr _ hcp hns ih =>
    obtain ⟨hsp, hpc, huse, hsc, hz, hnz⟩ := ih
    obtain ⟨_, hlt⟩ := channels_card env chans hch c (hpc hcp)
    have hle : prep.card ≤ chans.card := Finset.card_le_card hpc
    have hpos : 0 < prep.card := Finset.card_pos.mpr ⟨c, hcp⟩
    have herase : (prep.erase c).card = prep.card - 1 := Finset.card_erase_of_mem hcp
    have hdec : u32_dec pipe.use_count = (prep.erase c).card := by
      rw [herase, huse]
      unfold u32_dec
      omega
    have hsub : strm ⊆ prep.erase c := Finset.subset_erase.mpr ⟨hsp, hns rfl⟩
    have hne : prep ≠ ∅ := Finset.ne_empty_of_mem hcp
    rw [cleanup_eq, hdec]
    by_cases h1 : (prep.erase c).card = 0
    · rw [if_pos h1]
      exact ⟨hsub, (Finset.erase_subset c prep).trans hpc, h1.symm, hsc, fun _ => rfl,
        fun h => absurd (Finset.card_eq_zero.mp h1) h⟩
    · rw [if_neg h1]
      exact ⟨hsub, (Finset.erase_subset c prep).trans hpc, rfl, hsc,
        fun h => absurd (by rw [h, Finset.card_empty]) h1, fun _ => hnz hne⟩
  | stream_on c fuel ret pipe pipe1 prep strm tr tr1 _ hc hns hcp hrun ih =>
    obtain ⟨hsp, hpc, huse, hsc, hz, hnz⟩ := ih
    obtain ⟨_, hlt⟩ := channels_card env chans hch c hc
    have hins : insert c strm ⊆ prep := Finset.insert_subset (hcp rfl) hsp
    have hcard : strm.card + 1 ≤ chans.card := by
      rw [← Finset.card_insert_of_not_mem hns]
      exact Finset.card_le_card (hins.trans hpc)
    rcases set_stream_on_cases fuel env pipe pipe1 tr tr1 ret hrun with ⟨hr, hp⟩ | ⟨hr, hp⟩
    · rw [hp, if_pos hr]
      exact ⟨hsp, hpc, huse, hsc, hz, hnz⟩
    · have hinc : u32_inc pipe.stream_count = (insert c strm).card := by
        rw [Finset.card_insert_of_not_mem hns, hsc]
        unfold u32_inc
        omega
      rw [hp, if_neg hr]
      exact ⟨hins, hpc, huse, hinc, hz, hnz⟩
  | stream_off c fuel ret pipe pipe1 prep strm tr tr1 _ hcs hrun ih =>
    obtain ⟨hsp, hpc, huse, hsc, hz, hnz⟩ := ih
    obtain ⟨_, hlt⟩ := channels_card env chans hch c (hpc (hsp hcs))
    have hle : strm.card ≤ chans.card := Finset.card_le_card (hsp.trans hpc)
    have hpos : 0 < strm.card := Finset.card_pos.mpr ⟨c, hcs⟩
    have hdec : u32_dec pipe.stream_count = (strm.erase c).card := by
      rw [Finset.card_erase_of_mem hcs, hsc]
      unfold u32_dec
      omega
    rw [set_stream_off_cases fuel env pipe pipe1 tr tr1 ret hrun]
    exact ⟨(Finset.erase_subset c strm).trans hsp, hpc, huse, hdec, hz, hnz⟩

/-! ## Lemmas on the buffer queue -/

theorem return_buffers_eq (state : vb2_buffer_state) (bufs : List Nat) :
    ∀ tr, psee_dma_return_buffers state bufs tr =
      ([], tr ++ bufs.map (fun b => psee_event.buffer_done b state)) := by
  induction bufs with
  | nil => intro tr; simp only [psee_dma_return_buffers, List.map_nil, List.append_nil]
  | cons b rest ih =>
    intro tr
    rw [psee_dma_return_buffers, ih]
    simp only [List.map_cons, List.append_assoc, List.singleton_append]

theorem verify_format_cases (env : media_device) (dma : psee_dma) :
    psee_dma_verify_format env dma = -EPIPE ∨ psee_dma_verify_format env dma = 0 := by
  unfold psee_dma_verify_format
  cases env.remote_pad (env.pad0 dma.entity) with
  | none => exact Or.inl rfl
  | some remote =>
    by_cases h : env.is_subdev remote.entity = false
    · exact Or.inl (if_pos h)
    · exact Or.inr (if_neg h)

/-- A failing prepare leaves the use count and the stream count as they were
and the pipeline without channels. -/
theorem prepare_fail (env : media_device) (pipe : psee_pipeline) (dma : Nat)
    (h : (psee_pipeline_prepare env pipe dma).1 < 0) :
    (psee_pipeline_prepare env pipe dma).2 =
      { use_count := pipe.use_count, stream_count := pipe.stream_count, num_dmas := 0,
        output := none } := by
  by_cases huse : pipe.use_count = 0
  · rcases prepare_unused env pipe dma huse with ⟨r, _, heq⟩ | ⟨o, _, _, heq⟩
    · rw [heq, huse]
    · rw [heq] at h
      exact absurd h (show ¬ ((0 : Int) < 0) by decide)
  · rw [prepare_used env pipe dma huse] at h
    exact absurd h (show ¬ ((0 : Int) < 0) by decide)

theorem complete_eq (dma : psee_dma) (buf : psee_dma_buffer) (residue now : Nat)
    (tr : List psee_event) (hin : buf.id ∈ dma.queued_bufs) :
    psee_dma_complete dma buf residue now tr =
      Run.ret
        ({ dma with queued_bufs := dma.queued_bufs.erase buf.id,
                    sequence := u32_inc dma.sequence },
          { buf with field := V4L2_FIELD_NONE, sequence := dma.sequence, timestamp := now,
                     payload := u32_sub dma.transfer_size residue },
          tr ++ [psee_event.buffer_done buf.id vb2_buffer_state.DONE]) := by
  unfold psee_dma_complete
  rw [if_pos hin]

theorem complete_ret (dma dma1 : psee_dma) (buf buf1 : psee_dma_buffer) (residue now : Nat)
    (tr tr1 : List psee_event)
    (h : psee_dma_complete dma buf residue now tr = Run.ret (dma1, buf1, tr1)) :
    buf.id ∈ dma.queued_bufs := by
  by_cases hin : buf.id ∈ dma.queued_bufs
  · exact hin
  · unfold psee_dma_complete at h
    rw [if_neg hin] at h
    exact absurd h (by simp)

/-- Whatever `psee_dma_start_streaming` returns, the sequence counter is 0. -/
theorem start_streaming_sequence (fuel : Nat) (env : media_device) (dma dma1 : psee_dma)
    (pipe pipe1 : psee_pipeline) (tr tr1 : List psee_event) (ret : Int)
    (h : psee_dma_start_streaming fuel env dma pipe tr = Run.ret (ret, dma1, pipe1, tr1)) :
    dma1.sequence = 0 := by
  unfold psee_dma_start_streaming at h
  simp only [return_buffers_eq] at h
  split at h
  · simp only [Run.ret.injEq, Prod.mk.injEq] at h
    rw [← h.2.1]
  · split at h
    · simp only [Run.ret.injEq, Prod.mk.injEq] at h
      rw [← h.2.1]
    · split at h
      · simp only [Run.ret.injEq, Prod.mk.injEq] at h
        rw [← h.2.1]
      · split at h
        · simp only [Run.ret.injEq, Prod.mk.injEq] at h
          rw [← h.2.1]
        · exact absurd h (by simp)
        · exact absurd h (by simp)

/-- After `k` completions since the start the sequence counter is `k mod 2^32`. -/
theorem complete_reach_sequence (k : Nat) (dma : psee_dma) (h : complete_reach k dma) :
    dma.sequence = k % 4294967296 := by
  induction h with
  | start fuel env dma dma1 pipe pipe1 tr tr1 ret hrun =>
    exact start_streaming_sequence fuel env dma dma1 pipe pipe1 tr tr1 ret hrun
  | enqueue k dma buf desc_ok streaming tr _ ih =>
    unfold psee_dma_buffer_queue
    by_cases hd : desc_ok = false
    · simp only [hd, if_true]
      exact ih
    · by_cases hs : streaming = true
      · simp only [hd, if_false, hs, if_true]
        exact ih
      · simp only [hd, if_false, hs]
        exact ih
  | complete k dma dma1 buf buf1 residue now tr tr1 _ hrun ih =>
    rw [complete_eq dma buf residue now tr (complete_ret _ _ _ _ _ _ _ _ hrun)] at hrun
    simp only [Run.ret.injEq, Prod.mk.injEq] at hrun
    rw [← hrun.1]
    show u32_inc dma.sequence = (k + 1) % 4294967296
    rw [ih]
    unfold u32_inc
    omega

/-! ## Pipeline preparation -/

/-- C1: on a pipeline with `use_count == 0`, when the graph walk initialises and
the component walked from the starting channel holds exactly one output (sink
pad) DMA entity `d` and `k ≤ 1` input DMA entities, `psee_pipeline_prepare`
returns 0 with `num_dmas = k + 1`, `output = d` and `use_count = 1`. -/
theorem psee_pipeline_prepare_valid (env : media_device) (pipe : psee_pipeline)
    (start d k : Nat) (huse : pipe.use_count = 0) (hinit : env.walk_init_ok = true)
    (hout : (env.graph_walk start).filter (is_output_dma env) = [d])
    (hin : ((env.graph_walk start).filter (is_input_dma env)).length = k) (hk : k ≤ 1) :
    psee_pipeline_prepare env pipe start =
      (0, { use_count := 1, stream_count := pipe.stream_count, num_dmas := k + 1,
            output := some d }) :=
  prepare_first env pipe start d k huse hinit hout hin hk

/-- Witness of C1 with one output and one input channel (`k = 1`). -/
theorem psee_pipeline_prepare_valid_witness :
    psee_pipeline_prepare (env_pair 0) psee_pipeline_empty 2 =
      (0, { use_count := 1, stream_count := 0, num_dmas := 2, output := some 0 }) :=
  psee_pipeline_prepare_valid (env_pair 0) psee_pipeline_empty 2 0 1 rfl rfl
    (by decide) (by decide) (by decide)

/-- C2 as stated fails when the graph walk cannot be initialised: on a
component with two output DMA channels `psee_pipeline_prepare` then returns
`-ENOMEM`, not `-EPIPE`. -/
theorem psee_pipeline_prepare_invalid_enomem :
    psee_pipeline_empty.use_count = 0 ∧
    ((env_nomem.graph_walk 0).filter (is_output_dma env_nomem)).length = 2 ∧
    (psee_pipeline_prepare env_nomem psee_pipeline_empty 0).1 = -ENOMEM ∧
    (psee_pipeline_prepare env_nomem psee_pipeline_empty 0).1 ≠ -EPIPE := by
  decide

/-- C2 (amended): on a pipeline with `use_count == 0`, when the component walked
from the starting channel holds 0 or at least 2 output DMA entities, or at least
2 input DMA entities, `psee_pipeline_prepare` returns `-EPIPE` if the graph walk
initialises and `-ENOMEM` if it does not, and in both cases leaves `use_count ==
0`, `num_dmas == 0` and `output == NULL`, whatever the walk stored in `output`. -/
theorem psee_pipeline_prepare_invalid (env : media_device) (pipe : psee_pipeline)
    (start : Nat) (huse : pipe.use_count = 0)
    (hshape : ((env.graph_walk start).filter (is_output_dma env)).length = 0 ∨
      2 ≤ ((env.graph_walk start).filter (is_output_dma env)).length ∨
      2 ≤ ((env.graph_walk start).filter (is_input_dma env)).length) :
    psee_pipeline_prepare env pipe start =
      (if env.walk_init_ok = true then -EPIPE else -ENOMEM,
        { use_count := 0, stream_count := pipe.stream_count, num_dmas := 0,
          output := none }) := by
  by_cases hinit : env.walk_init_ok = true
  · have h1 : ((env.graph_walk start).filter (is_output_dma env)).length ≠ 1 ∨
        ((env.graph_walk start).filter (is_input_dma env)).length > 1 := by omega
    unfold psee_pipeline_prepare
    rw [validate_eq env pipe start hinit]
    simp [huse, hinit, h1, __psee_pipeline_cleanup, EPIPE]
  · simp [psee_pipeline_prepare, psee_pipeline_validate, huse, hinit,
      __psee_pipeline_cleanup, ENOMEM]

/-- Witness of C2 (amended): two output channels, walk initialised. -/
theorem psee_pipeline_prepare_invalid_witness :
    psee_pipeline_prepare { env_nomem with walk_init_ok := true }
        { use_count := 0, stream_count := 0, num_dmas := 7, output := some 5 } 0 =
      (-EPIPE, { use_count := 0, stream_count := 0, num_dmas := 0, output := none }) :=
  psee_pipeline_prepare_invalid { env_nomem with walk_init_ok := true }
    { use_count := 0, stream_count := 0, num_dmas := 7, output := some 5 } 0 rfl
    (by decide)

/-- C3 as stated fails for `N = 2^32 + 1`: the use count wraps to 0 after `2^32`
prepares, call `2^32 + 1` validates again, and the first of the `2^32` cleanups
already resets the pipeline, so that `num_dmas` and `output` are lost although
`use_count` ends at 1. -/
theorem psee_pipeline_prepare_nested_wraps :
    (psee_pipeline_prepare (env_single 0) psee_pipeline_empty 0).2 =
      { use_count := 1, stream_count := 0, num_dmas := 1, output := some 0 } ∧
    (psee_pipeline_prepare_n (env_single 0) 0 4294967296 psee_pipeline_empty).use_count = 0 ∧
    psee_pipeline_cleanup_n 4294967296
        (psee_pipeline_prepare_n (env_single 0) 0 (4294967296 + 1) psee_pipeline_empty) =
      { use_count := 1, stream_count := 0, num_dmas := 0, output := none } := by
  have hP : psee_pipeline_prepare_n (env_single 0) 0 4294967296 psee_pipeline_empty =
      { use_count := 0, stream_count := 0, num_dmas := 1, output := some 0 } :=
    prepare_n_valid (env_single 0) psee_pipeline_empty 0 0 0 rfl rfl (by decide) (by decide)
      (by decide) 4294967296 (by decide) (by decide)
  have hQ : psee_pipeline_prepare_n (env_single 0) 0 (4294967296 + 1) psee_pipeline_empty =
      { use_count := 1, stream_count := 0, num_dmas := 1, output := some 0 } := by
    rw [psee_pipeline_prepare_n, hP,
      prepare_first (env_single 0) _ 0 0 0 rfl rfl (by decide) (by decide) (by decide)]
  have hF : psee_pipeline_prepare (env_single 0) psee_pipeline_empty 0 =
      (0, { use_count := 1, stream_count := 0, num_dmas := 1, output := some 0 }) :=
    prepare_first (env_single 0) _ 0 0 0 rfl rfl (by decide) (by decide) (by decide)
  have hE : psee_pipeline_cleanup
      { use_count := 1, stream_count := 0, num_dmas := 1, output := some 0 } =
      { use_count := 0, stream_count := 0, num_dmas := 0, output := none } :=
    cleanup_last _ rfl
  have hN : (4294967296 : Nat) = 4294967295 + 1 := by norm_num
  refine ⟨by rw [hF], by rw [hP], ?_⟩
  rw [hQ, hN, cleanup_n_succ_left, hE,
    cleanup_n_held _ (4294967295 + 1) (by omega) (by omega) (by norm_num) 4294967295 (by omega)]

/-- C3 (amended): for `1 ≤ N ≤ 2^32`, on a pipeline with `use_count == 0` over a
valid component, `N` nested calls of `psee_pipeline_prepare` all return 0 and
only the first runs validation (the use count is non-zero before every later
call); after `N - 1` calls of `psee_pipeline_cleanup`, `use_count == 1` and
`num_dmas` and `output` hold the values recorded by the first prepare; the
`N`-th cleanup resets `use_count`, `num_dmas` and `output` to 0, 0 and `NULL`. -/
theorem psee_pipeline_prepare_nested (env : media_device) (pipe : psee_pipeline)
    (start d k N : Nat) (huse : pipe.use_count = 0) (hinit : env.walk_init_ok = true)
    (hout : (env.graph_walk start).filter (is_output_dma env) = [d])
    (hin : ((env.graph_walk start).filter (is_input_dma env)).length = k) (hk : k ≤ 1)
    (hN1 : 1 ≤ N) (hN2 : N ≤ 4294967296) :
    (∀ j, 1 ≤ j → j < N → (psee_pipeline_prepare_n env start j pipe).use_count ≠ 0) ∧
    (∀ j, j < N →
      (psee_pipeline_prepare env (psee_pipeline_prepare_n env start j pipe) start).1 = 0) ∧
    psee_pipeline_cleanup_n (N - 1) (psee_pipeline_prepare_n env start N pipe) =
      { use_count := 1, stream_count := pipe.stream_count, num_dmas := k + 1,
        output := some d } ∧
    psee_pipeline_cleanup_n N (psee_pipeline_prepare_n env start N pipe) =
      { use_count := 0, stream_count := pipe.stream_count, num_dmas := 0,
        output := none } := by
  have hprep := prepare_n_valid env pipe start d k huse hinit hout hin hk
  have hheld : psee_pipeline_cleanup_n (N - 1) (psee_pipeline_prepare_n env start N pipe) =
      { use_count := 1, stream_count := pipe.stream_count, num_dmas := k + 1,
        output := some d } := by
    rw [hprep N hN1 hN2, cleanup_n_held _ N hN1 hN2 rfl (N - 1) (by omega)]
    have : (N - (N - 1)) % 4294967296 = 1 := by omega
    simp [this]
  refine ⟨?_, ?_, hheld, ?_⟩
  · intro j hj1 hj2
    rw [hprep j hj1 (by omega)]
    show j % 4294967296 ≠ 0
    omega
  · intro j hj
    by_cases hj0 : j = 0
    · subst hj0
      show (psee_pipeline_prepare env pipe start).1 = 0
      rw [prepare_first env pipe start d k huse hinit hout hin hk]
    · rw [hprep j (by omega) (by omega), prepare_used]
      show j % 4294967296 ≠ 0
      omega
  · obtain ⟨n, rfl⟩ : ∃ n, N = n + 1 := ⟨N - 1, by omega⟩
    show psee_pipeline_cleanup (psee_pipeline_cleanup_n n _) = _
    have hn : n + 1 - 1 = n := by omega
    rw [hn] at hheld
    rw [hheld, cleanup_last _ rfl]

/-- Witness of C3 (amended): three nested prepares on the two-channel graph. -/
theorem psee_pipeline_prepare_nested_witness :
    psee_pipeline_cleanup_n 2 (psee_pipeline_prepare_n (env_pair 0) 2 3 psee_pipeline_empty) =
      { use_count := 1, stream_count := 0, num_dmas := 2, output := some 0 } ∧
    psee_pipeline_cleanup_n 3 (psee_pipeline_prepare_n (env_pair 0) 2 3 psee_pipeline_empty) =
      { use_count := 0, stream_count := 0, num_dmas := 0, output := none } :=
  (psee_pipeline_prepare_nested (env_pair 0) psee_pipeline_empty 2 0 1 3 rfl rfl
    (by decide) (by decide) (by decide) (by decide) (by decide)).2.2

/-! ## Pipeline stream state -/

/-- C4 as stated fails at `stream_count == 2^32 - 1`: with `num_dmas == 1` the
chain start is not invoked, the call returns 0 and `stream_count` wraps to 0
instead of being one more than before. The state is one the pipeline calls
produce: on the single-channel graph whose hop fails to start, prepare, a
stream-on that fails, stream-off, cleanup and prepare lead to it. -/
theorem psee_pipeline_set_stream_on_wraps :
    psee_pipeline_set_stream 4 (env_single (-5))
        { use_count := 1, stream_count := 4294967295, num_dmas := 1, output := some 0 } true [] =
      Run.ret (0, { use_count := 1, stream_count := 0, num_dmas := 1, output := some 0 }, []) ∧
    (0 : Nat) ≠ 4294967295 + 1 ∧
    psee_pipeline_prepare (env_single (-5)) psee_pipeline_empty 0 =
      (0, { use_count := 1, stream_count := 0, num_dmas := 1, output := some 0 }) ∧
    psee_pipeline_set_stream 4 (env_single (-5))
        { use_count := 1, stream_count := 0, num_dmas := 1, output := some 0 } true [] =
      Run.ret (-5, { use_count := 1, stream_count := 0, num_dmas := 1, output := some 0 },
        [psee_event.chain_walk true, psee_event.s_stream 1 true]) ∧
    psee_pipeline_set_stream 4 (env_single (-5))
        { use_count := 1, stream_count := 0, num_dmas := 1, output := some 0 } false [] =
      Run.ret (0,
        { use_count := 1, stream_count := 4294967295, num_dmas := 1, output := some 0 }, []) ∧
    psee_pipeline_prepare (env_single (-5))
        (psee_pipeline_cleanup
          { use_count := 1, stream_count := 4294967295, num_dmas := 1, output := some 0 }) 0 =
      (0, { use_count := 1, stream_count := 4294967295, num_dmas := 1, output := some 0 }) := by
  decide

/-- C4 (amended): for every pipeline state, `psee_pipeline_set_stream(pipe,
true)` invokes the chain start if and only if `stream_count` equals `num_dmas -
1` (in `unsigned int` arithmetic): otherwise it returns 0 without any call; when
the chain start is invoked its entry is the first new event of the trace. If the
chain start succeeds or is not invoked, the call returns 0 and `stream_count`
becomes `(stream_count + 1) mod 2^32`, which is one more than before unless
`stream_count` was `2^32 - 1`; `use_count`, `num_dmas` and `output` are
unchanged. -/
theorem psee_pipeline_set_stream_on (fuel : Nat) (env : media_device) (pipe : psee_pipeline)
    (tr : List psee_event) :
    (pipe.stream_count ≠ u32_dec pipe.num_dmas →
      psee_pipeline_set_stream fuel env pipe true tr =
        Run.ret (0, { pipe with stream_count := (pipe.stream_count + 1) % 4294967296 }, tr)) ∧
    (pipe.stream_count = u32_dec pipe.num_dmas →
      ∀ r tr1, psee_pipeline_start_stop fuel env pipe true tr = Run.ret (r, tr1) →
        (∃ rest, tr1 = tr ++ psee_event.chain_walk true :: rest) ∧
        (0 ≤ r → r = 0 ∧ psee_pipeline_set_stream fuel env pipe true tr =
          Run.ret (0, { pipe with stream_count := (pipe.stream_count + 1) % 4294967296 },
            tr1))) ∧
    (pipe.stream_count < 4294967295 →
      (pipe.stream_count + 1) % 4294967296 = pipe.stream_count + 1) := by
  refine ⟨?_, ?_, ?_⟩
  · intro hne
    simp [psee_pipeline_set_stream, hne, u32_inc]
  · intro heq r tr1 hrun
    have hwalk : (∃ rest, tr1 = tr ++ psee_event.chain_walk true :: rest) ∧ (r = 0 ∨ r < 0) := by
      unfold psee_pipeline_start_stop at hrun
      cases hout : pipe.output with
      | none => simp [hout] at hrun
      | some out =>
        simp only [hout] at hrun
        obtain ⟨⟨rest, hrest⟩, hr⟩ := loop_trace env true _ _ _ _ _ hrun
        exact ⟨⟨rest, by simp [hrest]⟩, hr⟩
    refine ⟨hwalk.1, ?_⟩
    intro hr
    have hr0 : r = 0 := by
      rcases hwalk.2 with h | h
      · exact h
      · omega
    subst hr0
    simp [psee_pipeline_set_stream, heq, hrun, u32_inc]
  · intro h
    omega

/-- Witness of C4 (amended): the second stream-on of a two-channel pipeline
starts the chain; the first does not. -/
theorem psee_pipeline_set_stream_on_witness :
    psee_pipeline_set_stream 4 (env_pair 0)
        { use_count := 2, stream_count := 0, num_dmas := 2, output := some 0 } true [] =
      Run.ret (0, { use_count := 2, stream_count := 1, num_dmas := 2, output := some 0 }, []) ∧
    psee_pipeline_set_stream 4 (env_pair 0)
        { use_count := 2, stream_count := 1, num_dmas := 2, output := some 0 } true [] =
      Run.ret (0, { use_count := 2, stream_count := 2, num_dmas := 2, output := some 0 },
        [psee_event.chain_walk true, psee_event.s_stream 1 true]) :=
  ⟨(psee_pipeline_set_stream_on 4 (env_pair 0)
      { use_count := 2, stream_count := 0, num_dmas := 2, output := some 0 } []).1 (by decide),
    (((psee_pipeline_set_stream_on 4 (env_pair 0)
      { use_count := 2, stream_count := 1, num_dmas := 2, output := some 0 } []).2.1
        (by decide) 0 [psee_event.chain_walk true, psee_event.s_stream 1 true]
        (by decide)).2 (by decide)).2⟩

/-- C5: on a pipeline with `stream_count == num_dmas - 1` whose chain from the
output channel is `pre`, `bad`, `post`, where the hops of `pre` start without
failure and the start of `bad` fails, `psee_pipeline_set_stream(pipe, true)`
returns the error of `bad`, has called `s_stream(1)` on `pre` and `bad` only
(no hop of `post`), and leaves the pipeline state unchanged. -/
theorem psee_pipeline_set_stream_start_fails (fuel : Nat) (env : media_device)
    (pipe : psee_pipeline) (out : Nat) (pre : List Nat) (bad : Nat) (post : List Nat)
    (tr : List psee_event)
    (hsc : pipe.stream_count = u32_dec pipe.num_dmas) (hout : pipe.output = some out)
    (hpath : chain_path env out (pre ++ bad :: post) = true)
    (hok : hops_start_ok env (tr ++ [psee_event.chain_walk true]) pre)
    (hbad : start_failed
      (env.s_stream (tr ++ [psee_event.chain_walk true] ++ hop_events true pre) bad true))
    (hfuel : pre.length < fuel) :
    psee_pipeline_set_stream fuel env pipe true tr =
      Run.ret (env.s_stream (tr ++ [psee_event.chain_walk true] ++ hop_events true pre) bad true,
        pipe, tr ++ [psee_event.chain_walk true] ++ hop_events true (pre ++ [bad])) := by
  have hrun := loop_start_fail env pre bad post out fuel (tr ++ [psee_event.chain_walk true])
    hpath hok hbad hfuel
  rw [← start_stop_eq fuel env pipe out true tr hout] at hrun
  rw [set_stream_on_barrier fuel env pipe tr _ _ hsc hrun, if_pos hbad.1]

/-- Witness of C5: on the chain `1, 2, 3` the start of `2` fails with `-EIO`;
`3` is never started. -/
theorem psee_pipeline_set_stream_start_fails_witness :
    psee_pipeline_set_stream 5 env_chain
        { use_count := 1, stream_count := 0, num_dmas := 1, output := some 0 } true [] =
      Run.ret (-5, { use_count := 1, stream_count := 0, num_dmas := 1, output := some 0 },
        [psee_event.chain_walk true, psee_event.s_stream 1 true,
          psee_event.s_stream 2 true]) :=
  psee_pipeline_set_stream_start_fails 5 env_chain
    { use_count := 1, stream_count := 0, num_dmas := 1, output := some 0 } 0 [1] 2 [3] []
    (by decide) rfl (by decide) (by decide) (by decide) (by decide)

/-- C6: on a pipeline with `stream_count >= 1`, `psee_pipeline_set_stream(pipe,
false)` decrements `stream_count` by one; when the result is not 0 it returns 0
without any call; when the result is 0 it walks the chain stop from the output
channel and returns 0. The chain stop over the chain `hops` returns 0 and calls
`s_stream(0)` on every hop, whatever the hops return. -/
theorem psee_pipeline_set_stream_off (fuel : Nat) (env : media_device) (pipe : psee_pipeline)
    (tr : List psee_event)
    (hwf : pipe.stream_count < 4294967296) (hsc : 1 ≤ pipe.stream_count) :
    (pipe.stream_count - 1 ≠ 0 →
      psee_pipeline_set_stream fuel env pipe false tr =
        Run.ret (0, { pipe with stream_count := pipe.stream_count - 1 }, tr)) ∧
    (∀ out hops, pipe.output = some out → chain_of env out hops = true →
      hops.length < fuel →
      (pipe.stream_count - 1 = 0 →
        psee_pipeline_set_stream fuel env pipe false tr =
          Run.ret (0, { pipe with stream_count := pipe.stream_count - 1 },
            tr ++ [psee_event.chain_walk false] ++ hop_events false hops)) ∧
      psee_pipeline_start_stop fuel env pipe false tr =
        Run.ret (0, tr ++ [psee_event.chain_walk false] ++ hop_events false hops)) := by
  have hdec : u32_dec pipe.stream_count = pipe.stream_count - 1 := by
    unfold u32_dec; omega
  refine ⟨?_, ?_⟩
  · intro h0
    rw [set_stream_off_nz fuel env pipe tr (by rw [hdec]; exact h0), hdec]
  · intro out hops hout hchain hfuel
    have hrun := loop_stop env hops out fuel (tr ++ [psee_event.chain_walk false]) hchain hfuel
    refine ⟨?_, ?_⟩
    · intro h0
      have hrun2 : psee_pipeline_start_stop fuel env
          { pipe with stream_count := u32_dec pipe.stream_count } false tr =
          Run.ret (0, tr ++ [psee_event.chain_walk false] ++ hop_events false hops) := by
        rw [start_stop_eq fuel env { pipe with stream_count := u32_dec pipe.stream_count }
          out false tr hout]
        exact hrun
      rw [set_stream_off_z fuel env pipe tr 0 _ (by rw [hdec]; exact h0) hrun2, hdec]
    · rw [start_stop_eq fuel env pipe out false tr hout]
      exact hrun

/-- Witness of C6: the last stream-off stops the only hop, whose `s_stream`
returns `-EIO`, and still returns 0. -/
theorem psee_pipeline_set_stream_off_witness :
    psee_pipeline_set_stream 4 (env_single (-5))
        { use_count := 1, stream_count := 1, num_dmas := 1, output := some 0 } false [] =
      Run.ret (0, { use_count := 1, stream_count := 0, num_dmas := 1, output := some 0 },
        [psee_event.chain_walk false, psee_event.s_stream 1 false]) :=
  ((psee_pipeline_set_stream_off 4 (env_single (-5))
    { use_count := 1, stream_count := 1, num_dmas := 1, output := some 0 } []
    (by decide) (by decide)).2 0 [1] rfl (by decide) (by decide)).1 (by decide)

/-- C7: on a pipeline with `num_dmas == n >= 1` and `stream_count == 0` whose
chain `hops` starts without failure, `n` stream-on calls followed by `n`
stream-off calls all return 0; the first `k < n` stream-on calls leave the trace
untouched with `stream_count == k`, the `n`-th walks the chain start (once) and
sets `stream_count` to `n`; the first `k < n` stream-off calls add nothing to the
trace with `stream_count == n - k`, the `n`-th walks the chain stop (once) and
leaves `stream_count == 0`. -/
theorem psee_pipeline_stream_barrier (fuel : Nat) (env : media_device) (pipe : psee_pipeline)
    (n out : Nat) (hops : List Nat) (tr : List psee_event)
    (hn : 1 ≤ n) (hn2 : n < 4294967296) (hnum : pipe.num_dmas = n)
    (hsc : pipe.stream_count = 0) (hout : pipe.output = some out)
    (hchain : chain_of env out hops = true) (hfuel : hops.length < fuel)
    (hok : hops_start_ok env (tr ++ [psee_event.chain_walk true]) hops) :
    (∀ k, k < n →
      psee_pipeline_set_stream_n fuel env true k pipe tr =
        Run.ret (List.replicate k 0, { pipe with stream_count := k }, tr)) ∧
    psee_pipeline_set_stream_n fuel env true n pipe tr =
      Run.ret (List.replicate n 0, { pipe with stream_count := n },
        tr ++ [psee_event.chain_walk true] ++ hop_events true hops) ∧
    (∀ k, k < n →
      psee_pipeline_set_stream_n fuel env false k { pipe with stream_count := n }
          (tr ++ [psee_event.chain_walk true] ++ hop_events true hops) =
        Run.ret (List.replicate k 0, { pipe with stream_count := n - k },
          tr ++ [psee_event.chain_walk true] ++ hop_events true hops)) ∧
    psee_pipeline_set_stream_n fuel env false n { pipe with stream_count := n }
        (tr ++ [psee_event.chain_walk true] ++ hop_events true hops) =
      Run.ret (List.replicate n 0, { pipe with stream_count := 0 },
        tr ++ [psee_event.chain_walk true] ++ hop_events true hops ++
          [psee_event.chain_walk false] ++ hop_events false hops) := by
  obtain ⟨m, rfl⟩ : ∃ m, n = m + 1 := ⟨n - 1, by omega⟩
  have hon := set_stream_n_on_below fuel env pipe tr (m + 1) hn2 hnum hsc
  have hoff := set_stream_n_off_above fuel env { pipe with stream_count := m + 1 }
    (tr ++ [psee_event.chain_walk true] ++ hop_events true hops) (m + 1) hn2 rfl
  have hstart := loop_start_ok env hops out fuel (tr ++ [psee_event.chain_walk true])
    hchain hok hfuel
  have hstop := loop_stop env hops out fuel
    (tr ++ [psee_event.chain_walk true] ++ hop_events true hops ++
      [psee_event.chain_walk false]) hchain hfuel
  have hdec : u32_dec (m + 1) = m := by unfold u32_dec; omega
  have hinc : u32_inc m = m + 1 := by unfold u32_inc; omega
  have hz : u32_dec 1 = 0 := by decide
  refine ⟨hon, ?_, hoff, ?_⟩
  · have hrun : psee_pipeline_start_stop fuel env { pipe with stream_count := m } true tr =
        Run.ret (0, tr ++ [psee_event.chain_walk true] ++ hop_events true hops) := by
      rw [start_stop_eq fuel env { pipe with stream_count := m } out true tr hout]
      exact hstart
    have hstep := set_stream_on_barrier fuel env { pipe with stream_count := m } tr 0 _
      (by show m = u32_dec pipe.num_dmas; rw [hnum, hdec]) hrun
    rw [if_neg (by decide)] at hstep
    rw [set_stream_n_succ fuel env true m pipe _ _ tr _ _ _ _ (hon m (by omega)) hstep,
      List.replicate_succ']
    simp only [hinc]
  · have hrun : psee_pipeline_start_stop fuel env { pipe with stream_count := u32_dec 1 } false
        (tr ++ [psee_event.chain_walk true] ++ hop_events true hops) =
        Run.ret (0, tr ++ [psee_event.chain_walk true] ++ hop_events true hops ++
          [psee_event.chain_walk false] ++ hop_events false hops) := by
      rw [start_stop_eq fuel env { pipe with stream_count := u32_dec 1 } out false _ hout]
      exact hstop
    have hstep := set_stream_off_z fuel env { pipe with stream_count := 1 }
      (tr ++ [psee_event.chain_walk true] ++ hop_events true hops) 0 _ hz hrun
    have hprev := hoff m (by omega)
    have h1 : m + 1 - m = 1 := by omega
    rw [h1] at hprev
    rw [set_stream_n_succ fuel env false m _ _ _ _ _ _ _ _ hprev hstep, List.replicate_succ']
    simp only [hz]

/-- Witness of C7 for `n = 2`: the stream count goes 1, 2, 1, 0; the hardware
is started by the second stream-on only and stopped by the second stream-off
only. -/
theorem psee_pipeline_stream_barrier_witness :
    psee_pipeline_set_stream_n 4 (env_pair 0) true 1
        { use_count := 2, stream_count := 0, num_dmas := 2, output := some 0 } [] =
      Run.ret ([0], { use_count := 2, stream_count := 1, num_dmas := 2, output := some 0 },
        []) ∧
    psee_pipeline_set_stream_n 4 (env_pair 0) true 2
        { use_count := 2, stream_count := 0, num_dmas := 2, output := some 0 } [] =
      Run.ret ([0, 0], { use_count := 2, stream_count := 2, num_dmas := 2, output := some 0 },
        [psee_event.chain_walk true, psee_event.s_stream 1 true]) ∧
    psee_pipeline_set_stream_n 4 (env_pair 0) false 1
        { use_count := 2, stream_count := 2, num_dmas := 2, output := some 0 }
        [psee_event.chain_walk true, psee_event.s_stream 1 true] =
      Run.ret ([0], { use_count := 2, stream_count := 1, num_dmas := 2, output := some 0 },
        [psee_event.chain_walk true, psee_event.s_stream 1 true]) ∧
    psee_pipeline_set_stream_n 4 (env_pair 0) false 2
        { use_count := 2, stream_count := 2, num_dmas := 2, output := some 0 }
        [psee_event.chain_walk true, psee_event.s_stream 1 true] =
      Run.ret ([0, 0], { use_count := 2, stream_count := 0, num_dmas := 2, output := some 0 },
        [psee_event.chain_walk true, psee_event.s_stream 1 true,
          psee_event.chain_walk false, psee_event.s_stream 1 false]) :=
  have h := psee_pipeline_stream_barrier 4 (env_pair 0)
    { use_count := 2, stream_count := 0, num_dmas := 2, output := some 0 } 2 0 [1] []
    (by decide) (by decide) rfl rfl rfl (by decide) (by decide) (by decide)
  ⟨h.1 1 (by decide), h.2.1, h.2.2.1 1 (by decide), h.2.2.2⟩

/-! ## Pipeline invariants -/

/-- C8 as stated fails once `2^32` successful prepares are outstanding: the
state with `use_count == 0` (wrapped) and `num_dmas == 1` is reached from Empty
by `2^32` successful prepares and no cleanup. -/
theorem psee_pipeline_use_count_wraps :
    prepare_reach 4294967296 4294967296
      { use_count := 0, stream_count := 0, num_dmas := 1, output := some 0 } ∧
    ¬ ((1 : Nat) = 0 ↔ (0 : Nat) = 0) := by
  refine ⟨?_, by decide⟩
  have h := prepare_reach_many 4294967295 (by omega)
  norm_num at h
  exact h

/-- C8 (amended): in every pipeline state reached from Empty by prepare calls
(succeeding or failing validation) and cleanup calls, each cleanup matched by
an earlier successful prepare and at most `2^32 - 1` successful prepares
outstanding at any time, `num_dmas == 0` holds if and only if `use_count ==
0`. -/
theorem psee_pipeline_num_dmas_zero_iff (held : Nat) (pipe : psee_pipeline)
    (h : prepare_reach 4294967295 held pipe) :
    pipe.num_dmas = 0 ↔ pipe.use_count = 0 := by
  obtain ⟨_, huse, hz, hnz⟩ := prepare_reach_inv held pipe h
  constructor
  · intro h0
    by_cases hh : held = 0
    · omega
    · exact absurd h0 (hnz hh)
  · intro h0
    exact hz (by omega)

/-- Witness of C8 (amended): a failed prepare, two successful prepares and one
cleanup on the two-channel graph. -/
theorem psee_pipeline_num_dmas_zero_iff_witness :
    (psee_pipeline_cleanup (psee_pipeline_prepare (env_pair 0)
      (psee_pipeline_prepare (env_pair 0)
        (psee_pipeline_prepare env_nomem psee_pipeline_empty 0).2 0).2 2).2).num_dmas = 0 ↔
    (psee_pipeline_cleanup (psee_pipeline_prepare (env_pair 0)
      (psee_pipeline_prepare (env_pair 0)
        (psee_pipeline_prepare env_nomem psee_pipeline_empty 0).2 0).2 2).2).use_count = 0 :=
  psee_pipeline_num_dmas_zero_iff _ _
    (prepare_reach.cleanup 2 _
      (prepare_reach.prepare (env_pair 0) 2 1 _
        (prepare_reach.prepare (env_pair 0) 0 0 _
          (prepare_reach.prepare env_nomem 0 0 _ prepare_reach.empty (by decide))
          (by decide))
        (by decide))
      (by decide))

/-- C9 as stated fails when a channel releases its prepare while it still holds
its stream-on: on the single-channel graph, prepare, stream-on and cleanup by
channel `0` (which holds at most one prepare and one stream-on throughout)
reach a state with `stream_count == 1` and `num_dmas == 0`. -/
theorem psee_pipeline_stream_outlives_prepare :
    pipeline_channels (env_single 0) {0} ∧
    channel_reach (env_single 0) {0} false
      { use_count := 0, stream_count := 1, num_dmas := 0, output := none }
      (Finset.erase (insert 0 ∅) 0) (insert 0 ∅)
      [psee_event.chain_walk true, psee_event.s_stream 1 true] ∧
    ¬ ((1 : Nat) ≤ 0) := by
  refine ⟨by decide, ?_, by decide⟩
  have h1 : channel_reach (env_single 0) {0} false
      { use_count := 1, stream_count := 0, num_dmas := 1, output := some 0 }
      (insert 0 ∅) ∅ [] :=
    channel_reach.prepare 0 _ _ _ _ channel_reach.empty (by decide) (by decide)
  have h2 : channel_reach (env_single 0) {0} false
      { use_count := 1, stream_count := 1, num_dmas := 1, output := some 0 }
      (insert 0 ∅) (insert 0 ∅)
      [psee_event.chain_walk true, psee_event.s_stream 1 true] :=
    channel_reach.stream_on 0 4 0 _ _ _ _ _ _ h1 (by decide) (by decide) (by decide)
      (by decide)
  have h3 := channel_reach.cleanup 0 _ _ _ _ h2 (Finset.mem_insert_self 0 ∅)
    (fun h => absurd h (by decide))
  rw [cleanup_last _ rfl] at h3
  exact h3

/-- C9 (amended): in every pipeline state reached from Empty through prepare,
cleanup and set_stream calls issued by the pipeline's DMA channels, where each
channel holds at most one prepare and at most one stream-on at a time, takes
its stream-on only while it holds its prepare and releases its prepare only
after its stream-on, `use_count <= num_dmas` and `stream_count <= num_dmas`. -/
theorem psee_pipeline_counts_bounded (env : media_device) (chans : Finset Nat)
    (hch : pipeline_channels env chans) (pipe : psee_pipeline) (prep strm : Finset Nat)
    (tr : List psee_event) (h : channel_reach env chans true pipe prep strm tr) :
    pipe.use_count ≤ pipe.num_dmas ∧ pipe.stream_count ≤ pipe.num_dmas := by
  obtain ⟨hsp, hpc, huse, hsc, hz, hnz⟩ := channel_reach_inv env chans hch pipe prep strm tr h
  have h1 : strm.card ≤ prep.card := Finset.card_le_card hsp
  have h2 : prep.card ≤ chans.card := Finset.card_le_card hpc
  by_cases h0 : prep = ∅
  · have h3 : prep.card = 0 := by rw [h0, Finset.card_empty]
    omega
  · have h3 := hnz h0
    omega

/-- Witness of C9 (amended): both channels of the two-channel graph prepare and
then stream; the second stream-on starts the chain. -/
theorem psee_pipeline_counts_bounded_witness :
    pipeline_channels (env_pair 0) {0, 2} ∧
    (({ use_count := 2, stream_count := 2, num_dmas := 2, output := some 0 } :
        psee_pipeline).use_count ≤ 2 ∧
      ({ use_count := 2, stream_count := 2, num_dmas := 2, output := some 0 } :
        psee_pipeline).stream_count ≤ 2) :=
  have h1 : channel_reach (env_pair 0) {0, 2} true
      { use_count := 1, stream_count := 0, num_dmas := 2, output := some 0 }
      (insert 2 ∅) ∅ [] :=
    channel_reach.prepare 2 _ _ _ _ channel_reach.empty (by decide) (by decide)
  have h2 : channel_reach (env_pair 0) {0, 2} true
      { use_count := 2, stream_count := 0, num_dmas := 2, output := some 0 }
      (insert 0 (insert 2 ∅)) ∅ [] :=
    channel_reach.prepare 0 _ _ _ _ h1 (by decide) (by decide)
  have h3 : channel_reach (env_pair 0) {0, 2} true
      { use_count := 2, stream_count := 1, num_dmas := 2, output := some 0 }
      (insert 0 (insert 2 ∅)) (insert 2 ∅) [] :=
    channel_reach.stream_on 2 4 0 _ _ _ _ _ _ h2 (by decide) (by decide) (by decide)
      (by decide)
  have h4 : channel_reach (env_pair 0) {0, 2} true
      { use_count := 2, stream_count := 2, num_dmas := 2, output := some 0 }
      (insert 0 (insert 2 ∅)) (insert 0 (insert 2 ∅))
      [psee_event.chain_walk true, psee_event.s_stream 1 true] :=
    channel_reach.stream_on 0 4 0 _ _ _ _ _ _ h3 (by decide) (by decide) (by decide)
      (by decide)
  ⟨by decide, psee_pipeline_counts_bounded (env_pair 0) {0, 2} (by decide) _ _ _ _ h4⟩

/-! ## Start of streaming -/

/-- C10: if the media pipeline start, the peer verification or
`psee_pipeline_prepare` fails, `psee_dma_start_streaming` returns the negative
error of the first of them that fails (`-EPIPE` for the peer verification);
the new events are the media pipeline start, the media pipeline stop exactly
when the start had succeeded, and one `vb2_buffer_done` in state QUEUED for each
queued buffer, in queue order; the queue is left empty and `use_count` and
`stream_count` are unchanged. -/
theorem psee_dma_start_streaming_fails (fuel : Nat) (env : media_device) (dma : psee_dma)
    (pipe : psee_pipeline) (tr : List psee_event)
    (hfail : env.media_pipeline_start tr dma.entity < 0 ∨
      psee_dma_verify_format env dma < 0 ∨
      (psee_pipeline_prepare env pipe dma.entity).1 < 0) :
    psee_dma_start_streaming fuel env dma pipe tr =
      Run.ret
        (if env.media_pipeline_start tr dma.entity < 0 then
            env.media_pipeline_start tr dma.entity
          else if psee_dma_verify_format env dma < 0 then psee_dma_verify_format env dma
          else (psee_pipeline_prepare env pipe dma.entity).1,
          { dma with sequence := 0, queued_bufs := [] },
          if env.media_pipeline_start tr dma.entity < 0 ∨ psee_dma_verify_format env dma < 0
          then pipe else (psee_pipeline_prepare env pipe dma.entity).2,
          tr ++ [psee_event.media_pipeline_start dma.entity] ++
            (if env.media_pipeline_start tr dma.entity < 0 then []
              else [psee_event.media_pipeline_stop dma.entity]) ++
            dma.queued_bufs.map (fun b => psee_event.buffer_done b vb2_buffer_state.QUEUED)) ∧
    (if env.media_pipeline_start tr dma.entity < 0 then
        env.media_pipeline_start tr dma.entity
      else if psee_dma_verify_format env dma < 0 then psee_dma_verify_format env dma
      else (psee_pipeline_prepare env pipe dma.entity).1) < 0 ∧
    (psee_dma_verify_format env dma < 0 → psee_dma_verify_format env dma = -EPIPE) ∧
    (if env.media_pipeline_start tr dma.entity < 0 ∨ psee_dma_verify_format env dma < 0
      then pipe else (psee_pipeline_prepare env pipe dma.entity).2).use_count =
        pipe.use_count ∧
    (if env.media_pipeline_start tr dma.entity < 0 ∨ psee_dma_verify_format env dma < 0
      then pipe else (psee_pipeline_prepare env pipe dma.entity).2).stream_count =
        pipe.stream_count := by
  have hver : psee_dma_verify_format env dma < 0 → psee_dma_verify_format env dma = -EPIPE := by
    intro h
    rcases verify_format_cases env dma with h1 | h1
    · exact h1
    · rw [h1] at h
      exact absurd h (by decide)
  have hv0 : psee_dma_verify_format env { dma with sequence := 0 } =
      psee_dma_verify_format env dma := rfl
  by_cases hmp : env.media_pipeline_start tr dma.entity < 0
  · refine ⟨?_, ?_, hver, ?_, ?_⟩
    · unfold psee_dma_start_streaming
      simp only [hmp, if_true, return_buffers_eq, true_or, List.append_nil]
    · rw [if_pos hmp]
      exact hmp
    · rw [if_pos (Or.inl hmp)]
    · rw [if_pos (Or.inl hmp)]
  · by_cases hvf : psee_dma_verify_format env dma < 0
    · refine ⟨?_, ?_, hver, ?_, ?_⟩
      · unfold psee_dma_start_streaming
        simp only [hmp, if_false, hv0, hvf, if_true, return_buffers_eq, or_true,
          List.append_assoc]
      · rw [if_neg hmp, if_pos hvf]
        exact hvf
      · rw [if_pos (Or.inr hvf)]
      · rw [if_pos (Or.inr hvf)]
    · have hpr : (psee_pipeline_prepare env pipe dma.entity).1 < 0 := by
        rcases hfail with h | h | h
        · exact absurd h hmp
        · exact absurd h hvf
        · exact h
      have hp2 := prepare_fail env pipe dma.entity hpr
      have hor : ¬ (env.media_pipeline_start tr dma.entity < 0 ∨
          psee_dma_verify_format env dma < 0) := fun h => h.elim hmp hvf
      refine ⟨?_, ?_, hver, ?_, ?_⟩
      · unfold psee_dma_start_streaming
        simp only [hmp, if_false, hv0, hvf, hpr, if_true, return_buffers_eq, or_self,
          List.append_assoc]
      · rw [if_neg hmp, if_neg hvf]
        exact hpr
      · rw [if_neg hor, hp2]
      · rw [if_neg hor, hp2]

/-- Witness of C10: the channel has no connected neighbour, so the peer
verification fails after the media pipeline was started; both queued buffers
come back in state QUEUED and the media pipeline is stopped. -/
theorem psee_dma_start_streaming_fails_witness :
    psee_dma_start_streaming 4 env_nomem
        { entity := 0, sequence := 7, transfer_size := 1048576, queued_bufs := [10, 11] }
        psee_pipeline_empty [] =
      Run.ret (-EPIPE,
        { entity := 0, sequence := 0, transfer_size := 1048576, queued_bufs := [] },
        psee_pipeline_empty,
        [psee_event.media_pipeline_start 0, psee_event.media_pipeline_stop 0,
          psee_event.buffer_done 10 vb2_buffer_state.QUEUED,
          psee_event.buffer_done 11 vb2_buffer_state.QUEUED]) :=
  (psee_dma_start_streaming_fails 4 env_nomem
    { entity := 0, sequence := 7, transfer_size := 1048576, queued_bufs := [10, 11] }
    psee_pipeline_empty [] (by decide)).1

/-! ## Buffer queue -/

theorem stop_streaming_eq (fuel : Nat) (env : media_device) (dma : psee_dma)
    (pipe pipe1 : psee_pipeline) (tr tr1 : List psee_event) (r : Int)
    (h : psee_pipeline_set_stream fuel env pipe false tr = Run.ret (r, pipe1, tr1)) :
    psee_dma_stop_streaming fuel env dma pipe tr =
      Run.ret ({ dma with queued_bufs := [] }, psee_pipeline_cleanup pipe1,
        tr1 ++ [psee_event.terminate_all dma.entity, psee_event.pipeline_cleanup,
          psee_event.media_pipeline_stop dma.entity] ++
          dma.queued_bufs.map (fun b => psee_event.buffer_done b vb2_buffer_state.ERROR)) := by
  unfold psee_dma_stop_streaming
  rw [h]
  simp only [Run.bind, return_buffers_eq, List.append_assoc, List.singleton_append]

theorem u32_sub_le (x y : Nat) (hy : y ≤ x) (hx : x < 4294967296) : u32_sub x y = x - y := by
  unfold u32_sub
  omega

/-- C11 (code defect): on a single-channel pipeline whose only sub-device fails
to start with `-EIO`, the call `psee_pipeline_set_stream(pipe, true)` made by
`psee_dma_start_streaming` is the one that starts the chain (`stream_count == 0
== num_dmas - 1`) and returns `-EIO`, and yet `psee_dma_start_streaming` returns
0, hands no queued buffer back, keeps `use_count == 1` and does not call
`media_pipeline_stop`. -/
theorem psee_dma_start_streaming_ignores_chain_failure :
    psee_pipeline_set_stream 4 (env_single (-5))
        { use_count := 1, stream_count := 0, num_dmas := 1, output := some 0 } true
        [psee_event.media_pipeline_start 0, psee_event.issue_pending 0] =
      Run.ret (-5, { use_count := 1, stream_count := 0, num_dmas := 1, output := some 0 },
        [psee_event.media_pipeline_start 0, psee_event.issue_pending 0,
          psee_event.chain_walk true, psee_event.s_stream 1 true]) ∧
    psee_dma_start_streaming 4 (env_single (-5))
        { entity := 0, sequence := 7, transfer_size := 1048576, queued_bufs := [10, 11] }
        psee_pipeline_empty [] =
      Run.ret (0,
        { entity := 0, sequence := 0, transfer_size := 1048576, queued_bufs := [10, 11] },
        { use_count := 1, stream_count := 0, num_dmas := 1, output := some 0 },
        [psee_event.media_pipeline_start 0, psee_event.issue_pending 0,
          psee_event.chain_walk true, psee_event.s_stream 1 true]) := by
  constructor <;> decide

/-- C13: on a pipeline whose output channel heads a finite chain,
`psee_dma_stop_streaming` returns, and it has made, in this order, the call
`psee_pipeline_set_stream(pipe, false)` (which decrements `stream_count` and, when
the result is 0, walks the chain stop), `dmaengine_terminate_all`,
`psee_pipeline_cleanup`, `media_pipeline_stop`, and then one `vb2_buffer_done(...,
ERROR)` per queued buffer, oldest first; the queued list is left empty. -/
theorem psee_dma_stop_streaming_order (fuel : Nat) (env : media_device) (dma : psee_dma)
    (pipe : psee_pipeline) (out : Nat) (hops : List Nat) (tr : List psee_event)
    (hout : pipe.output = some out) (hchain : chain_of env out hops = true)
    (hfuel : hops.length < fuel) :
    psee_dma_stop_streaming fuel env dma pipe tr =
      Run.ret ({ dma with queued_bufs := [] },
        psee_pipeline_cleanup { pipe with stream_count := u32_dec pipe.stream_count },
        tr ++ (if u32_dec pipe.stream_count = 0
            then psee_event.chain_walk false :: hop_events false hops else []) ++
          [psee_event.terminate_all dma.entity, psee_event.pipeline_cleanup,
            psee_event.media_pipeline_stop dma.entity] ++
          dma.queued_bufs.map (fun b => psee_event.buffer_done b vb2_buffer_state.ERROR)) := by
  by_cases hz : u32_dec pipe.stream_count = 0
  · have hrun : psee_pipeline_start_stop fuel env
        { pipe with stream_count := u32_dec pipe.stream_count } false tr =
        Run.ret (0, tr ++ [psee_event.chain_walk false] ++ hop_events false hops) := by
      rw [start_stop_eq fuel env { pipe with stream_count := u32_dec pipe.stream_count }
        out false tr hout]
      exact loop_stop env hops out fuel (tr ++ [psee_event.chain_walk false]) hchain hfuel
    rw [stop_streaming_eq fuel env dma pipe _ tr _ 0 (set_stream_off_z fuel env pipe tr 0 _ hz hrun),
      if_pos hz]
    simp only [List.append_assoc, List.singleton_append]
  · rw [stop_streaming_eq fuel env dma pipe _ tr _ 0 (set_stream_off_nz fuel env pipe tr hz),
      if_neg hz]
    simp only [List.append_nil]

/-- Witness of C13: the only streaming channel of a single-channel pipeline
stops with two buffers in flight. -/
theorem psee_dma_stop_streaming_order_witness :
    psee_dma_stop_streaming 4 (env_single 0)
        { entity := 0, sequence := 3, transfer_size := 1048576, queued_bufs := [10, 11] }
        { use_count := 1, stream_count := 1, num_dmas := 1, output := some 0 } [] =
      Run.ret ({ entity := 0, sequence := 3, transfer_size := 1048576, queued_bufs := [] },
        psee_pipeline_empty,
        [psee_event.chain_walk false, psee_event.s_stream 1 false,
          psee_event.terminate_all 0, psee_event.pipeline_cleanup,
          psee_event.media_pipeline_stop 0,
          psee_event.buffer_done 10 vb2_buffer_state.ERROR,
          psee_event.buffer_done 11 vb2_buffer_state.ERROR]) :=
  psee_dma_stop_streaming_order 4 (env_single 0)
    { entity := 0, sequence := 3, transfer_size := 1048576, queued_bufs := [10, 11] }
    { use_count := 1, stream_count := 1, num_dmas := 1, output := some 0 } 0 [1] []
    rfl (by decide) (by decide)

/-- C14 as stated fails: a buffer of 16 bytes on a channel whose transfer size
is 1 MiB passes `psee_dma_buffer_prepare` (which returns 0) and
`psee_dma_buffer_queue` builds and submits a descriptor of 1 MiB for it and
appends it to the queued list. -/
theorem psee_dma_buffer_queue_small_buffer :
    (fresh_buffer 10 16).plane_size < 1048576 ∧
    (psee_dma_buffer_prepare
        { entity := 0, sequence := 0, transfer_size := 1048576, queued_bufs := [] }
        (fresh_buffer 10 16)).1 = 0 ∧
    psee_dma_buffer_queue
        { entity := 0, sequence := 0, transfer_size := 1048576, queued_bufs := [] }
        (psee_dma_buffer_prepare
          { entity := 0, sequence := 0, transfer_size := 1048576, queued_bufs := [] }
          (fresh_buffer 10 16)).2 true false [] =
      ({ entity := 0, sequence := 0, transfer_size := 1048576, queued_bufs := [10] },
        [psee_event.prep_slave_single 10 1048576 true, psee_event.submit 10]) := by
  decide

/-- C14 (amended): the size of a buffer is checked by `psee_dma_queue_setup`
only, which for a caller-given plane count returns `-EINVAL` exactly when the
first plane is smaller than `transfer_size` and otherwise asks for one plane of
`transfer_size` bytes. The enqueue path does not look at the plane size:
`psee_dma_buffer_prepare` returns 0 and records the channel, and when the engine
hands out a descriptor `psee_dma_buffer_queue` builds it for `transfer_size`
bytes, appends the buffer to the queued list and submits it. -/
theorem psee_dma_queue_setup_checks_size (dma : psee_dma) (buf : psee_dma_buffer)
    (nplanes sizes0 : Nat) (streaming : Bool) (tr : List psee_event) :
    (nplanes ≠ 0 →
      ((psee_dma_queue_setup dma nplanes sizes0).1 = -EINVAL ↔ sizes0 < dma.transfer_size) ∧
      ((psee_dma_queue_setup dma nplanes sizes0).1 = 0 ↔ dma.transfer_size ≤ sizes0)) ∧
    psee_dma_queue_setup dma 0 sizes0 = (0, 1, dma.transfer_size) ∧
    psee_dma_buffer_prepare dma buf = (0, { buf with dma := some dma.entity }) ∧
    (psee_dma_buffer_queue dma (psee_dma_buffer_prepare dma buf).2 true streaming tr).1 =
      { dma with queued_bufs := dma.queued_bufs ++ [buf.id] } ∧
    (psee_dma_buffer_queue dma (psee_dma_buffer_prepare dma buf).2 true streaming tr).2 =
      tr ++ [psee_event.prep_slave_single buf.id dma.transfer_size
          (decide (dma.queue_type = V4L2_BUF_TYPE_VIDEO_CAPTURE)), psee_event.submit buf.id] ++
        (if streaming = true then [psee_event.issue_pending dma.entity] else []) := by
  refine ⟨?_, ?_, rfl, ?_, ?_⟩
  · intro hn
    unfold psee_dma_queue_setup
    rw [if_pos hn]
    by_cases hs : sizes0 < dma.transfer_size
    · simp only [hs, if_true, true_iff]
      refine ⟨trivial, ?_⟩
      constructor
      · intro h
        exact absurd h (by decide)
      · intro h
        omega
    · simp only [hs, if_false, false_iff]
      refine ⟨by decide, ?_⟩
      constructor
      · intro _
        omega
      · intro _
        trivial
  · unfold psee_dma_queue_setup
    simp only [ne_eq, not_true_eq_false, if_false]
  · unfold psee_dma_buffer_queue psee_dma_buffer_prepare
    cases streaming <;> simp
  · unfold psee_dma_buffer_queue psee_dma_buffer_prepare
    cases streaming <;> simp

/-- Witness of C14 (amended): a plane of 16 bytes is refused by
`psee_dma_queue_setup` on a channel of 1 MiB transfers. -/
theorem psee_dma_queue_setup_checks_size_witness :
    (psee_dma_queue_setup
      { entity := 0, sequence := 0, transfer_size := 1048576, queued_bufs := [] } 1 16).1 =
      -EINVAL :=
  ((psee_dma_queue_setup_checks_size
    { entity := 0, sequence := 0, transfer_size := 1048576, queued_bufs := [] }
    (fresh_buffer 10 16) 1 16 false []).1 (by decide)).1.2 (by decide)

/-- C15: for a buffer of the queued list and a reported residue `r`,
`psee_dma_complete` returns; it unlinks the buffer, sets its payload to
`transfer_size - r` in 32-bit unsigned arithmetic and hands it to
`vb2_buffer_done` in state DONE; for `r <= transfer_size` (a 32-bit value) the
payload is the mathematical difference and at most `transfer_size`. -/
theorem psee_dma_complete_payload (dma : psee_dma) (buf : psee_dma_buffer) (residue now : Nat)
    (tr : List psee_event) (hin : buf.id ∈ dma.queued_bufs) :
    psee_dma_complete dma buf residue now tr =
      Run.ret
        ({ dma with queued_bufs := dma.queued_bufs.erase buf.id,
                    sequence := u32_inc dma.sequence },
          { buf with field := V4L2_FIELD_NONE, sequence := dma.sequence, timestamp := now,
                     payload := u32_sub dma.transfer_size residue },
          tr ++ [psee_event.buffer_done buf.id vb2_buffer_state.DONE]) ∧
    (residue ≤ dma.transfer_size → dma.transfer_size < 4294967296 →
      u32_sub dma.transfer_size residue = dma.transfer_size - residue ∧
      u32_sub dma.transfer_size residue ≤ dma.transfer_size) := by
  refine ⟨complete_eq dma buf residue now tr hin, ?_⟩
  intro hr hts
  rw [u32_sub_le _ _ hr hts]
  exact ⟨rfl, Nat.sub_le _ _⟩

/-- Witness of C15: a transfer of 1 MiB that stopped 48 bytes short. -/
theorem psee_dma_complete_payload_witness :
    psee_dma_complete
        { entity := 0, sequence := 3, transfer_size := 1048576, queued_bufs := [10, 11] }
        (fresh_buffer 10 1048576) 48 99 [] =
      Run.ret
        ({ entity := 0, sequence := 4, transfer_size := 1048576, queued_bufs := [11] },
          { id := 10, plane_size := 1048576, dma := none, field := 1, sequence := 3,
            timestamp := 99, payload := 1048528 },
          [psee_event.buffer_done 10 vb2_buffer_state.DONE]) :=
  (psee_dma_complete_payload
    { entity := 0, sequence := 3, transfer_size := 1048576, queued_bufs := [10, 11] }
    (fresh_buffer 10 1048576) 48 99 [] (by decide)).1

/-- After a start, `n` rounds of one enqueue and one completion leave the
sequence counter at `n mod 2^32`. -/
theorem complete_reach_cycles (n : Nat) :
    complete_reach n
      { entity := 0, sequence := n % 4294967296, transfer_size := 1048576, queued_bufs := [] } := by
  induction n with
  | zero =>
    exact complete_reach.start 4 (env_single 0)
      { entity := 0, sequence := 7, transfer_size := 1048576, queued_bufs := [] }
      { entity := 0, sequence := 0, transfer_size := 1048576, queued_bufs := [] }
      psee_pipeline_empty
      { use_count := 1, stream_count := 1, num_dmas := 1, output := some 0 } []
      [psee_event.media_pipeline_start 0, psee_event.issue_pending 0,
        psee_event.chain_walk true, psee_event.s_stream 1 true] 0 (by decide)
  | succ n ih =>
    have h1 := complete_reach.enqueue n _ (fresh_buffer 10 1048576) true false [] ih
    have hq : (psee_dma_buffer_queue
        { entity := 0, sequence := n % 4294967296, transfer_size := 1048576, queued_bufs := [] }
        (fresh_buffer 10 1048576) true false []).1 =
        { entity := 0, sequence := n % 4294967296, transfer_size := 1048576,
          queued_bufs := [10] } := by
      simp [psee_dma_buffer_queue, fresh_buffer]
    rw [hq] at h1
    have hc := complete_eq
      { entity := 0, sequence := n % 4294967296, transfer_size := 1048576, queued_bufs := [10] }
      (fresh_buffer 10 1048576) 0 0 [] (by simp [fresh_buffer])
    have h2 := complete_reach.complete n _ _ _ _ 0 0 [] _ h1 hc
    have hinc : u32_inc (n % 4294967296) = (n + 1) % 4294967296 := by
      unfold u32_inc
      omega
    simp only [fresh_buffer, List.erase_cons_head, hinc] at h2
    exact h2

/-- C12 as stated fails: after a start, 2^32 rounds of one enqueue and one
completion, and one more enqueue, the completion of index 4294967296 (counting
from 0) stamps its buffer with sequence number 0, the number already given to
the first completion. -/
theorem psee_dma_complete_sequence_wraps :
    complete_reach 4294967296
      { entity := 0, sequence := 0, transfer_size := 1048576, queued_bufs := [10] } ∧
    psee_dma_complete
        { entity := 0, sequence := 0, transfer_size := 1048576, queued_bufs := [10] }
        (fresh_buffer 10 1048576) 0 5 [] =
      Run.ret
        ({ entity := 0, sequence := 1, transfer_size := 1048576, queued_bufs := [] },
          { id := 10, plane_size := 1048576, dma := none, field := 1, sequence := 0,
            timestamp := 5, payload := 1048576 },
          [psee_event.buffer_done 10 vb2_buffer_state.DONE]) := by
  refine ⟨?_, by decide⟩
  have h := complete_reach_cycles 4294967296
  have hm : 4294967296 % 4294967296 = 0 := by norm_num
  rw [hm] at h
  have h1 := complete_reach.enqueue 4294967296 _ (fresh_buffer 10 1048576) true false [] h
  have hq : (psee_dma_buffer_queue
      { entity := 0, sequence := 0, transfer_size := 1048576, queued_bufs := [] }
      (fresh_buffer 10 1048576) true false []).1 =
      { entity := 0, sequence := 0, transfer_size := 1048576, queued_bufs := [10] } := by
    decide
  rw [hq] at h1
  exact h1

/-- C12 (amended): `psee_dma_start_streaming` leaves the sequence counter at 0
whatever it returns, and the completion of index `k` after it (counting from 0,
with enqueues anywhere in between) returns for every queued buffer, stamps it
with `k mod 2^32` and leaves the counter at `(k + 1) mod 2^32`: the numbers go
up by one per completion and wrap to 0 after 4294967295; below 2^32 completions
the stamp is `k` itself. -/
theorem psee_dma_complete_sequence (k : Nat) (dma : psee_dma) (buf : psee_dma_buffer)
    (residue now : Nat) (tr : List psee_event)
    (hreach : complete_reach k dma) (hin : buf.id ∈ dma.queued_bufs) :
    psee_dma_complete dma buf residue now tr =
      Run.ret
        ({ dma with queued_bufs := dma.queued_bufs.erase buf.id,
                    sequence := (k + 1) % 4294967296 },
          { buf with field := V4L2_FIELD_NONE, sequence := k % 4294967296, timestamp := now,
                     payload := u32_sub dma.transfer_size residue },
          tr ++ [psee_event.buffer_done buf.id vb2_buffer_state.DONE]) ∧
    (k < 4294967296 → k % 4294967296 = k) ∧
    (∀ fuel env dma0 pipe tr0 ret dma1 pipe1 tr1,
      psee_dma_start_streaming fuel env dma0 pipe tr0 = Run.ret (ret, dma1, pipe1, tr1) →
      dma1.sequence = 0) := by
  have hseq := complete_reach_sequence k dma hreach
  refine ⟨?_, fun hk => Nat.mod_eq_of_lt hk, ?_⟩
  · rw [complete_eq dma buf residue now tr hin, hseq]
    have hinc : u32_inc (k % 4294967296) = (k + 1) % 4294967296 := by
      unfold u32_inc
      omega
    rw [hinc]
  · intro fuel env dma0 pipe tr0 ret dma1 pipe1 tr1 h
    exact start_streaming_sequence fuel env dma0 dma1 pipe pipe1 tr0 tr1 ret h

/-- Witness of C12 (amended): the first completion after a start of a channel
whose counter stood at 7 is stamped 0. -/
theorem psee_dma_complete_sequence_witness :
    psee_dma_complete
        { entity := 0, sequence := 0, transfer_size := 1048576, queued_bufs := [10, 11] }
        (fresh_buffer 10 1048576) 48 99 [] =
      Run.ret
        ({ entity := 0, sequence := 1, transfer_size := 1048576, queued_bufs := [11] },
          { id := 10, plane_size := 1048576, dma := none, field := 1, sequence := 0,
            timestamp := 99, payload := 1048528 },
          [psee_event.buffer_done 10 vb2_buffer_state.DONE]) :=
  (psee_dma_complete_sequence 0
    { entity := 0, sequence := 0, transfer_size := 1048576, queued_bufs := [10, 11] }
    (fresh_buffer 10 1048576) 48 99 []
    (complete_reach.start 4 (env_single 0)
      { entity := 0, sequence := 7, transfer_size := 1048576, queued_bufs := [10, 11] }
      { entity := 0, sequence := 0, transfer_size := 1048576, queued_bufs := [10, 11] }
      psee_pipeline_empty
      { use_count := 1, stream_count := 1, num_dmas := 1, output := some 0 } []
      [psee_event.media_pipeline_start 0, psee_event.issue_pending 0,
        psee_event.chain_walk true, psee_event.s_stream 1 true] 0 (by decide))
    (by decide)).1

/-- C16 (code defect): buffer 10 is enqueued (descriptor submitted); the start
fails on `media_pipeline_start` and hands the buffer back in state QUEUED,
unlinking it, without `dmaengine_terminate_all`, so the descriptor stays
submitted; the buffer is enqueued again (second descriptor) and the next start
succeeds. The engine then completes both descriptors, once each: the first
callback unlinks the buffer and hands it back DONE, the second one runs
`list_del` on the entry already unlinked. -/
theorem psee_dma_complete_after_failed_start :
    psee_dma_buffer_queue
        { entity := 0, sequence := 0, transfer_size := 1048576, queued_bufs := [] }
        (fresh_buffer 10 1048576) true false [] =
      ({ entity := 0, sequence := 0, transfer_size := 1048576, queued_bufs := [10] },
        [psee_event.prep_slave_single 10 1048576 true, psee_event.submit 10]) ∧
    psee_dma_start_streaming 4 env_busy
        { entity := 0, sequence := 0, transfer_size := 1048576, queued_bufs := [10] }
        psee_pipeline_empty
        [psee_event.prep_slave_single 10 1048576 true, psee_event.submit 10] =
      Run.ret (-16,
        { entity := 0, sequence := 0, transfer_size := 1048576, queued_bufs := [] },
        psee_pipeline_empty,
        [psee_event.prep_slave_single 10 1048576 true, psee_event.submit 10,
          psee_event.media_pipeline_start 0,
          psee_event.buffer_done 10 vb2_buffer_state.QUEUED]) ∧
    psee_dma_buffer_queue
        { entity := 0, sequence := 0, transfer_size := 1048576, queued_bufs := [] }
        (fresh_buffer 10 1048576) true false
        [psee_event.prep_slave_single 10 1048576 true, psee_event.submit 10,
          psee_event.media_pipeline_start 0,
          psee_event.buffer_done 10 vb2_buffer_state.QUEUED] =
      ({ entity := 0, sequence := 0, transfer_size := 1048576, queued_bufs := [10] },
        [psee_event.prep_slave_single 10 1048576 true, psee_event.submit 10,
          psee_event.media_pipeline_start 0,
          psee_event.buffer_done 10 vb2_buffer_state.QUEUED,
          psee_event.prep_slave_single 10 1048576 true, psee_event.submit 10]) ∧
    psee_dma_start_streaming 4 env_busy
        { entity := 0, sequence := 0, transfer_size := 1048576, queued_bufs := [10] }
        psee_pipeline_empty
        [psee_event.prep_slave_single 10 1048576 true, psee_event.submit 10,
          psee_event.media_pipeline_start 0,
          psee_event.buffer_done 10 vb2_buffer_state.QUEUED,
          psee_event.prep_slave_single 10 1048576 true, psee_event.submit 10] =
      Run.ret (0,
        { entity := 0, sequence := 0, transfer_size := 1048576, queued_bufs := [10] },
        { use_count := 1, stream_count := 1, num_dmas := 1, output := some 0 },
        [psee_event.prep_slave_single 10 1048576 true, psee_event.submit 10,
          psee_event.media_pipeline_start 0,
          psee_event.buffer_done 10 vb2_buffer_state.QUEUED,
          psee_event.prep_slave_single 10 1048576 true, psee_event.submit 10,
          psee_event.media_pipeline_start 0, psee_event.issue_pending 0,
          psee_event.chain_walk true, psee_event.s_stream 1 true]) ∧
    psee_dma_complete
        { entity := 0, sequence := 0, transfer_size := 1048576, queued_bufs := [10] }
        (fresh_buffer 10 1048576) 0 5 [] =
      Run.ret
        ({ entity := 0, sequence := 1, transfer_size := 1048576, queued_bufs := [] },
          { id := 10, plane_size := 1048576, dma := none, field := 1, sequence := 0,
            timestamp := 5, payload := 1048576 },
          [psee_event.buffer_done 10 vb2_buffer_state.DONE]) ∧
    psee_dma_complete
        { entity := 0, sequence := 1, transfer_size := 1048576, queued_bufs := [] }
        (fresh_buffer 10 1048576) 0 6 [psee_event.buffer_done 10 vb2_buffer_state.DONE] =
      Run.oops := by
  refine ⟨by decide, by decide, by decide, by decide, by decide, by decide⟩

/-! ## Graph discovery and binding -/

theorem notify_bound_loop_skip (subdev : v4l2_subdev) (rest : List psee_graph_entity) :
    ∀ pre : List psee_graph_entity, (∀ x ∈ pre, x.fwnode ≠ subdev.fwnode) →
      psee_graph_notify_bound_loop subdev (pre ++ rest) =
        ((psee_graph_notify_bound_loop subdev rest).1,
          pre ++ (psee_graph_notify_bound_loop subdev rest).2) := by
  intro pre
  induction pre with
  | nil => intro _; rfl
  | cons x pre ih =>
    intro h
    have hx : x.fwnode ≠ subdev.fwnode := h x (List.mem_cons_self x pre)
    have ih1 := ih (fun y hy => h y (List.mem_cons_of_mem x hy))
    rw [List.cons_append, psee_graph_notify_bound_loop, if_pos hx, ih1]
    rfl

theorem notify_bound_loop_none (subdev : v4l2_subdev) :
    ∀ l : List psee_graph_entity, (∀ x ∈ l, x.fwnode ≠ subdev.fwnode) →
      psee_graph_notify_bound_loop subdev l = (-EINVAL, l) := by
  intro l h
  have h1 := notify_bound_loop_skip subdev [] l h
  rw [List.append_nil] at h1
  rw [h1]
  simp only [psee_graph_notify_bound_loop, List.append_nil]

theorem notify_bound_loop_keeps (subdev : v4l2_subdev) :
    ∀ (l : List psee_graph_entity) (i : Nat) (x : psee_graph_entity),
      l[i]? = some x → x.subdev ≠ none →
      (psee_graph_notify_bound_loop subdev l).2[i]? = some x := by
  intro l
  induction l with
  | nil => intro i x h; simp at h
  | cons e rest ih =>
    intro i x h hb
    rw [psee_graph_notify_bound_loop]
    by_cases hf : e.fwnode ≠ subdev.fwnode
    · rw [if_pos hf]
      cases i with
      | zero =>
        simp only [List.getElem?_cons_zero] at h ⊢
        exact h
      | succ j =>
        simp only [List.getElem?_cons_succ] at h ⊢
        exact ih j x h hb
    · rw [if_neg hf]
      by_cases hs : e.subdev.isSome = true
      · rw [if_pos hs]
        exact h
      · rw [if_neg hs]
        cases i with
        | zero =>
          simp only [List.getElem?_cons_zero, Option.some.injEq] at h
          rw [h] at hs
          cases hx : x.subdev with
          | none => exact absurd hx hb
          | some v => rw [hx] at hs; exact absurd rfl hs
        | succ j =>
          simp only [List.getElem?_cons_succ] at h ⊢
          exact h

/-- C19: `psee_graph_notify_bound` looks at the first pending node whose
firmware node is the one of the sub-device. When that node is unbound the call
returns 0 and sets its `entity` and `subdev`, every other node unchanged; when
it is bound, or when no pending node matches, the call returns `-EINVAL` and
the device is unchanged. In every case a node that was bound keeps its
binding. -/
theorem psee_graph_notify_bound_first_match (pdev : psee_composite_device)
    (subdev : v4l2_subdev) :
    (∀ pre e post, pdev.asd_list = pre ++ e :: post →
      (∀ x ∈ pre, x.fwnode ≠ subdev.fwnode) → e.fwnode = subdev.fwnode →
      (e.subdev = none →
        psee_graph_notify_bound pdev subdev =
          (0, { pdev with asd_list :=
            pre ++ { e with entity := some subdev.entity, subdev := some subdev.id } :: post })) ∧
      (e.subdev ≠ none → psee_graph_notify_bound pdev subdev = (-EINVAL, pdev))) ∧
    ((∀ x ∈ pdev.asd_list, x.fwnode ≠ subdev.fwnode) →
      psee_graph_notify_bound pdev subdev = (-EINVAL, pdev)) ∧
    (∀ (i : Nat) (x : psee_graph_entity), pdev.asd_list[i]? = some x → x.subdev ≠ none →
      (psee_graph_notify_bound pdev subdev).2.asd_list[i]? = some x) := by
  refine ⟨?_, ?_, ?_⟩
  · intro pre e post hl hpre he
    have hskip := notify_bound_loop_skip subdev (e :: post) pre hpre
    have hne : ¬ e.fwnode ≠ subdev.fwnode := fun h => h he
    refine ⟨?_, ?_⟩
    · intro hs
      have hhead : psee_graph_notify_bound_loop subdev (e :: post) =
          (0, { e with entity := some subdev.entity, subdev := some subdev.id } :: post) := by
        rw [psee_graph_notify_bound_loop, if_neg hne, hs]
        rfl
      unfold psee_graph_notify_bound
      rw [hl, hskip, hhead]
    · intro hs
      have hhead : psee_graph_notify_bound_loop subdev (e :: post) = (-EINVAL, e :: post) := by
        rw [psee_graph_notify_bound_loop, if_neg hne]
        cases hx : e.subdev with
        | none => exact absurd hx hs
        | some v => rfl
      unfold psee_graph_notify_bound
      rw [hl, hskip, hhead, ← hl]
  · intro h
    unfold psee_graph_notify_bound
    rw [notify_bound_loop_none subdev pdev.asd_list h]
  · intro i x h hb
    exact notify_bound_loop_keeps subdev pdev.asd_list i x h hb

/-- Witness of C19: on a list of two unbound nodes the sub-device of node 2
binds the second entry. -/
theorem psee_graph_notify_bound_first_match_witness :
    psee_graph_notify_bound
        { pdev_init with asd_list := [{ fwnode := 1, entity := none, subdev := none },
                                      { fwnode := 2, entity := none, subdev := none }] }
        { id := 102, fwnode := 2, entity := { id := 12, pads := [1, 2] } } =
      (0, { pdev_init with asd_list :=
        [{ fwnode := 1, entity := none, subdev := none },
         { fwnode := 2, entity := some { id := 12, pads := [1, 2] }, subdev := some 102 }] }) :=
  ((psee_graph_notify_bound_first_match
    { pdev_init with asd_list := [{ fwnode := 1, entity := none, subdev := none },
                                  { fwnode := 2, entity := none, subdev := none }] }
    { id := 102, fwnode := 2, entity := { id := 12, pads := [1, 2] } }).1
    [{ fwnode := 1, entity := none, subdev := none }]
    { fwnode := 2, entity := none, subdev := none } [] rfl (by decide) rfl).1 rfl

/-- C18 (code defect): the device root has an endpoint to node 1 and an
endpoint without remote. `psee_graph_parse_one` on the root returns `-EINVAL`
and empties the pending list, and `psee_graph_parse` returns 0. When the
endpoint without remote is on the discovered node 1 instead,
`psee_graph_parse` returns `-EINVAL`. -/
theorem psee_graph_parse_swallows_root_error :
    psee_graph_parse_one (fw_dangling 0) pdev_init 0 = (-EINVAL, pdev_init) ∧
    psee_graph_parse 4 (fw_dangling 0) pdev_init = Run.ret (0, pdev_init) ∧
    psee_graph_parse 4 (fw_dangling 1) pdev_init = Run.ret (-EINVAL, pdev_init) := by
  refine ⟨by decide, by decide, by decide⟩

theorem find_entity_isSome (pdev : psee_composite_device) (n : Nat) :
    (psee_graph_find_entity pdev n).isSome = true ↔ n ∈ asd_fwnodes pdev := by
  unfold psee_graph_find_entity asd_fwnodes
  rw [List.find?_isSome]
  simp only [decide_eq_true_eq, List.mem_map]

theorem find_entity_some (pdev : psee_composite_device) (n : Nat) (ent : psee_graph_entity)
    (h : psee_graph_find_entity pdev n = some ent) : ent.fwnode = n ∧ ent ∈ pdev.asd_list := by
  unfold psee_graph_find_entity at h
  refine ⟨?_, List.mem_of_find?_eq_some h⟩
  have h1 := List.find?_some h
  simpa using h1

theorem graph_parse_inv_nil (pdev : psee_composite_device) :
    graph_parse_inv { pdev with asd_list := [] } := by
  unfold graph_parse_inv asd_fwnodes
  simp

theorem graph_parse_inv_add (pdev : psee_composite_device) (remote : Nat)
    (h : graph_parse_inv pdev) (hr : remote ≠ pdev.of_node) (hn : remote ∉ asd_fwnodes pdev) :
    graph_parse_inv { pdev with asd_list := pdev.asd_list ++
      [{ fwnode := remote, entity := none, subdev := none }] } := by
  unfold graph_parse_inv asd_fwnodes at *
  simp only [List.map_append, List.map_cons, List.map_nil, List.mem_append, List.mem_singleton,
    not_or]
  refine ⟨⟨h.1, fun he => hr he.symm⟩, ?_⟩
  rw [List.nodup_append]
  refine ⟨h.2, List.nodup_singleton _, ?_⟩
  intro a ha hb
  rw [List.mem_singleton] at hb
  rw [hb] at ha
  exact hn ha

/-- The loop of `psee_graph_parse_one` keeps the invariant of the pending list
and the device root. -/
theorem parse_one_loop_inv (env : fwnode_graph) :
    ∀ (eps : List fwnode_endpoint) (pdev : psee_composite_device), graph_parse_inv pdev →
      graph_parse_inv (psee_graph_parse_one_loop env pdev eps).2 ∧
      (psee_graph_parse_one_loop env pdev eps).2.of_node = pdev.of_node := by
  intro eps
  induction eps with
  | nil => intro pdev h; exact ⟨h, rfl⟩
  | cons ep rest ih =>
    intro pdev h
    rw [psee_graph_parse_one_loop]
    split
    · exact ⟨graph_parse_inv_nil pdev, rfl⟩
    · rename_i remote _
      split
      · exact ih pdev h
      · rename_i hskip
        split
        · exact ⟨graph_parse_inv_nil pdev, rfl⟩
        · have hr : remote ≠ pdev.of_node := fun he => hskip (Or.inl he)
          have hn : remote ∉ asd_fwnodes pdev := fun hm =>
            hskip (Or.inr ((find_entity_isSome pdev remote).2 hm))
          exact ih _ (graph_parse_inv_add pdev remote h hr hn)

theorem parse_one_inv (env : fwnode_graph) (pdev : psee_composite_device) (fwnode : Nat)
    (h : graph_parse_inv pdev) :
    graph_parse_inv (psee_graph_parse_one env pdev fwnode).2 ∧
    (psee_graph_parse_one env pdev fwnode).2.of_node = pdev.of_node :=
  parse_one_loop_inv env (env.endpoints fwnode) pdev h

theorem parse_loop_inv (env : fwnode_graph) :
    ∀ (fuel i : Nat) (ret : Int) (pdev : psee_composite_device) (r : Int)
      (pdev1 : psee_composite_device), graph_parse_inv pdev →
      psee_graph_parse_loop env fuel i ret pdev = Run.ret (r, pdev1) → graph_parse_inv pdev1 := by
  intro fuel
  induction fuel with
  | zero =>
    intro i ret pdev r pdev1 _ h
    rw [psee_graph_parse_loop] at h
    exact absurd h (by simp)
  | succ fuel ih =>
    intro i ret pdev r pdev1 hinv h
    rw [psee_graph_parse_loop] at h
    split at h
    · simp only [Run.ret.injEq, Prod.mk.injEq] at h
      rw [← h.2]
      exact hinv
    · rename_i entity _
      split at h
      · simp only [Run.ret.injEq, Prod.mk.injEq] at h
        rw [← h.2]
        exact graph_parse_inv_nil _
      · exact ih _ _ _ r pdev1 (parse_one_inv env pdev entity.fwnode hinv).1 h

theorem parse_one_loop_bound (env : fwnode_graph) (n : Nat) :
    ∀ (eps : List fwnode_endpoint) (pdev : psee_composite_device),
      (∀ ep ∈ eps, ∀ r, ep.remote_parent = some r → r < n) →
      (∀ m ∈ asd_fwnodes pdev, m < n) →
      (∀ m ∈ asd_fwnodes (psee_graph_parse_one_loop env pdev eps).2, m < n) ∧
      (¬ (psee_graph_parse_one_loop env pdev eps).1 < 0 →
        pdev.asd_list.length ≤ (psee_graph_parse_one_loop env pdev eps).2.asd_list.length) := by
  intro eps
  induction eps with
  | nil => intro pdev _ h; exact ⟨h, fun _ => Nat.le_refl _⟩
  | cons ep rest ih =>
    intro pdev heps h
    have hrest : ∀ e ∈ rest, ∀ r, e.remote_parent = some r → r < n :=
      fun e he => heps e (List.mem_cons_of_mem ep he)
    rw [psee_graph_parse_one_loop]
    split
    · refine ⟨?_, ?_⟩
      · intro m hm
        simp [asd_fwnodes] at hm
      · intro hneg
        exact absurd (show -EINVAL < 0 by decide) hneg
    · rename_i remote hrem
      split
      · exact ih pdev hrest h
      · split
        · rename_i hadd
          refine ⟨?_, ?_⟩
          · intro m hm
            simp [asd_fwnodes] at hm
          · intro hneg
            exact absurd hadd hneg
        · have hb : ∀ m ∈ asd_fwnodes { pdev with asd_list := pdev.asd_list ++
              [{ fwnode := remote, entity := none, subdev := none }] }, m < n := by
            intro m hm
            simp only [asd_fwnodes, List.map_append, List.map_cons, List.map_nil,
              List.mem_append, List.mem_singleton] at hm
            rcases hm with hm | hm
            · exact h m hm
            · rw [hm]
              exact heps ep (List.mem_cons_self ep rest) remote hrem
          have h1 := ih _ hrest hb
          refine ⟨h1.1, ?_⟩
          intro hneg
          have h2 := h1.2 hneg
          simp only [List.length_append, List.length_singleton] at h2
          omega

theorem nodup_below_length (l : List Nat) (n : Nat) (hd : l.Nodup) (hb : ∀ m ∈ l, m < n) :
    l.length ≤ n := by
  have h1 : l.toFinset ⊆ Finset.range n := by
    intro m hm
    rw [List.mem_toFinset] at hm
    exact Finset.mem_range.2 (hb m hm)
  have h2 := Finset.card_le_card h1
  rw [List.toFinset_card_of_nodup hd, Finset.card_range] at h2
  exact h2

/-- On a firmware graph whose nodes are below `n`, the loop of
`psee_graph_parse` returns when it has fuel for the nodes left. -/
theorem parse_loop_returns (env : fwnode_graph) (n : Nat) (hbelow : fwnodes_below env n) :
    ∀ (fuel i : Nat) (ret : Int) (pdev : psee_composite_device), graph_parse_inv pdev →
      (∀ m ∈ asd_fwnodes pdev, m < n) → i ≤ pdev.asd_list.length → n + 1 ≤ fuel + i →
      ∃ r pdev1, psee_graph_parse_loop env fuel i ret pdev = Run.ret (r, pdev1) := by
  intro fuel
  induction fuel with
  | zero =>
    intro i ret pdev hinv hb hi hf
    have hlen := nodup_below_length (asd_fwnodes pdev) n hinv.2 hb
    simp only [asd_fwnodes, List.length_map] at hlen
    omega
  | succ fuel ih =>
    intro i ret pdev hinv hb hi hf
    rw [psee_graph_parse_loop]
    split
    · exact ⟨ret, pdev, rfl⟩
    · rename_i entity hget
      have hlt : i < pdev.asd_list.length := by
        rcases List.getElem?_eq_some_iff.1 hget with ⟨hlt, _⟩
        exact hlt
      split
      · exact ⟨_, _, rfl⟩
      · rename_i hneg
        have hone := parse_one_loop_bound env n (env.endpoints entity.fwnode) pdev
          (fun ep hep r hr => hbelow entity.fwnode ep r hep hr) hb
        have hlen := hone.2 hneg
        exact ih (i + 1) _ _ (parse_one_inv env pdev entity.fwnode hinv).1 hone.1
          (by unfold psee_graph_parse_one; omega) (by omega)

theorem bind_eq_ret {α β : Type} (x : Run α) (f : α → Run β) (b : β)
    (h : Run.bind x f = Run.ret b) : ∃ a, x = Run.ret a ∧ f a = Run.ret b := by
  cases x with
  | ret a => exact ⟨a, rfl, h⟩
  | oops => exact absurd h (by simp [Run.bind])
  | fuel => exact absurd h (by simp [Run.bind])

theorem bind_ret {α β : Type} (a : α) (f : α → Run β) : Run.bind (Run.ret a) f = f a := rfl

/-- One pass of the loop body of `psee_graph_build_one` leaves the links as
they are or adds one link to a pending node. -/
theorem build_one_step_links (env : fwnode_graph) (pdev : psee_composite_device)
    (entity : psee_graph_entity) (links links1 : List media_link) (ep : fwnode_endpoint)
    (go : Bool) (r : Int) (hep : ep ∈ env.endpoints entity.fwnode)
    (h : psee_graph_build_one_step env pdev entity links ep = Run.ret (go, r, links1)) :
    links1 = links ∨ ∃ l, links1 = links ++ [l] ∧ link_to_pending env pdev entity.fwnode l := by
  unfold psee_graph_build_one_step at h
  split at h
  · simp only [Run.ret.injEq, Prod.mk.injEq] at h
    exact Or.inl h.2.2.symm
  · split at h
    · exact absurd h (by simp)
    · split at h
      · simp only [Run.ret.injEq, Prod.mk.injEq] at h
        exact Or.inl h.2.2.symm
      · split at h
        · simp only [Run.ret.injEq, Prod.mk.injEq] at h
          exact Or.inl h.2.2.symm
        · split at h
          · simp only [Run.ret.injEq, Prod.mk.injEq] at h
            exact Or.inl h.2.2.symm
          · rename_i hroot
            split at h
            · simp only [Run.ret.injEq, Prod.mk.injEq] at h
              exact Or.inl h.2.2.symm
            · rename_i ent hfind
              split at h
              · exact absurd h (by simp)
              · rename_i remote hrem
                split at h
                · simp only [Run.ret.injEq, Prod.mk.injEq] at h
                  exact Or.inl h.2.2.symm
                · dsimp only at h
                  split at h
                  · simp only [Run.ret.injEq, Prod.mk.injEq] at h
                    exact Or.inl h.2.2.symm
                  · simp only [Run.ret.injEq, Prod.mk.injEq] at h
                    refine Or.inr ⟨_, h.2.2.symm, ep, ent, remote, hep, hroot, hfind,
                      (find_entity_some pdev _ ent hfind).1, hrem, rfl, rfl⟩

theorem endpoint_loop_links
    (body : List media_link → fwnode_endpoint → Run (Bool × Int × List media_link))
    (good : media_link → Prop) (eps0 : List fwnode_endpoint)
    (hbody : ∀ links ep go r links1, ep ∈ eps0 → body links ep = Run.ret (go, r, links1) →
      links1 = links ∨ ∃ l, links1 = links ++ [l] ∧ good l) :
    ∀ (eps : List fwnode_endpoint) (ret : Int) (links : List media_link) (go : Bool) (r : Int)
      (links1 : List media_link), (∀ ep ∈ eps, ep ∈ eps0) →
      endpoint_loop body ret links eps = Run.ret (go, r, links1) →
      ∃ added, links1 = links ++ added ∧ ∀ l ∈ added, good l := by
  intro eps
  induction eps with
  | nil =>
    intro ret links go r links1 _ h
    rw [endpoint_loop] at h
    simp only [Run.ret.injEq, Prod.mk.injEq] at h
    exact ⟨[], by rw [← h.2.2, List.append_nil], fun l hl => absurd hl (List.not_mem_nil l)⟩
  | cons ep rest ih =>
    intro ret links go r links1 hsub h
    rw [endpoint_loop] at h
    obtain ⟨res, hres, hnext⟩ := bind_eq_ret _ _ _ h
    obtain ⟨go1, r1, l1⟩ := res
    have hstep := hbody links ep go1 r1 l1 (hsub ep (List.mem_cons_self ep rest)) hres
    have hrest : ∀ e ∈ rest, e ∈ eps0 := fun e he => hsub e (List.mem_cons_of_mem ep he)
    have hfin : ∃ added, links1 = l1 ++ added ∧ ∀ l ∈ added, good l := by
      dsimp only at hnext
      by_cases hgo : go1 = true
      · rw [if_pos hgo] at hnext
        exact ih r1 l1 go r links1 hrest hnext
      · rw [if_neg hgo] at hnext
        simp only [Run.ret.injEq, Prod.mk.injEq] at hnext
        exact ⟨[], by rw [← hnext.2.2, List.append_nil],
          fun l hl => absurd hl (List.not_mem_nil l)⟩
    obtain ⟨added, hadd, hgood⟩ := hfin
    rcases hstep with hs | ⟨l, hs, hl⟩
    · exact ⟨added, by rw [hadd, hs], hgood⟩
    · refine ⟨l :: added, by rw [hadd, hs, List.append_assoc, List.singleton_append], ?_⟩
      intro x hx
      rcases List.mem_cons.1 hx with hx | hx
      · rw [hx]
        exact hl
      · exact hgood x hx

theorem build_one_links (env : fwnode_graph) (pdev : psee_composite_device)
    (entity : psee_graph_entity) (links links1 : List media_link) (ret : Int)
    (h : psee_graph_build_one env pdev entity links = Run.ret (ret, links1)) :
    ∃ added, links1 = links ++ added ∧
      ∀ l ∈ added, link_to_pending env pdev entity.fwnode l := by
  unfold psee_graph_build_one at h
  obtain ⟨res, hres, hnext⟩ := bind_eq_ret _ _ _ h
  obtain ⟨go, r, l1⟩ := res
  simp only [Run.ret.injEq, Prod.mk.injEq] at hnext
  rw [← hnext.2]
  exact endpoint_loop_links (psee_graph_build_one_step env pdev entity)
    (link_to_pending env pdev entity.fwnode) (env.endpoints entity.fwnode)
    (fun links ep go r links1 hep hb =>
      build_one_step_links env pdev entity links links1 ep go r hep hb)
    (env.endpoints entity.fwnode) 0 links go r l1 (fun _ hep => hep) hres

/-- C17: starting from an empty pending list, whatever `psee_graph_parse`
returns leaves a pending list without the device root and without two entries
of the same node; `psee_graph_parse_one` keeps that property at every call; on
a firmware graph with nodes below `n`, `psee_graph_parse` returns with fuel
above `n`. Every link that `psee_graph_build_one` creates goes to the entity of
a pending node named as remote by an endpoint of the node it walks, and that
node is not the device root. -/
theorem psee_graph_parse_never_root (env : fwnode_graph) (pdev : psee_composite_device)
    (hempty : pdev.asd_list = []) :
    (∀ fuel ret pdev1, psee_graph_parse fuel env pdev = Run.ret (ret, pdev1) →
      graph_parse_inv pdev1) ∧
    (∀ n fuel, fwnodes_below env n → n < fuel →
      ∃ ret pdev1, psee_graph_parse fuel env pdev = Run.ret (ret, pdev1)) ∧
    (∀ (p : psee_composite_device) (fwnode : Nat), graph_parse_inv p →
      graph_parse_inv (psee_graph_parse_one env p fwnode).2) ∧
    (∀ (p : psee_composite_device) (entity : psee_graph_entity) (links links1 : List media_link)
      (ret : Int), psee_graph_build_one env p entity links = Run.ret (ret, links1) →
      ∃ added, links1 = links ++ added ∧
        ∀ l ∈ added, link_to_pending env p entity.fwnode l) := by
  have hinv : graph_parse_inv pdev := by
    unfold graph_parse_inv asd_fwnodes
    rw [hempty]
    simp
  have hroot := parse_one_inv env pdev pdev.of_node hinv
  refine ⟨?_, ?_, ?_, ?_⟩
  · intro fuel ret pdev1 h
    unfold psee_graph_parse at h
    split at h
    · simp only [Run.ret.injEq, Prod.mk.injEq] at h
      rw [← h.2]
      exact hroot.1
    · exact parse_loop_inv env fuel 0 _ _ ret pdev1 hroot.1 h
  · intro n fuel hbelow hfuel
    unfold psee_graph_parse
    split
    · exact ⟨_, _, rfl⟩
    · have hb0 : ∀ m ∈ asd_fwnodes pdev, m < n := by
        intro m hm
        unfold asd_fwnodes at hm
        rw [hempty] at hm
        simp at hm
      have hone := parse_one_loop_bound env n (env.endpoints pdev.of_node) pdev
        (fun ep hep r hr => hbelow pdev.of_node ep r hep hr) hb0
      exact parse_loop_returns env n hbelow fuel 0 _ _ hroot.1 hone.1 (Nat.zero_le _)
        (by omega)
  · intro p fwnode hp
    exact (parse_one_inv env p fwnode hp).1
  · intro p entity links links1 ret h
    exact build_one_links env p entity links links1 ret h

/-- Witness of C17: discovery on the two-node graph `fw_pair` returns 0 with
the nodes 1 and 2 pending. -/
theorem psee_graph_parse_never_root_witness :
    psee_graph_parse 4 fw_pair pdev_init =
      Run.ret (0, { pdev_init with asd_list := [{ fwnode := 1, entity := none, subdev := none },
                                               { fwnode := 2, entity := none, subdev := none }] }) ∧
    graph_parse_inv { pdev_init with asd_list :=
      [{ fwnode := 1, entity := none, subdev := none },
       { fwnode := 2, entity := none, subdev := none }] } :=
  have h : psee_graph_parse 4 fw_pair pdev_init =
      Run.ret (0, { pdev_init with asd_list := [{ fwnode := 1, entity := none, subdev := none },
                                               { fwnode := 2, entity := none, subdev := none }] }) :=
    by decide
  ⟨h, (psee_graph_parse_never_root fw_pair pdev_init rfl).1 4 0 _ h⟩

/-! ## Graph completion -/

theorem endpoint_loop_append
    (body : List media_link → fwnode_endpoint → Run (Bool × Int × List media_link))
    (rest : List fwnode_endpoint) :
    ∀ (pre : List fwnode_endpoint) (ret : Int) (links : List media_link) (r0 : Int)
      (l0 : List media_link), endpoint_loop body ret links pre = Run.ret (true, r0, l0) →
      endpoint_loop body ret links (pre ++ rest) = endpoint_loop body r0 l0 rest := by
  intro pre
  induction pre with
  | nil =>
    intro ret links r0 l0 h
    rw [endpoint_loop] at h
    simp only [Run.ret.injEq, Prod.mk.injEq, true_and] at h
    rw [List.nil_append, h.1, h.2]
  | cons ep pre ih =>
    intro ret links r0 l0 h
    rw [endpoint_loop] at h
    obtain ⟨res, hres, hnext⟩ := bind_eq_ret _ _ _ h
    obtain ⟨go1, r1, l1⟩ := res
    dsimp only at hnext
    rw [List.cons_append, endpoint_loop, hres, bind_ret]
    dsimp only
    by_cases hgo : go1 = true
    · rw [if_pos hgo] at hnext ⊢
      exact ih r1 l1 r0 l0 hnext
    · rw [if_neg hgo] at hnext
      simp only [Run.ret.injEq, Prod.mk.injEq] at hnext
      exact absurd hnext.1 hgo

/-- A `break` at endpoint `ep`, reached after the endpoints `pre`, ends the
loop with the value and the links of that pass. -/
theorem endpoint_loop_break
    (body : List media_link → fwnode_endpoint → Run (Bool × Int × List media_link))
    (pre post : List fwnode_endpoint) (ep : fwnode_endpoint) (ret r0 r : Int)
    (links l0 l1 : List media_link)
    (hpre : endpoint_loop body ret links pre = Run.ret (true, r0, l0))
    (hstep : body l0 ep = Run.ret (false, r, l1)) :
    endpoint_loop body ret links (pre ++ ep :: post) = Run.ret (false, r, l1) := by
  rw [endpoint_loop_append body (ep :: post) pre ret links r0 l0 hpre, endpoint_loop, hstep,
    bind_ret]
  rfl

theorem notify_complete_loop_append (env : fwnode_graph) (pdev : psee_composite_device)
    (rest : List psee_graph_entity) :
    ∀ (pre : List psee_graph_entity) (links l0 : List media_link),
      psee_graph_notify_complete_loop env pdev links pre = Run.ret (none, l0) →
      psee_graph_notify_complete_loop env pdev links (pre ++ rest) =
        psee_graph_notify_complete_loop env pdev l0 rest := by
  intro pre
  induction pre with
  | nil =>
    intro links l0 h
    rw [psee_graph_notify_complete_loop] at h
    simp only [Run.ret.injEq, Prod.mk.injEq, true_and] at h
    rw [List.nil_append, h]
  | cons e pre ih =>
    intro links l0 h
    rw [psee_graph_notify_complete_loop] at h
    obtain ⟨res, hres, hnext⟩ := bind_eq_ret _ _ _ h
    obtain ⟨r1, l1⟩ := res
    dsimp only at hnext
    rw [List.cons_append, psee_graph_notify_complete_loop, hres, bind_ret]
    dsimp only
    by_cases hneg : r1 < 0
    · rw [if_pos hneg] at hnext
      simp only [Run.ret.injEq, Prod.mk.injEq] at hnext
      exact absurd hnext.1 (by simp)
    · rw [if_neg hneg] at hnext ⊢
      exact ih l1 l0 hnext

/-- A negative value of `psee_graph_build_one` on entity `e`, reached after
the entities `npre`, is returned by `psee_graph_notify_complete`, with the
links made so far and nothing registered. -/
theorem notify_complete_node_fails (env : fwnode_graph) (pdev : psee_composite_device)
    (npre npost : List psee_graph_entity) (e : psee_graph_entity) (links0 links1 : List media_link)
    (r : Int) (hl : pdev.asd_list = npre ++ e :: npost)
    (hpre : psee_graph_notify_complete_loop env pdev pdev.links npre = Run.ret (none, links0))
    (hone : psee_graph_build_one env pdev e links0 = Run.ret (r, links1)) (hr : r < 0) :
    psee_graph_notify_complete env pdev = Run.ret (r, { pdev with links := links1 }) := by
  unfold psee_graph_notify_complete
  rw [hl, notify_complete_loop_append env pdev (e :: npost) npre pdev.links links0 hpre,
    psee_graph_notify_complete_loop, hone, bind_ret]
  dsimp only
  rw [if_pos hr, bind_ret]

/-- A negative value of `psee_graph_build_dma`, reached after every entity, is
returned by `psee_graph_notify_complete`, with the links made so far and
nothing registered. -/
theorem notify_complete_dma_fails (env : fwnode_graph) (pdev : psee_composite_device)
    (links0 links1 : List media_link) (r : Int)
    (hpre : psee_graph_notify_complete_loop env pdev pdev.links pdev.asd_list =
      Run.ret (none, links0))
    (hdma : psee_graph_build_dma env pdev links0 = Run.ret (r, links1)) (hr : r < 0) :
    psee_graph_notify_complete env pdev = Run.ret (r, { pdev with links := links1 }) := by
  unfold psee_graph_notify_complete
  rw [hpre, bind_ret]
  dsimp only
  rw [hdma, bind_ret]
  dsimp only
  rw [if_pos hr]

theorem build_one_break (env : fwnode_graph) (pdev : psee_composite_device)
    (e : psee_graph_entity) (epre epost : List fwnode_endpoint) (ep : fwnode_endpoint)
    (links0 links1 l1 : List media_link) (r0 r : Int)
    (heps : env.endpoints e.fwnode = epre ++ ep :: epost)
    (hpre : endpoint_loop (psee_graph_build_one_step env pdev e) 0 links0 epre =
      Run.ret (true, r0, links1))
    (hstep : psee_graph_build_one_step env pdev e links1 ep = Run.ret (false, r, l1)) :
    psee_graph_build_one env pdev e links0 = Run.ret (r, l1) := by
  unfold psee_graph_build_one
  rw [heps, endpoint_loop_break _ epre epost ep 0 r0 r links0 links1 l1 hpre hstep, bind_ret]

theorem build_dma_break (env : fwnode_graph) (pdev : psee_composite_device)
    (epre epost : List fwnode_endpoint) (ep : fwnode_endpoint)
    (links0 links1 l1 : List media_link) (r0 r : Int)
    (heps : env.endpoints pdev.of_node = epre ++ ep :: epost)
    (hpre : endpoint_loop (psee_graph_build_dma_step env pdev) 0 links0 epre =
      Run.ret (true, r0, links1))
    (hstep : psee_graph_build_dma_step env pdev links1 ep = Run.ret (false, r, l1)) :
    psee_graph_build_dma env pdev links0 = Run.ret (r, l1) := by
  unfold psee_graph_build_dma
  rw [heps, endpoint_loop_break _ epre epost ep 0 r0 r links0 links1 l1 hpre hstep, bind_ret]

theorem build_one_step_local_invalid (env : fwnode_graph) (pdev : psee_composite_device)
    (e : psee_graph_entity) (links : List media_link) (ep : fwnode_endpoint) (loc : media_entity)
    (hp : ¬ ep.parse_ret < 0) (hloc : e.entity = some loc)
    (hlp : loc.pads.length ≤ ep.link.local_port) :
    psee_graph_build_one_step env pdev e links ep = Run.ret (false, -EINVAL, links) := by
  unfold psee_graph_build_one_step
  rw [if_neg hp, hloc]
  dsimp only
  rw [if_pos hlp]

theorem build_one_step_skip (env : fwnode_graph) (pdev : psee_composite_device)
    (e : psee_graph_entity) (links : List media_link) (ep : fwnode_endpoint) (loc : media_entity)
    (hp : ¬ ep.parse_ret < 0) (hloc : e.entity = some loc)
    (hlp : ep.link.local_port < loc.pads.length)
    (hskip : loc.pads.getD ep.link.local_port 0 &&& MEDIA_PAD_FL_SINK ≠ 0 ∨
      ep.link.remote_node = pdev.of_node) :
    psee_graph_build_one_step env pdev e links ep = Run.ret (true, ep.parse_ret, links) := by
  unfold psee_graph_build_one_step
  rw [if_neg hp, hloc]
  dsimp only
  rw [if_neg (Nat.not_le.2 hlp)]
  by_cases hs : loc.pads.getD ep.link.local_port 0 &&& MEDIA_PAD_FL_SINK ≠ 0
  · rw [if_pos hs]
  · rw [if_neg hs]
    rcases hskip with h | h
    · exact absurd h hs
    · rw [if_pos h]

theorem build_one_step_no_entity (env : fwnode_graph) (pdev : psee_composite_device)
    (e : psee_graph_entity) (links : List media_link) (ep : fwnode_endpoint) (loc : media_entity)
    (hp : ¬ ep.parse_ret < 0) (hloc : e.entity = some loc)
    (hlp : ep.link.local_port < loc.pads.length)
    (hsrc : loc.pads.getD ep.link.local_port 0 &&& MEDIA_PAD_FL_SINK = 0)
    (hroot : ep.link.remote_node ≠ pdev.of_node)
    (hfind : psee_graph_find_entity pdev ep.link.remote_node = none) :
    psee_graph_build_one_step env pdev e links ep = Run.ret (false, -ENODEV, links) := by
  unfold psee_graph_build_one_step
  rw [if_neg hp, hloc]
  dsimp only
  rw [if_neg (Nat.not_le.2 hlp), if_neg (fun h => h hsrc), if_neg hroot, hfind]

theorem build_one_step_remote_invalid (env : fwnode_graph) (pdev : psee_composite_device)
    (e : psee_graph_entity) (links : List media_link) (ep : fwnode_endpoint)
    (loc remote : media_entity) (ent : psee_graph_entity)
    (hp : ¬ ep.parse_ret < 0) (hloc : e.entity = some loc)
    (hlp : ep.link.local_port < loc.pads.length)
    (hsrc : loc.pads.getD ep.link.local_port 0 &&& MEDIA_PAD_FL_SINK = 0)
    (hroot : ep.link.remote_node ≠ pdev.of_node)
    (hfind : psee_graph_find_entity pdev ep.link.remote_node = some ent)
    (hrem : ent.entity = some remote) (hrp : remote.pads.length ≤ ep.link.remote_port) :
    psee_graph_build_one_step env pdev e links ep = Run.ret (false, -EINVAL, links) := by
  unfold psee_graph_build_one_step
  rw [if_neg hp, hloc]
  dsimp only
  rw [if_neg (Nat.not_le.2 hlp), if_neg (fun h => h hsrc), if_neg hroot, hfind]
  dsimp only
  rw [hrem]
  dsimp only
  rw [if_pos hrp]

theorem build_dma_step_no_dma (env : fwnode_graph) (pdev : psee_composite_device)
    (links : List media_link) (ep : fwnode_endpoint) (hp : ¬ ep.parse_ret < 0)
    (hdma : psee_graph_find_dma pdev ep.link.local_port = none) :
    psee_graph_build_dma_step env pdev links ep = Run.ret (false, -EINVAL, links) := by
  unfold psee_graph_build_dma_step
  rw [if_neg hp, hdma]

theorem build_dma_step_no_entity (env : fwnode_graph) (pdev : psee_composite_device)
    (links : List media_link) (ep : fwnode_endpoint) (dma : psee_dma) (hp : ¬ ep.parse_ret < 0)
    (hdma : psee_graph_find_dma pdev ep.link.local_port = some dma)
    (hfind : psee_graph_find_entity pdev ep.link.remote_node = none) :
    psee_graph_build_dma_step env pdev links ep = Run.ret (false, -ENODEV, links) := by
  unfold psee_graph_build_dma_step
  rw [if_neg hp, hdma]
  dsimp only
  rw [hfind]

theorem build_dma_step_remote_invalid (env : fwnode_graph) (pdev : psee_composite_device)
    (links : List media_link) (ep : fwnode_endpoint) (dma : psee_dma) (remote : media_entity)
    (ent : psee_graph_entity) (hp : ¬ ep.parse_ret < 0)
    (hdma : psee_graph_find_dma pdev ep.link.local_port = some dma)
    (hfind : psee_graph_find_entity pdev ep.link.remote_node = some ent)
    (hrem : ent.entity = some remote) (hrp : remote.pads.length ≤ ep.link.remote_port) :
    psee_graph_build_dma_step env pdev links ep = Run.ret (false, -EINVAL, links) := by
  unfold psee_graph_build_dma_step
  rw [if_neg hp, hdma]
  dsimp only
  rw [hfind]
  dsimp only
  rw [hrem]
  dsimp only
  rw [if_pos hrp]

/-- C20 as stated fails: on the fully bound graph `fw_pair`, node 1 has a parsed
endpoint naming pad 7 of node 2, whose entity has two pads, and a parsed
endpoint whose remote node is the device root, which no pending node matches;
the first is on a sink pad, and both are skipped. `psee_graph_notify_complete`
returns 0, creates the three links of the graph and registers the media
device. -/
theorem psee_graph_notify_complete_skips :
    psee_graph_notify_complete fw_pair pdev_pair =
      Run.ret (0, { pdev_pair with
        links := [{ source := 12, source_pad := 1, sink := 11, sink_pad := 0, flags := 1 },
                  { source := 11, source_pad := 1, sink := 20, sink_pad := 0, flags := 1 },
                  { source := 21, source_pad := 0, sink := 12, sink_pad := 0, flags := 1 }],
        subdev_nodes := true, registered := true }) ∧
    fw_ep 1 0 2 7 ∈ fw_pair.endpoints 1 ∧
    psee_graph_find_entity pdev_pair 2 =
      some { fwnode := 2, entity := some { id := 12, pads := [1, 2] }, subdev := some 102 } ∧
    fw_ep 1 1 0 0 ∈ fw_pair.endpoints 1 ∧
    psee_graph_find_entity pdev_pair 0 = none := by
  refine ⟨by decide, by decide, by decide, by decide, by decide⟩

/-- C20 (amended). Per-node walk: when the walk reaches, on an entity `e` bound
to `loc`, a parsed endpoint whose local pad index is not below the pad count of
`loc`, `psee_graph_notify_complete` returns `-EINVAL`; an endpoint on a sink pad,
or whose remote node is the device root, is skipped without a look at its
remote side; for an endpoint on a pad that is not a sink and with a remote node
other than the root, the call returns `-ENODEV` when no pending node matches
the remote node and `-EINVAL` when the remote pad index is not below the pad
count of the remote entity. DMA-port walk: when the walk reaches a parsed
endpoint of the root, the call returns `-EINVAL` when no DMA channel has the
local port, `-ENODEV` when no pending node matches the remote node and `-EINVAL`
when the remote pad index is not below the pad count of the remote entity. In
each failure the call returns with the links made before that endpoint and
registers nothing. -/
theorem psee_graph_notify_complete_fails (env : fwnode_graph) (pdev : psee_composite_device) :
    (∀ (npre npost : List psee_graph_entity) (e : psee_graph_entity)
      (epre epost : List fwnode_endpoint) (ep : fwnode_endpoint)
      (links0 links1 : List media_link) (r0 : Int) (loc : media_entity),
      pdev.asd_list = npre ++ e :: npost →
      psee_graph_notify_complete_loop env pdev pdev.links npre = Run.ret (none, links0) →
      env.endpoints e.fwnode = epre ++ ep :: epost →
      endpoint_loop (psee_graph_build_one_step env pdev e) 0 links0 epre =
        Run.ret (true, r0, links1) →
      ¬ ep.parse_ret < 0 → e.entity = some loc →
      (loc.pads.length ≤ ep.link.local_port →
        psee_graph_notify_complete env pdev =
          Run.ret (-EINVAL, { pdev with links := links1 })) ∧
      (ep.link.local_port < loc.pads.length →
        (loc.pads.getD ep.link.local_port 0 &&& MEDIA_PAD_FL_SINK ≠ 0 ∨
          ep.link.remote_node = pdev.of_node) →
        psee_graph_build_one_step env pdev e links1 ep =
          Run.ret (true, ep.parse_ret, links1)) ∧
      (ep.link.local_port < loc.pads.length →
        loc.pads.getD ep.link.local_port 0 &&& MEDIA_PAD_FL_SINK = 0 →
        ep.link.remote_node ≠ pdev.of_node →
        (psee_graph_find_entity pdev ep.link.remote_node = none →
          psee_graph_notify_complete env pdev =
            Run.ret (-ENODEV, { pdev with links := links1 })) ∧
        (∀ ent remote, psee_graph_find_entity pdev ep.link.remote_node = some ent →
          ent.entity = some remote → remote.pads.length ≤ ep.link.remote_port →
          psee_graph_notify_complete env pdev =
            Run.ret (-EINVAL, { pdev with links := links1 })))) ∧
    (∀ (epre epost : List fwnode_endpoint) (ep : fwnode_endpoint)
      (links0 links1 : List media_link) (r0 : Int),
      psee_graph_notify_complete_loop env pdev pdev.links pdev.asd_list =
        Run.ret (none, links0) →
      env.endpoints pdev.of_node = epre ++ ep :: epost →
      endpoint_loop (psee_graph_build_dma_step env pdev) 0 links0 epre =
        Run.ret (true, r0, links1) →
      ¬ ep.parse_ret < 0 →
      (psee_graph_find_dma pdev ep.link.local_port = none →
        psee_graph_notify_complete env pdev =
          Run.ret (-EINVAL, { pdev with links := links1 })) ∧
      (∀ dma, psee_graph_find_dma pdev ep.link.local_port = some dma →
        (psee_graph_find_entity pdev ep.link.remote_node = none →
          psee_graph_notify_complete env pdev =
            Run.ret (-ENODEV, { pdev with links := links1 })) ∧
        (∀ ent remote, psee_graph_find_entity pdev ep.link.remote_node = some ent →
          ent.entity = some remote → remote.pads.length ≤ ep.link.remote_port →
          psee_graph_notify_complete env pdev =
            Run.ret (-EINVAL, { pdev with links := links1 })))) := by
  have hinval : -EINVAL < 0 := by decide
  have hnodev : -ENODEV < 0 := by decide
  refine ⟨?_, ?_⟩
  · intro npre npost e epre epost ep links0 links1 r0 loc hl hnodes heps hpre hp hloc
    refine ⟨?_, ?_, ?_⟩
    · intro hlp
      exact notify_complete_node_fails env pdev npre npost e links0 links1 _ hl hnodes
        (build_one_break env pdev e epre epost ep links0 links1 links1 r0 _ heps hpre
          (build_one_step_local_invalid env pdev e links1 ep loc hp hloc hlp)) hinval
    · intro hlp hskip
      exact build_one_step_skip env pdev e links1 ep loc hp hloc hlp hskip
    · intro hlp hsrc hroot
      refine ⟨?_, ?_⟩
      · intro hfind
        exact notify_complete_node_fails env pdev npre npost e links0 links1 _ hl hnodes
          (build_one_break env pdev e epre epost ep links0 links1 links1 r0 _ heps hpre
            (build_one_step_no_entity env pdev e links1 ep loc hp hloc hlp hsrc hroot hfind))
          hnodev
      · intro ent remote hfind hrem hrp
        exact notify_complete_node_fails env pdev npre npost e links0 links1 _ hl hnodes
          (build_one_break env pdev e epre epost ep links0 links1 links1 r0 _ heps hpre
            (build_one_step_remote_invalid env pdev e links1 ep loc remote ent hp hloc hlp hsrc
              hroot hfind hrem hrp)) hinval
  · intro epre epost ep links0 links1 r0 hnodes heps hpre hp
    refine ⟨?_, ?_⟩
    · intro hdma
      exact notify_complete_dma_fails env pdev links0 links1 _ hnodes
        (build_dma_break env pdev epre epost ep links0 links1 links1 r0 _ heps hpre
          (build_dma_step_no_dma env pdev links1 ep hp hdma)) hinval
    · intro dma hdma
      refine ⟨?_, ?_⟩
      · intro hfind
        exact notify_complete_dma_fails env pdev links0 links1 _ hnodes
          (build_dma_break env pdev epre epost ep links0 links1 links1 r0 _ heps hpre
            (build_dma_step_no_entity env pdev links1 ep dma hp hdma hfind)) hnodev
      · intro ent remote hfind hrem hrp
        exact notify_complete_dma_fails env pdev links0 links1 _ hnodes
          (build_dma_break env pdev epre epost ep links0 links1 links1 r0 _ heps hpre
            (build_dma_step_remote_invalid env pdev links1 ep dma remote ent hp hdma hfind
              hrem hrp)) hinval

/-- Witness of C20 (amended): on `fw_bad_pad` the first endpoint of the first
entity is on source pad 1 and names pad 5 of node 2, whose entity has two pads;
the call returns `-EINVAL`, no link is made and nothing is registered. -/
theorem psee_graph_notify_complete_fails_witness :
    psee_graph_notify_complete fw_bad_pad pdev_pair = Run.ret (-EINVAL, pdev_pair) :=
  (((psee_graph_notify_complete_fails fw_bad_pad pdev_pair).1 []
    [{ fwnode := 2, entity := some { id := 12, pads := [1, 2] }, subdev := some 102 }]
    { fwnode := 1, entity := some { id := 11, pads := [1, 2] }, subdev := some 101 }
    [] [] (fw_ep 1 1 2 5) [] [] 0 { id := 11, pads := [1, 2] }
    rfl rfl rfl rfl (by decide) rfl).2.2 (by decide) (by decide) (by decide)).2
    { fwnode := 2, entity := some { id := 12, pads := [1, 2] }, subdev := some 102 }
    { id := 12, pads := [1, 2] } (by decide) rfl (by decide)

/-! ## Diagnostic registers -/

theorem land_three (n : Nat) : n &&& 3 = n % 4 := by
  have h := Nat.and_pow_two_sub_one_eq_mod n 2
  simpa using h

theorem g_register_eq (iosize : Nat) (ioread32 : Nat → Nat) (reg : v4l2_dbg_register)
    (log : List io_access) :
    psee_streamer.g_register iosize ioread32 reg log =
      if reg.reg % 4 = 0 ∧ reg.reg < iosize then
        (0, { reg with size := 4, val := ioread32 (to_u32 reg.reg) },
          log ++ [io_access.read (to_u32 reg.reg)])
      else (-EINVAL, reg, log) := by
  unfold psee_streamer.g_register
  rw [land_three]
  by_cases h4 : reg.reg % 4 = 0
  · by_cases hs : reg.reg < iosize
    · rw [if_neg (fun h => h h4), if_neg (Nat.not_le.2 hs), if_pos ⟨h4, hs⟩]
    · rw [if_neg (fun h => h h4), if_pos (Nat.not_lt.1 hs), if_neg (fun h => hs h.2)]
  · rw [if_pos h4, if_neg (fun h => h4 h.1)]

theorem s_register_eq (iosize : Nat) (reg : v4l2_dbg_register) (log : List io_access) :
    psee_streamer.s_register iosize reg log =
      if reg.reg % 4 = 0 ∧ reg.reg < iosize then
        (0, log ++ [io_access.write (to_u32 reg.reg) (to_u32 reg.val)])
      else (-EINVAL, log) := by
  unfold psee_streamer.s_register
  rw [land_three]
  by_cases h4 : reg.reg % 4 = 0
  · by_cases hs : reg.reg < iosize
    · rw [if_neg (fun h => h h4), if_neg (Nat.not_le.2 hs), if_pos ⟨h4, hs⟩]
    · rw [if_neg (fun h => h h4), if_pos (Nat.not_lt.1 hs), if_neg (fun h => hs h.2)]
  · rw [if_pos h4, if_neg (fun h => h4 h.1)]

theorem tkhdlr_g_register_eq (iosize : Nat) (ioread32 : Nat → Nat) (reg : v4l2_dbg_register)
    (log : List io_access) :
    psee_tkhdlr.g_register iosize ioread32 reg log =
      psee_streamer.g_register iosize ioread32 reg log := rfl

theorem tkhdlr_s_register_eq (iosize : Nat) (reg : v4l2_dbg_register) (log : List io_access) :
    psee_tkhdlr.s_register iosize reg log = psee_streamer.s_register iosize reg log := rfl

theorem dma_g_register_eq (iosize : Nat) (ioread32 : Nat → Nat) (reg : v4l2_dbg_register)
    (log : List io_access) :
    psee_dma_g_register iosize ioread32 reg log =
      if reg.match_addr = 0 ∧ reg.reg % 4 = 0 ∧ reg.reg < iosize then
        (0, { reg with val := ioread32 (to_u32 reg.reg), size := 4 },
          log ++ [io_access.read (to_u32 reg.reg)])
      else (-EINVAL, reg, log) := by
  unfold psee_dma_g_register
  rw [land_three]
  by_cases hm : reg.match_addr = 0
  · have hm0 : ¬ reg.match_addr > 0 := by omega
    by_cases h4 : reg.reg % 4 = 0
    · by_cases hs : reg.reg < iosize
      · rw [if_neg hm0, if_neg (fun h => h h4), if_neg (Nat.not_le.2 hs), if_pos ⟨hm, h4, hs⟩]
      · rw [if_neg hm0, if_neg (fun h => h h4), if_pos (Nat.not_lt.1 hs),
          if_neg (fun h => hs h.2.2)]
    · rw [if_neg hm0, if_pos h4, if_neg (fun h => h4 h.2.1)]
  · have hm0 : reg.match_addr > 0 := by omega
    rw [if_pos hm0, if_neg (fun h => hm h.1)]

theorem dma_s_register_eq (iosize : Nat) (reg : v4l2_dbg_register) (log : List io_access) :
    psee_dma_s_register iosize reg log =
      if reg.match_addr = 0 ∧ reg.reg % 4 = 0 ∧ reg.reg < iosize then
        (0, log ++ [io_access.write (to_u32 reg.reg) (to_u32 reg.val)])
      else (-EINVAL, log) := by
  unfold psee_dma_s_register
  rw [land_three]
  by_cases hm : reg.match_addr = 0
  · have hm0 : ¬ reg.match_addr > 0 := by omega
    by_cases h4 : reg.reg % 4 = 0
    · by_cases hs : reg.reg < iosize
      · rw [if_neg hm0, if_neg (fun h => h h4), if_neg (Nat.not_le.2 hs), if_pos ⟨hm, h4, hs⟩]
      · rw [if_neg hm0, if_neg (fun h => h h4), if_pos (Nat.not_lt.1 hs),
          if_neg (fun h => hs h.2.2)]
    · rw [if_neg hm0, if_pos h4, if_neg (fun h => h4 h.2.1)]
  · have hm0 : reg.match_addr > 0 := by omega
    rw [if_pos hm0, if_neg (fun h => hm h.1)]

/-- C24: on a bank of `iosize` bytes, the register read and the register write
of the DMA block, of the streamer and of the tkeep handler return 0 when the
offset is a multiple of 4 below `iosize` (and, for the DMA block, `match.addr`
is 0): the read makes one `ioread32` and reports size 4, the write makes one
`iowrite32`. In every other case they return `-EINVAL`, which is not 0, make no
access and leave `*reg` as it was. -/
theorem psee_register_access_checked (iosize : Nat) (ioread32 : Nat → Nat)
    (reg : v4l2_dbg_register) (log : List io_access) :
    psee_dma_g_register iosize ioread32 reg log =
      (if reg.match_addr = 0 ∧ reg.reg % 4 = 0 ∧ reg.reg < iosize then
        (0, { reg with val := ioread32 (to_u32 reg.reg), size := 4 },
          log ++ [io_access.read (to_u32 reg.reg)])
      else (-EINVAL, reg, log)) ∧
    psee_dma_s_register iosize reg log =
      (if reg.match_addr = 0 ∧ reg.reg % 4 = 0 ∧ reg.reg < iosize then
        (0, log ++ [io_access.write (to_u32 reg.reg) (to_u32 reg.val)])
      else (-EINVAL, log)) ∧
    psee_streamer.g_register iosize ioread32 reg log =
      (if reg.reg % 4 = 0 ∧ reg.reg < iosize then
        (0, { reg with size := 4, val := ioread32 (to_u32 reg.reg) },
          log ++ [io_access.read (to_u32 reg.reg)])
      else (-EINVAL, reg, log)) ∧
    psee_streamer.s_register iosize reg log =
      (if reg.reg % 4 = 0 ∧ reg.reg < iosize then
        (0, log ++ [io_access.write (to_u32 reg.reg) (to_u32 reg.val)])
      else (-EINVAL, log)) ∧
    psee_tkhdlr.g_register iosize ioread32 reg log =
      (if reg.reg % 4 = 0 ∧ reg.reg < iosize then
        (0, { reg with size := 4, val := ioread32 (to_u32 reg.reg) },
          log ++ [io_access.read (to_u32 reg.reg)])
      else (-EINVAL, reg, log)) ∧
    psee_tkhdlr.s_register iosize reg log =
      (if reg.reg % 4 = 0 ∧ reg.reg < iosize then
        (0, log ++ [io_access.write (to_u32 reg.reg) (to_u32 reg.val)])
      else (-EINVAL, log)) ∧
    -EINVAL ≠ 0 := by
  refine ⟨dma_g_register_eq iosize ioread32 reg log, dma_s_register_eq iosize reg log,
    g_register_eq iosize ioread32 reg log, s_register_eq iosize reg log, ?_, ?_, by decide⟩
  · rw [tkhdlr_g_register_eq]
    exact g_register_eq iosize ioread32 reg log
  · rw [tkhdlr_s_register_eq]
    exact s_register_eq iosize reg log

/-- Witness of C24: on a bank of 4096 bytes the DMA block reads offset 8, and
refuses offset 6, offset 4096 and `match.addr == 1`. -/
theorem psee_register_access_checked_witness :
    psee_dma_g_register 4096 (fun a => a + 1) { match_addr := 0, size := 0, reg := 8, val := 0 }
        [] =
      (0, { match_addr := 0, size := 4, reg := 8, val := 9 }, [io_access.read 8]) ∧
    psee_dma_g_register 4096 (fun a => a + 1) { match_addr := 0, size := 0, reg := 6, val := 0 }
        [] =
      (-EINVAL, { match_addr := 0, size := 0, reg := 6, val := 0 }, []) ∧
    psee_dma_g_register 4096 (fun a => a + 1)
        { match_addr := 0, size := 0, reg := 4096, val := 0 } [] =
      (-EINVAL, { match_addr := 0, size := 0, reg := 4096, val := 0 }, []) ∧
    psee_dma_g_register 4096 (fun a => a + 1) { match_addr := 1, size := 0, reg := 8, val := 0 }
        [] =
      (-EINVAL, { match_addr := 1, size := 0, reg := 8, val := 0 }, []) :=
  ⟨(psee_register_access_checked 4096 (fun a => a + 1)
      { match_addr := 0, size := 0, reg := 8, val := 0 } []).1.trans (by decide),
    (psee_register_access_checked 4096 (fun a => a + 1)
      { match_addr := 0, size := 0, reg := 6, val := 0 } []).1.trans (by decide),
    (psee_register_access_checked 4096 (fun a => a + 1)
      { match_addr := 0, size := 0, reg := 4096, val := 0 } []).1.trans (by decide),
    (psee_register_access_checked 4096 (fun a => a + 1)
      { match_addr := 1, size := 0, reg := 8, val := 0 } []).1.trans (by decide)⟩

/-- C29 as stated fails on a bank whose size is not a multiple of 4: with
`iosize == 6` the three blocks accept offset 4, and the four bytes at offset 4
end at byte 8, past the bank. -/
theorem psee_register_access_past_bank :
    psee_dma_s_register 6 { match_addr := 0, size := 0, reg := 4, val := 9 } [] =
      (0, [io_access.write 4 9]) ∧
    psee_streamer.s_register 6 { match_addr := 0, size := 0, reg := 4, val := 9 } [] =
      (0, [io_access.write 4 9]) ∧
    psee_tkhdlr.s_register 6 { match_addr := 0, size := 0, reg := 4, val := 9 } [] =
      (0, [io_access.write 4 9]) ∧
    psee_dma_g_register 6 (fun _ => 0) { match_addr := 0, size := 0, reg := 4, val := 9 } [] =
      (0, { match_addr := 0, size := 4, reg := 4, val := 0 }, [io_access.read 4]) ∧
    ¬ (4 + 4 ≤ 6) := by
  refine ⟨by decide, by decide, by decide, by decide, by decide⟩

/-- C29 (amended): on a bank whose size `iosize` is a multiple of 4, every
offset that a register read or write of the DMA block, of the streamer or of
the tkeep handler accepts has its four bytes inside the bank, `offset + 4 <=
iosize`, and so does the offset handed to `ioread32` or `iowrite32`. -/
theorem psee_register_access_in_bank (iosize : Nat) (ioread32 : Nat → Nat)
    (reg : v4l2_dbg_register) (log : List io_access) (hsize : iosize % 4 = 0) :
    ((psee_dma_g_register iosize ioread32 reg log).1 = 0 →
      reg.reg + 4 ≤ iosize ∧ to_u32 reg.reg + 4 ≤ iosize) ∧
    ((psee_dma_s_register iosize reg log).1 = 0 →
      reg.reg + 4 ≤ iosize ∧ to_u32 reg.reg + 4 ≤ iosize) ∧
    ((psee_streamer.g_register iosize ioread32 reg log).1 = 0 →
      reg.reg + 4 ≤ iosize ∧ to_u32 reg.reg + 4 ≤ iosize) ∧
    ((psee_streamer.s_register iosize reg log).1 = 0 →
      reg.reg + 4 ≤ iosize ∧ to_u32 reg.reg + 4 ≤ iosize) ∧
    ((psee_tkhdlr.g_register iosize ioread32 reg log).1 = 0 →
      reg.reg + 4 ≤ iosize ∧ to_u32 reg.reg + 4 ≤ iosize) ∧
    ((psee_tkhdlr.s_register iosize reg log).1 = 0 →
      reg.reg + 4 ≤ iosize ∧ to_u32 reg.reg + 4 ≤ iosize) := by
  have hbank : reg.reg % 4 = 0 ∧ reg.reg < iosize →
      reg.reg + 4 ≤ iosize ∧ to_u32 reg.reg + 4 ≤ iosize := by
    intro h
    have hle : to_u32 reg.reg ≤ reg.reg := Nat.mod_le _ _
    omega
  have hne : ¬ (-EINVAL : Int) = 0 := by decide
  refine ⟨?_, ?_, ?_, ?_, ?_, ?_⟩
  · rw [dma_g_register_eq]
    split
    · rename_i h
      exact fun _ => hbank h.2
    · exact fun h => absurd h hne
  · rw [dma_s_register_eq]
    split
    · rename_i h
      exact fun _ => hbank h.2
    · exact fun h => absurd h hne
  · rw [g_register_eq]
    split
    · rename_i h
      exact fun _ => hbank h
    · exact fun h => absurd h hne
  · rw [s_register_eq]
    split
    · rename_i h
      exact fun _ => hbank h
    · exact fun h => absurd h hne
  · rw [tkhdlr_g_register_eq, g_register_eq]
    split
    · rename_i h
      exact fun _ => hbank h
    · exact fun h => absurd h hne
  · rw [tkhdlr_s_register_eq, s_register_eq]
    split
    · rename_i h
      exact fun _ => hbank h
    · exact fun h => absurd h hne

/-- Witness of C29 (amended): on a bank of 4096 bytes the streamer accepts the
write at offset 4092, the last word of the bank. -/
theorem psee_register_access_in_bank_witness :
    (psee_streamer.s_register 4096 { match_addr := 0, size := 0, reg := 4092, val := 9 } []).1 =
      0 ∧ 4092 + 4 ≤ 4096 :=
  ⟨by decide,
    ((psee_register_access_in_bank 4096 (fun _ => 0)
      { match_addr := 0, size := 0, reg := 4092, val := 9 } [] (by decide)).2.2.2.1
      (by decide)).1⟩

/-! ## Pad formats of the sub-device blocks -/

/-- C26 (code defect): the streamer is in bypass (`REG_CONTROL` holds
`BIT_BYPASS`) and every format is zero. `set_format` on the sink pad stores the
new format on the sink pad and returns at the test of `BIT_BYPASS`, before the
copy to the source pad: the source format stays zero and differs from the sink
format, for the active formats and for the try formats alike. With the bit
clear the same call copies the format to the source pad. -/
theorem psee_streamer_set_format_bypass_sink :
    psee_streamer.set_format BIT_BYPASS subdev_formats_zero
        { which := V4L2_SUBDEV_FORMAT_ACTIVE, pad := PAD_SINK,
          format := { width := 1280, height := 720, code := 21, field := 1, colorspace := 0 } } =
      Run.ret (0,
        { active :=
            { sink := { width := 1280, height := 720, code := 21, field := 1, colorspace := 0 },
              source := fmt_zero },
          try_fmt := { sink := fmt_zero, source := fmt_zero } },
        { which := V4L2_SUBDEV_FORMAT_ACTIVE, pad := PAD_SINK,
          format := { width := 1280, height := 720, code := 21, field := 1, colorspace := 0 } }) ∧
    psee_streamer.set_format BIT_BYPASS subdev_formats_zero
        { which := V4L2_SUBDEV_FORMAT_TRY, pad := PAD_SINK,
          format := { width := 1280, height := 720, code := 21, field := 1, colorspace := 0 } } =
      Run.ret (0,
        { active := { sink := fmt_zero, source := fmt_zero },
          try_fmt :=
            { sink := { width := 1280, height := 720, code := 21, field := 1, colorspace := 0 },
              source := fmt_zero } },
        { which := V4L2_SUBDEV_FORMAT_TRY, pad := PAD_SINK,
          format := { width := 1280, height := 720, code := 21, field := 1, colorspace := 0 } }) ∧
    psee_streamer.set_format 0 subdev_formats_zero
        { which := V4L2_SUBDEV_FORMAT_ACTIVE, pad := PAD_SINK,
          format := { width := 1280, height := 720, code := 21, field := 1, colorspace := 0 } } =
      Run.ret (0,
        { active :=
            { sink := { width := 1280, height := 720, code := 21, field := 1, colorspace := 0 },
              source := { width := 1280, height := 720, code := 21, field := 1,
                          colorspace := 0 } },
          try_fmt := { sink := fmt_zero, source := fmt_zero } },
        { which := V4L2_SUBDEV_FORMAT_ACTIVE, pad := PAD_SINK,
          format := { width := 1280, height := 720, code := 21, field := 1, colorspace := 0 } }) := by
  refine ⟨by decide, by decide, by decide⟩

theorem write_active_oops (mem : subdev_formats) (pad : Nat) (v : v4l2_mbus_framefmt)
    (h0 : pad ≠ PAD_SINK) (h1 : pad ≠ PAD_SOURCE) :
    mem.write (format_ref.active pad) v = Run.oops := by
  unfold subdev_formats.write pad_formats.write
  simp only [if_neg h0, if_neg h1]
  rfl

theorem swap_land : WORD_ORDER_SWAP &&& WORD_ORDER_SWAP ≠ 0 := by decide

theorem zero_land : (0 : Nat) &&& WORD_ORDER_SWAP = 0 := by decide

/-- With `which == ACTIVE`, a `set_format` call of the tkeep handler that
returns leaves `REG_CONFIG` and the active formats with the property. -/
theorem tkhdlr_active_inv (codes : media_bus_fmt) (config config1 : Nat)
    (mem mem1 : subdev_formats) (fmt fmt1 : v4l2_subdev_format) (ret : Int)
    (hwhich : fmt.which = V4L2_SUBDEV_FORMAT_ACTIVE)
    (h : psee_tkhdlr.set_format codes config mem fmt = Run.ret (ret, config1, mem1, fmt1)) :
    tkhdlr_config_inv codes config1 mem1 := by
  have hne : ∀ f : v4l2_mbus_framefmt,
      ¬ (f.code = codes.PSEE_EVT21ME ∧ f.code = codes.PSEE_EVT21) :=
    fun f hf => codes.differ (hf.1.symm.trans hf.2)
  unfold psee_tkhdlr.set_format at h
  simp only [psee_tkhdlr.__get_pad_format, hwhich, V4L2_SUBDEV_FORMAT_ACTIVE,
    V4L2_SUBDEV_FORMAT_TRY, show ¬ ((1 : Nat) = 0) by decide, if_false, if_true] at h
  by_cases hpad : fmt.pad = PAD_SINK
  · simp only [hpad, if_true, subdev_formats.write, pad_formats.write, PAD_SINK, PAD_SOURCE,
      show ¬ ((1 : Nat) = 0) by decide, if_false, bind_ret] at h
    by_cases hsw : fmt.format.code = codes.PSEE_EVT21ME ∧ config &&& WORD_ORDER_SWAP ≠ 0
    · rw [if_pos hsw] at h
      simp only [Run.ret.injEq, Prod.mk.injEq] at h
      obtain ⟨_, hc, hm, _⟩ := h
      rw [← hc, ← hm]
      exact ⟨⟨fun _ => ⟨hsw.1, rfl⟩, fun _ => hsw.2⟩, fun h0 => absurd h0 hsw.2⟩
    · rw [if_neg hsw] at h
      simp only [Run.ret.injEq, Prod.mk.injEq] at h
      obtain ⟨_, hc, hm, _⟩ := h
      rw [← hc, ← hm]
      exact ⟨⟨fun h0 => absurd zero_land h0, fun h0 => absurd h0 (hne fmt.format)⟩, fun _ => rfl⟩
  · by_cases hp1 : fmt.pad = PAD_SOURCE
    · simp only [hp1, PAD_SOURCE, PAD_SINK, show ¬ ((1 : Nat) = 0) by decide, if_false,
        if_true, subdev_formats.read, pad_formats.read, subdev_formats.write,
        pad_formats.write, bind_ret] at h
      by_cases hsw : mem.active.sink.code = codes.PSEE_EVT21ME ∧
          fmt.format.code = codes.PSEE_EVT21
      · rw [if_pos hsw] at h
        simp only [Run.ret.injEq, Prod.mk.injEq] at h
        obtain ⟨_, hc, hm, _⟩ := h
        rw [← hc, ← hm]
        exact ⟨⟨fun _ => ⟨hsw.1, rfl⟩, fun _ => swap_land⟩, fun h0 => absurd h0 swap_land⟩
      · rw [if_neg hsw] at h
        simp only [Run.ret.injEq, Prod.mk.injEq] at h
        obtain ⟨_, hc, hm, _⟩ := h
        rw [← hc, ← hm]
        exact ⟨⟨fun h0 => absurd zero_land h0, fun h0 => absurd h0 (hne mem.active.sink)⟩,
          fun _ => rfl⟩
    · rw [if_neg hpad] at h
      have hr : mem.read (format_ref.active PAD_SINK) = Run.ret mem.active.sink := rfl
      rw [hr, bind_ret, write_active_oops mem fmt.pad _ hpad hp1] at h
      exact absurd h (by simp [Run.bind])

/-- C28 (code defect): the probed state (`REG_CONFIG` 0, every format zero) has
the property of the claim. From it, `set_format` with `which == TRY` on the sink
pad with code `MEDIA_BUS_FMT_PSEE_EVT21ME`, then with `which == TRY` on the source
pad with code `MEDIA_BUS_FMT_PSEE_EVT21`, writes `WORD_ORDER_SWAP` to `REG_CONFIG`
while the active formats stay zero: the property is lost, the bit being set
with active codes that are not the pair EVT21ME, EVT21. -/
theorem psee_tkhdlr_set_format_try_writes_config (codes : media_bus_fmt) :
    tkhdlr_config_inv codes 0 subdev_formats_zero ∧
    psee_tkhdlr.set_format codes 0 subdev_formats_zero
        { which := V4L2_SUBDEV_FORMAT_TRY, pad := PAD_SINK,
          format := { fmt_zero with code := codes.PSEE_EVT21ME } } =
      Run.ret (0, 0,
        { active := { sink := fmt_zero, source := fmt_zero },
          try_fmt := { sink := { fmt_zero with code := codes.PSEE_EVT21ME },
                       source := { fmt_zero with code := codes.PSEE_EVT21ME } } },
        { which := V4L2_SUBDEV_FORMAT_TRY, pad := PAD_SINK,
          format := { fmt_zero with code := codes.PSEE_EVT21ME } }) ∧
    psee_tkhdlr.set_format codes 0
        { active := { sink := fmt_zero, source := fmt_zero },
          try_fmt := { sink := { fmt_zero with code := codes.PSEE_EVT21ME },
                       source := { fmt_zero with code := codes.PSEE_EVT21ME } } }
        { which := V4L2_SUBDEV_FORMAT_TRY, pad := PAD_SOURCE,
          format := { fmt_zero with code := codes.PSEE_EVT21 } } =
      Run.ret (0, WORD_ORDER_SWAP,
        { active := { sink := fmt_zero, source := fmt_zero },
          try_fmt := { sink := { fmt_zero with code := codes.PSEE_EVT21ME },
                       source := { fmt_zero with code := codes.PSEE_EVT21 } } },
        { which := V4L2_SUBDEV_FORMAT_TRY, pad := PAD_SOURCE,
          format := { fmt_zero with code := codes.PSEE_EVT21 } }) ∧
    ¬ tkhdlr_config_inv codes WORD_ORDER_SWAP
      { active := { sink := fmt_zero, source := fmt_zero },
        try_fmt := { sink := { fmt_zero with code := codes.PSEE_EVT21ME },
                     source := { fmt_zero with code := codes.PSEE_EVT21 } } } := by
  have hne : ¬ (fmt_zero.code = codes.PSEE_EVT21ME ∧ fmt_zero.code = codes.PSEE_EVT21) :=
    fun h => codes.differ (h.1.symm.trans h.2)
  refine ⟨?_, ?_, ?_, ?_⟩
  · exact ⟨⟨fun h0 => absurd zero_land h0, fun h0 => absurd h0 hne⟩, fun _ => rfl⟩
  · simp [psee_tkhdlr.set_format, psee_tkhdlr.__get_pad_format, subdev_formats.write,
      pad_formats.write, Run.bind, V4L2_SUBDEV_FORMAT_TRY, PAD_SINK, PAD_SOURCE, WORD_ORDER_SWAP,
      subdev_formats_zero]
  · simp [psee_tkhdlr.set_format, psee_tkhdlr.__get_pad_format, subdev_formats.write,
      subdev_formats.read, pad_formats.read, pad_formats.write, Run.bind,
      V4L2_SUBDEV_FORMAT_TRY, PAD_SINK, PAD_SOURCE, WORD_ORDER_SWAP, fmt_zero]
  · intro h
    exact hne (h.1.1 swap_land)

/-! ## Start and stop sequences -/

/-- C27 (code defect): on a single-channel pipeline whose only sub-device fails
to start with `-EIO`, `psee_dma_start_streaming` returns 0 with `stream_count`
left at 0 (the chain start failed and its result was dropped). The stop that
follows this start decrements `stream_count` from 0 to `2^32 - 1` and, the
result not being 0, does not walk the chain stop. -/
theorem psee_dma_stop_after_failed_chain_start :
    psee_dma_start_streaming 4 (env_single (-5))
        { entity := 0, sequence := 0, transfer_size := 1048576, queued_bufs := [] }
        psee_pipeline_empty [] =
      Run.ret (0,
        { entity := 0, sequence := 0, transfer_size := 1048576, queued_bufs := [] },
        { use_count := 1, stream_count := 0, num_dmas := 1, output := some 0 },
        [psee_event.media_pipeline_start 0, psee_event.issue_pending 0,
          psee_event.chain_walk true, psee_event.s_stream 1 true]) ∧
    psee_dma_stop_streaming 4 (env_single (-5))
        { entity := 0, sequence := 0, transfer_size := 1048576, queued_bufs := [] }
        { use_count := 1, stream_count := 0, num_dmas := 1, output := some 0 }
        [psee_event.media_pipeline_start 0, psee_event.issue_pending 0,
          psee_event.chain_walk true, psee_event.s_stream 1 true] =
      Run.ret
        ({ entity := 0, sequence := 0, transfer_size := 1048576, queued_bufs := [] },
          { use_count := 0, stream_count := 4294967295, num_dmas := 0, output := none },
          [psee_event.media_pipeline_start 0, psee_event.issue_pending 0,
            psee_event.chain_walk true, psee_event.s_stream 1 true,
            psee_event.terminate_all 0, psee_event.pipeline_cleanup,
            psee_event.media_pipeline_stop 0]) := by
  refine ⟨by decide, by decide⟩

/-- C30 (code defect): node 1 of `fw_dangling 1` has an endpoint on its sink
pad, which is skipped, and then an endpoint whose link fails to parse with
`-ENOLINK`; it is the last one, and `psee_graph_build_one` returns `-ENOLINK`.
Without that endpoint (`fw_dangling 5` leaves node 1 its first endpoint only)
the function returns 0. The same holds for `psee_graph_build_dma` on the
endpoints of the device root, where the link of the first endpoint is made in
both runs. -/
theorem psee_graph_build_one_last_unparsable :
    (fw_dangling 1).endpoints 1 = [fw_ep 1 0 0 0, fw_ep_dangling 1 1] ∧
    (fw_dangling 5).endpoints 1 = [fw_ep 1 0 0 0] ∧
    psee_graph_build_one (fw_dangling 1) pdev_pair
        { fwnode := 1, entity := some { id := 11, pads := [1, 2] }, subdev := some 101 } [] =
      Run.ret (-ENOLINK, []) ∧
    psee_graph_build_one (fw_dangling 5) pdev_pair
        { fwnode := 1, entity := some { id := 11, pads := [1, 2] }, subdev := some 101 } [] =
      Run.ret (0, []) ∧
    (fw_dangling 0).endpoints 0 = [fw_ep 0 0 1 0, fw_ep_dangling 0 1] ∧
    (fw_dangling 5).endpoints 0 = [fw_ep 0 0 1 0] ∧
    psee_graph_build_dma (fw_dangling 0) pdev_pair [] =
      Run.ret (-ENOLINK,
        [{ source := 11, source_pad := 0, sink := 20, sink_pad := 0, flags := 1 }]) ∧
    psee_graph_build_dma (fw_dangling 5) pdev_pair [] =
      Run.ret (0, [{ source := 11, source_pad := 0, sink := 20, sink_pad := 0, flags := 1 }]) := by
  refine ⟨by decide, by decide, by decide, by decide, by decide, by decide, by decide, ?_⟩
  decide

/-! ## Links of the completed graph -/

/-- One pass of the loop body of `psee_graph_build_one` that returns leaves the
links as they are, or adds the link of a parsed endpoint on a pad in range that
is not a sink, to a pad in range of the entity bound to the remote node, which
is not the device root. -/
theorem build_one_step_cases (env : fwnode_graph) (pdev : psee_composite_device)
    (entity : psee_graph_entity) (links links1 : List media_link) (ep : fwnode_endpoint)
    (go : Bool) (r : Int)
    (h : psee_graph_build_one_step env pdev entity links ep = Run.ret (go, r, links1)) :
    links1 = links ∨ ∃ loc ent remote, entity.entity = some loc ∧
      ep.link.local_port < loc.pads.length ∧
      loc.pads.getD ep.link.local_port 0 &&& MEDIA_PAD_FL_SINK = 0 ∧
      ep.link.remote_node ≠ pdev.of_node ∧
      psee_graph_find_entity pdev ep.link.remote_node = some ent ∧ ent.entity = some remote ∧
      ep.link.remote_port < remote.pads.length ∧ links1 = links ++ [node_link loc remote ep] := by
  unfold psee_graph_build_one_step at h
  split at h
  · simp only [Run.ret.injEq, Prod.mk.injEq] at h
    exact Or.inl h.2.2.symm
  · split at h
    · exact absurd h (by simp)
    · rename_i loc hloc
      split at h
      · simp only [Run.ret.injEq, Prod.mk.injEq] at h
        exact Or.inl h.2.2.symm
      · rename_i hlp
        split at h
        · simp only [Run.ret.injEq, Prod.mk.injEq] at h
          exact Or.inl h.2.2.symm
        · rename_i hsink
          split at h
          · simp only [Run.ret.injEq, Prod.mk.injEq] at h
            exact Or.inl h.2.2.symm
          · rename_i hroot
            split at h
            · simp only [Run.ret.injEq, Prod.mk.injEq] at h
              exact Or.inl h.2.2.symm
            · rename_i ent hfind
              split at h
              · exact absurd h (by simp)
              · rename_i remote hrem
                split at h
                · simp only [Run.ret.injEq, Prod.mk.injEq] at h
                  exact Or.inl h.2.2.symm
                · rename_i hrp
                  dsimp only at h
                  split at h
                  · simp only [Run.ret.injEq, Prod.mk.injEq] at h
                    exact Or.inl h.2.2.symm
                  · simp only [Run.ret.injEq, Prod.mk.injEq] at h
                    exact Or.inr ⟨loc, ent, remote, hloc, Nat.not_le.1 hlp,
                      Decidable.not_not.1 hsink, hroot, hfind, hrem, Nat.not_le.1 hrp,
                      h.2.2.symm⟩

/-- One pass of the loop body of `psee_graph_build_dma` that returns leaves the
links as they are, or adds the link between the channel of the local port and
a pad in range of the entity bound to the remote node: out of the channel when
its pad has `MEDIA_PAD_FL_SOURCE`, into the channel otherwise. -/
theorem build_dma_step_cases (env : fwnode_graph) (pdev : psee_composite_device)
    (links links1 : List media_link) (ep : fwnode_endpoint) (go : Bool) (r : Int)
    (h : psee_graph_build_dma_step env pdev links ep = Run.ret (go, r, links1)) :
    links1 = links ∨ ∃ dma ent remote,
      psee_graph_find_dma pdev ep.link.local_port = some dma ∧
      psee_graph_find_entity pdev ep.link.remote_node = some ent ∧ ent.entity = some remote ∧
      ep.link.remote_port < remote.pads.length ∧
      ((dma.pad_flags &&& MEDIA_PAD_FL_SOURCE ≠ 0 ∧
          links1 = links ++ [dma_link_out dma remote ep]) ∨
        (dma.pad_flags &&& MEDIA_PAD_FL_SOURCE = 0 ∧
          links1 = links ++ [dma_link_in dma remote ep])) := by
  unfold psee_graph_build_dma_step at h
  split at h
  · simp only [Run.ret.injEq, Prod.mk.injEq] at h
    exact Or.inl h.2.2.symm
  · split at h
    · simp only [Run.ret.injEq, Prod.mk.injEq] at h
      exact Or.inl h.2.2.symm
    · rename_i dma hdma
      split at h
      · simp only [Run.ret.injEq, Prod.mk.injEq] at h
        exact Or.inl h.2.2.symm
      · rename_i ent hfind
        split at h
        · exact absurd h (by simp)
        · rename_i remote hrem
          split at h
          · simp only [Run.ret.injEq, Prod.mk.injEq] at h
            exact Or.inl h.2.2.symm
          · rename_i hrp
            dsimp only at h
            split at h
            · rename_i hsrc
              split at h
              · simp only [Run.ret.injEq, Prod.mk.injEq] at h
                exact Or.inl h.2.2.symm
              · simp only [Run.ret.injEq, Prod.mk.injEq] at h
                exact Or.inr ⟨dma, ent, remote, hdma, hfind, hrem, Nat.not_le.1 hrp,
                  Or.inl ⟨hsrc, h.2.2.symm⟩⟩
            · rename_i hsrc
              split at h
              · simp only [Run.ret.injEq, Prod.mk.injEq] at h
                exact Or.inl h.2.2.symm
              · simp only [Run.ret.injEq, Prod.mk.injEq] at h
                exact Or.inr ⟨dma, ent, remote, hdma, hfind, hrem, Nat.not_le.1 hrp,
                  Or.inr ⟨Decidable.not_not.1 hsrc, h.2.2.symm⟩⟩

theorem find_dma_some (pdev : psee_composite_device) (port : Nat) (dma : psee_dma)
    (h : psee_graph_find_dma pdev port = some dma) : dma.port = port ∧ dma ∈ pdev.dmas := by
  unfold psee_graph_find_dma at h
  refine ⟨?_, List.mem_of_find?_eq_some h⟩
  have h1 := List.find?_some h
  simpa using h1

/-- When every pass of both loop bodies adds at most one link, and a good one,
every link that `psee_graph_notify_complete` adds is good. -/
theorem notify_complete_links (env : fwnode_graph) (pdev : psee_composite_device)
    (good : media_link → Prop)
    (hone : ∀ e ∈ pdev.asd_list, ∀ links ep go r links1, ep ∈ env.endpoints e.fwnode →
      psee_graph_build_one_step env pdev e links ep = Run.ret (go, r, links1) →
      links1 = links ∨ ∃ l, links1 = links ++ [l] ∧ good l)
    (hdma : ∀ links ep go r links1, ep ∈ env.endpoints pdev.of_node →
      psee_graph_build_dma_step env pdev links ep = Run.ret (go, r, links1) →
      links1 = links ∨ ∃ l, links1 = links ++ [l] ∧ good l)
    (ret : Int) (pdev1 : psee_composite_device)
    (h : psee_graph_notify_complete env pdev = Run.ret (ret, pdev1)) :
    ∃ added, pdev1.links = pdev.links ++ added ∧ ∀ l ∈ added, good l := by
  have hnodes : ∀ (es : List psee_graph_entity) (links : List media_link) (res : Option Int)
      (links1 : List media_link), (∀ e ∈ es, e ∈ pdev.asd_list) →
      psee_graph_notify_complete_loop env pdev links es = Run.ret (res, links1) →
      ∃ added, links1 = links ++ added ∧ ∀ l ∈ added, good l := by
    intro es
    induction es with
    | nil =>
      intro links res links1 _ hl
      rw [psee_graph_notify_complete_loop] at hl
      simp only [Run.ret.injEq, Prod.mk.injEq] at hl
      exact ⟨[], by rw [← hl.2, List.append_nil], fun l hl => absurd hl (List.not_mem_nil l)⟩
    | cons e rest ih =>
      intro links res links1 hsub hl
      rw [psee_graph_notify_complete_loop] at hl
      obtain ⟨r1, hr1, hnext⟩ := bind_eq_ret _ _ _ hl
      obtain ⟨ret1, l1⟩ := r1
      unfold psee_graph_build_one at hr1
      obtain ⟨r2, hr2, hnext2⟩ := bind_eq_ret _ _ _ hr1
      obtain ⟨go2, ret2, l2⟩ := r2
      simp only [Run.ret.injEq, Prod.mk.injEq] at hnext2
      have hfirst := endpoint_loop_links (psee_graph_build_one_step env pdev e) good
        (env.endpoints e.fwnode)
        (fun links ep go r links1 hep hb =>
          hone e (hsub e (List.mem_cons_self e rest)) links ep go r links1 hep hb)
        (env.endpoints e.fwnode) 0 links go2 ret2 l2 (fun _ hep => hep) hr2
      rw [hnext2.2] at hfirst
      obtain ⟨a1, ha1, hg1⟩ := hfirst
      dsimp only at hnext
      have hrest : ∃ added, links1 = l1 ++ added ∧ ∀ l ∈ added, good l := by
        by_cases hneg : ret1 < 0
        · rw [if_pos hneg] at hnext
          simp only [Run.ret.injEq, Prod.mk.injEq] at hnext
          exact ⟨[], by rw [← hnext.2, List.append_nil],
            fun l hl => absurd hl (List.not_mem_nil l)⟩
        · rw [if_neg hneg] at hnext
          exact ih l1 res links1 (fun x hx => hsub x (List.mem_cons_of_mem e hx)) hnext
      obtain ⟨a2, ha2, hg2⟩ := hrest
      refine ⟨a1 ++ a2, by rw [ha2, ha1, List.append_assoc], ?_⟩
      intro l hl
      rcases List.mem_append.1 hl with hl | hl
      · exact hg1 l hl
      · exact hg2 l hl
  unfold psee_graph_notify_complete at h
  obtain ⟨r1, hr1, hnext⟩ := bind_eq_ret _ _ _ h
  obtain ⟨res, l1⟩ := r1
  obtain ⟨a1, ha1, hg1⟩ := hnodes pdev.asd_list pdev.links res l1 (fun _ he => he) hr1
  cases res with
  | some r =>
    simp only [Run.ret.injEq, Prod.mk.injEq] at hnext
    rw [← hnext.2]
    exact ⟨a1, ha1, hg1⟩
  | none =>
    dsimp only at hnext
    obtain ⟨r2, hr2, hnext2⟩ := bind_eq_ret _ _ _ hnext
    obtain ⟨ret2, l2⟩ := r2
    unfold psee_graph_build_dma at hr2
    obtain ⟨r3, hr3, hnext3⟩ := bind_eq_ret _ _ _ hr2
    obtain ⟨go3, ret3, l3⟩ := r3
    simp only [Run.ret.injEq, Prod.mk.injEq] at hnext3
    have hsecond := endpoint_loop_links (psee_graph_build_dma_step env pdev) good
      (env.endpoints pdev.of_node) hdma (env.endpoints pdev.of_node) 0 l1 go3 ret3 l3
      (fun _ hep => hep) hr3
    rw [hnext3.2] at hsecond
    obtain ⟨a2, ha2, hg2⟩ := hsecond
    have hlinks : pdev1.links = l2 := by
      dsimp only at hnext2
      by_cases hneg : ret2 < 0
      · rw [if_pos hneg] at hnext2
        simp only [Run.ret.injEq, Prod.mk.injEq] at hnext2
        rw [← hnext2.2]
      · rw [if_neg hneg] at hnext2
        simp only [Run.ret.injEq, Prod.mk.injEq] at hnext2
        rw [← hnext2.2]
    refine ⟨a1 ++ a2, by rw [hlinks, ha2, ha1, List.append_assoc], ?_⟩
    intro l hl
    rcases List.mem_append.1 hl with hl | hl
    · exact hg1 l hl
    · exact hg2 l hl

theorem build_one_step_valid (env : fwnode_graph) (pdev : psee_composite_device)
    (e : psee_graph_entity) (he : e ∈ pdev.asd_list) (links links1 : List media_link)
    (ep : fwnode_endpoint) (go : Bool) (r : Int)
    (h : psee_graph_build_one_step env pdev e links ep = Run.ret (go, r, links1)) :
    links1 = links ∨ ∃ l, links1 = links ++ [l] ∧ link_pads_valid pdev l ∧
      origin_not_sink pdev l := by
  rcases build_one_step_cases env pdev e links links1 ep go r h with h1 | h1
  · exact Or.inl h1
  · obtain ⟨loc, ent, remote, hloc, hlp, hsink, _, hfind, hrem, hrp, hl⟩ := h1
    refine Or.inr ⟨_, hl, ⟨?_, ?_⟩, ?_⟩
    · exact Or.inl ⟨e, loc, he, hloc, rfl, hlp⟩
    · exact Or.inl ⟨ent, remote, (find_entity_some pdev _ ent hfind).2, hrem, rfl, hrp⟩
    · exact Or.inl ⟨e, loc, he, hloc, rfl, hlp, hsink⟩

theorem build_dma_step_valid (env : fwnode_graph) (pdev : psee_composite_device)
    (links links1 : List media_link) (ep : fwnode_endpoint) (go : Bool) (r : Int)
    (h : psee_graph_build_dma_step env pdev links ep = Run.ret (go, r, links1)) :
    links1 = links ∨ ∃ l, links1 = links ++ [l] ∧ link_pads_valid pdev l := by
  rcases build_dma_step_cases env pdev links links1 ep go r h with h1 | h1
  · exact Or.inl h1
  · obtain ⟨dma, ent, remote, hdma, hfind, hrem, hrp, hl⟩ := h1
    have hd := (find_dma_some pdev _ dma hdma).2
    have hent := (find_entity_some pdev _ ent hfind).2
    rcases hl with ⟨_, hl⟩ | ⟨_, hl⟩
    · refine Or.inr ⟨_, hl, ?_, ?_⟩
      · exact Or.inr ⟨dma, hd, rfl, Nat.lt_succ_self 0⟩
      · exact Or.inl ⟨ent, remote, hent, hrem, rfl, hrp⟩
    · refine Or.inr ⟨_, hl, ?_, ?_⟩
      · exact Or.inl ⟨ent, remote, hent, hrem, rfl, hrp⟩
      · exact Or.inr ⟨dma, hd, rfl, Nat.lt_succ_self 0⟩

theorem build_dma_step_created (env : fwnode_graph) (pdev : psee_composite_device)
    (links links1 : List media_link) (ep : fwnode_endpoint) (go : Bool) (r : Int)
    (h : psee_graph_build_dma_step env pdev links ep = Run.ret (go, r, links1)) :
    links1 = links ∨ ∃ l, links1 = links ++ [l] ∧ ¬ env.create_pad_link links l < 0 := by
  unfold psee_graph_build_dma_step at h
  split at h
  · simp only [Run.ret.injEq, Prod.mk.injEq] at h
    exact Or.inl h.2.2.symm
  · split at h
    · simp only [Run.ret.injEq, Prod.mk.injEq] at h
      exact Or.inl h.2.2.symm
    · split at h
      · simp only [Run.ret.injEq, Prod.mk.injEq] at h
        exact Or.inl h.2.2.symm
      · split at h
        · exact absurd h (by simp)
        · split at h
          · simp only [Run.ret.injEq, Prod.mk.injEq] at h
            exact Or.inl h.2.2.symm
          · dsimp only at h
            split at h
            · split at h
              · simp only [Run.ret.injEq, Prod.mk.injEq] at h
                exact Or.inl h.2.2.symm
              · rename_i hc
                simp only [Run.ret.injEq, Prod.mk.injEq] at h
                exact Or.inr ⟨_, h.2.2.symm, hc⟩
            · split at h
              · simp only [Run.ret.injEq, Prod.mk.injEq] at h
                exact Or.inl h.2.2.symm
              · rename_i hc
                simp only [Run.ret.injEq, Prod.mk.injEq] at h
                exact Or.inr ⟨_, h.2.2.symm, hc⟩

theorem build_dma_step_origin (env : fwnode_graph) (pdev : psee_composite_device)
    (hinit : dmas_initialised pdev) (htyped : pads_typed pdev)
    (hcheck : create_pad_link_checks_source env pdev)
    (links links1 : List media_link) (ep : fwnode_endpoint) (go : Bool) (r : Int)
    (h : psee_graph_build_dma_step env pdev links ep = Run.ret (go, r, links1)) :
    links1 = links ∨ ∃ l, links1 = links ++ [l] ∧ origin_not_sink pdev l := by
  rcases build_dma_step_cases env pdev links links1 ep go r h with h1 | h1
  · exact Or.inl h1
  · obtain ⟨dma, ent, remote, hdma, hfind, hrem, hrp, hl⟩ := h1
    have hd := (find_dma_some pdev _ dma hdma).2
    have hent := (find_entity_some pdev _ ent hfind).2
    rcases hl with ⟨hsrc, hl⟩ | ⟨hsrc, hl⟩
    · refine Or.inr ⟨_, hl, Or.inr ⟨dma, hd, rfl, rfl, ?_⟩⟩
      rcases hinit dma hd with hf | hf
      · rw [hf] at hsrc
        exact absurd (show MEDIA_PAD_FL_SINK &&& MEDIA_PAD_FL_SOURCE = 0 by decide) hsrc
      · rw [hf]
        decide
    · refine Or.inr ⟨_, hl, Or.inl ⟨ent, remote, hent, hrem, rfl, hrp, ?_⟩⟩
      rcases build_dma_step_created env pdev links links1 ep go r h with h2 | ⟨l, h2, hc⟩
      · rw [h2] at hl
        exact absurd (congrArg List.length hl) (by simp)
      · rw [hl] at h2
        have hl2 : dma_link_in dma remote ep = l := by
          simpa using List.append_cancel_left h2
        rw [← hl2] at hc
        apply htyped ent hent remote hrem _ hrp
        intro hflag
        exact hc (hcheck links (dma_link_in dma remote ep) ent remote hent hrem rfl hflag)

theorem endpoint_loop_snoc
    (body : List media_link → fwnode_endpoint → Run (Bool × Int × List media_link))
    (pre : List fwnode_endpoint) (ep : fwnode_endpoint) (r0 r : Int)
    (links0 links links1 : List media_link)
    (hpre : endpoint_loop body 0 links0 pre = Run.ret (true, r0, links))
    (hstep : body links ep = Run.ret (true, r, links1)) :
    endpoint_loop body 0 links0 (pre ++ [ep]) = Run.ret (true, r, links1) := by
  rw [endpoint_loop_append body [ep] pre 0 links0 r0 links hpre, endpoint_loop, hstep, bind_ret]
  dsimp only
  rw [if_pos rfl, endpoint_loop]

/-- C21: take the channel that `psee_dma_init` leaves for a port, and a parsed
endpoint of that port whose remote node is bound to an entity with the remote
pad in range, `media_create_pad_link` succeeding. A capture channel has the pad
flag `MEDIA_PAD_FL_SINK` and the pass of `psee_graph_build_dma` for the endpoint
adds the link from the remote pad to pad 0 of the channel; any other channel
has the pad flag `MEDIA_PAD_FL_SOURCE` and the link added goes from pad 0 of the
channel to the remote pad. The loop reaches the endpoint after any endpoints
that did not break it and goes on with that link added. -/
theorem psee_graph_build_dma_orientation (env : fwnode_graph) (pdev : psee_composite_device)
    (links : List media_link) (ep : fwnode_endpoint) (kernel_ret : Int)
    (entity type port : Nat) (ent : psee_graph_entity) (remote : media_entity)
    (hdma : psee_graph_find_dma pdev ep.link.local_port =
      some (psee_dma_init kernel_ret entity type port).2)
    (hparse : ¬ ep.parse_ret < 0)
    (hfind : psee_graph_find_entity pdev ep.link.remote_node = some ent)
    (hrem : ent.entity = some remote) (hrp : ep.link.remote_port < remote.pads.length)
    (hcreate : ∀ l, ¬ env.create_pad_link links l < 0) :
    (type = V4L2_BUF_TYPE_VIDEO_CAPTURE →
      (psee_dma_init kernel_ret entity type port).2.pad_flags = MEDIA_PAD_FL_SINK ∧
      psee_graph_build_dma_step env pdev links ep =
        Run.ret (true,
          env.create_pad_link links
            { source := remote.id, source_pad := ep.link.remote_port, sink := entity,
              sink_pad := 0, flags := MEDIA_LNK_FL_ENABLED },
          links ++ [{ source := remote.id, source_pad := ep.link.remote_port, sink := entity,
                      sink_pad := 0, flags := MEDIA_LNK_FL_ENABLED }]) ∧
      ∀ pre links0 r0,
        endpoint_loop (psee_graph_build_dma_step env pdev) 0 links0 pre =
          Run.ret (true, r0, links) →
        endpoint_loop (psee_graph_build_dma_step env pdev) 0 links0 (pre ++ [ep]) =
          Run.ret (true,
            env.create_pad_link links
              { source := remote.id, source_pad := ep.link.remote_port, sink := entity,
                sink_pad := 0, flags := MEDIA_LNK_FL_ENABLED },
            links ++ [{ source := remote.id, source_pad := ep.link.remote_port, sink := entity,
                        sink_pad := 0, flags := MEDIA_LNK_FL_ENABLED }])) ∧
    (type ≠ V4L2_BUF_TYPE_VIDEO_CAPTURE →
      (psee_dma_init kernel_ret entity type port).2.pad_flags = MEDIA_PAD_FL_SOURCE ∧
      psee_graph_build_dma_step env pdev links ep =
        Run.ret (true,
          env.create_pad_link links
            { source := entity, source_pad := 0, sink := remote.id,
              sink_pad := ep.link.remote_port, flags := MEDIA_LNK_FL_ENABLED },
          links ++ [{ source := entity, source_pad := 0, sink := remote.id,
                      sink_pad := ep.link.remote_port, flags := MEDIA_LNK_FL_ENABLED }]) ∧
      ∀ pre links0 r0,
        endpoint_loop (psee_graph_build_dma_step env pdev) 0 links0 pre =
          Run.ret (true, r0, links) →
        endpoint_loop (psee_graph_build_dma_step env pdev) 0 links0 (pre ++ [ep]) =
          Run.ret (true,
            env.create_pad_link links
              { source := entity, source_pad := 0, sink := remote.id,
                sink_pad := ep.link.remote_port, flags := MEDIA_LNK_FL_ENABLED },
            links ++ [{ source := entity, source_pad := 0, sink := remote.id,
                        sink_pad := ep.link.remote_port, flags := MEDIA_LNK_FL_ENABLED }])) := by
  have hstep : ∀ flags : Nat, (psee_dma_init kernel_ret entity type port).2.pad_flags = flags →
      psee_graph_build_dma_step env pdev links ep =
        Run.ret (true,
          env.create_pad_link links
            (if flags &&& MEDIA_PAD_FL_SOURCE ≠ 0 then
              { source := entity, source_pad := 0, sink := remote.id,
                sink_pad := ep.link.remote_port, flags := MEDIA_LNK_FL_ENABLED }
            else
              { source := remote.id, source_pad := ep.link.remote_port, sink := entity,
                sink_pad := 0, flags := MEDIA_LNK_FL_ENABLED }),
          links ++ [if flags &&& MEDIA_PAD_FL_SOURCE ≠ 0 then
            { source := entity, source_pad := 0, sink := remote.id,
              sink_pad := ep.link.remote_port, flags := MEDIA_LNK_FL_ENABLED }
          else
            { source := remote.id, source_pad := ep.link.remote_port, sink := entity,
              sink_pad := 0, flags := MEDIA_LNK_FL_ENABLED }]) := by
    intro flags hflags
    unfold psee_graph_build_dma_step
    rw [if_neg hparse, hdma]
    dsimp only
    rw [hfind]
    dsimp only
    rw [hrem]
    dsimp only
    rw [if_neg (Nat.not_le.2 hrp), if_neg (hcreate _), hflags]
    rfl
  refine ⟨?_, ?_⟩
  · intro ht
    have hflags : (psee_dma_init kernel_ret entity type port).2.pad_flags = MEDIA_PAD_FL_SINK := by
      unfold psee_dma_init
      dsimp only
      rw [if_pos ht]
    have h1 := hstep _ hflags
    rw [if_neg (show ¬ (MEDIA_PAD_FL_SINK &&& MEDIA_PAD_FL_SOURCE ≠ 0) by decide)] at h1
    exact ⟨hflags, h1, fun pre links0 r0 hpre =>
      endpoint_loop_snoc _ pre ep r0 _ links0 links _ hpre h1⟩
  · intro ht
    have hflags : (psee_dma_init kernel_ret entity type port).2.pad_flags =
        MEDIA_PAD_FL_SOURCE := by
      unfold psee_dma_init
      dsimp only
      rw [if_neg ht]
    have h1 := hstep _ hflags
    rw [if_pos (show MEDIA_PAD_FL_SOURCE &&& MEDIA_PAD_FL_SOURCE ≠ 0 by decide)] at h1
    exact ⟨hflags, h1, fun pre links0 r0 hpre =>
      endpoint_loop_snoc _ pre ep r0 _ links0 links _ hpre h1⟩

/-- Witness of C21: on `fw_pair`, after the endpoint of the capture port 0, the
endpoint of port 1, whose channel is the output channel of entity 21, adds the
link from pad 0 of entity 21 to pad 0 of entity 12. -/
theorem psee_graph_build_dma_orientation_witness :
    endpoint_loop (psee_graph_build_dma_step fw_pair pdev_pair) 0 []
        ([fw_ep 0 0 1 1] ++ [fw_ep 0 1 2 0]) =
      Run.ret (true, 0,
        [{ source := 11, source_pad := 1, sink := 20, sink_pad := 0, flags := 1 }] ++
          [{ source := 21, source_pad := 0, sink := 12, sink_pad := 0,
             flags := MEDIA_LNK_FL_ENABLED }]) :=
  ((psee_graph_build_dma_orientation fw_pair pdev_pair
    [{ source := 11, source_pad := 1, sink := 20, sink_pad := 0, flags := 1 }]
    (fw_ep 0 1 2 0) 0 21 V4L2_BUF_TYPE_VIDEO_OUTPUT 1
    { fwnode := 2, entity := some { id := 12, pads := [1, 2] }, subdev := some 102 }
    { id := 12, pads := [1, 2] } (by decide) (by decide) (by decide) rfl (by decide)
    (fun _ => show ¬ ((0 : Int) < 0) by decide)).2 (by decide)).2.2 [fw_ep 0 0 1 1] [] 0
    (by decide)

theorem build_one_good (env : fwnode_graph) (pdev : psee_composite_device)
    (good : media_link → Prop) (e : psee_graph_entity)
    (hone : ∀ links ep go r links1, ep ∈ env.endpoints e.fwnode →
      psee_graph_build_one_step env pdev e links ep = Run.ret (go, r, links1) →
      links1 = links ∨ ∃ l, links1 = links ++ [l] ∧ good l)
    (links links1 : List media_link) (ret : Int)
    (h : psee_graph_build_one env pdev e links = Run.ret (ret, links1)) :
    ∃ added, links1 = links ++ added ∧ ∀ l ∈ added, good l := by
  unfold psee_graph_build_one at h
  obtain ⟨res, hres, hnext⟩ := bind_eq_ret _ _ _ h
  obtain ⟨go, r, l1⟩ := res
  simp only [Run.ret.injEq, Prod.mk.injEq] at hnext
  rw [← hnext.2]
  exact endpoint_loop_links (psee_graph_build_one_step env pdev e) good
    (env.endpoints e.fwnode) hone (env.endpoints e.fwnode) 0 links go r l1 (fun _ hep => hep) hres

theorem build_dma_good (env : fwnode_graph) (pdev : psee_composite_device)
    (good : media_link → Prop)
    (hdma : ∀ links ep go r links1, ep ∈ env.endpoints pdev.of_node →
      psee_graph_build_dma_step env pdev links ep = Run.ret (go, r, links1) →
      links1 = links ∨ ∃ l, links1 = links ++ [l] ∧ good l)
    (links links1 : List media_link) (ret : Int)
    (h : psee_graph_build_dma env pdev links = Run.ret (ret, links1)) :
    ∃ added, links1 = links ++ added ∧ ∀ l ∈ added, good l := by
  unfold psee_graph_build_dma at h
  obtain ⟨res, hres, hnext⟩ := bind_eq_ret _ _ _ h
  obtain ⟨go, r, l1⟩ := res
  simp only [Run.ret.injEq, Prod.mk.injEq] at hnext
  rw [← hnext.2]
  exact endpoint_loop_links (psee_graph_build_dma_step env pdev) good
    (env.endpoints pdev.of_node) hdma (env.endpoints pdev.of_node) 0 links go r l1
    (fun _ hep => hep) hres

theorem weaken_step {links links1 : List media_link} {p q : media_link → Prop}
    (hpq : ∀ l, p l → q l)
    (h : links1 = links ∨ ∃ l, links1 = links ++ [l] ∧ p l) :
    links1 = links ∨ ∃ l, links1 = links ++ [l] ∧ q l := by
  rcases h with h | ⟨l, hl, hp⟩
  · exact Or.inl h
  · exact Or.inr ⟨l, hl, hpq l hp⟩

/-- C22: every link added by `psee_graph_build_one` for a pending node of the
device, by `psee_graph_build_dma`, and so by `psee_graph_notify_complete`, has as
source and as sink an entity of the device, the entity bound to a pending node
or the video entity of a DMA channel, and the pad index at each end is below
the pad count of that entity. -/
theorem psee_graph_links_pads_valid (env : fwnode_graph) (pdev : psee_composite_device) :
    (∀ e links ret links1, e ∈ pdev.asd_list →
      psee_graph_build_one env pdev e links = Run.ret (ret, links1) →
      ∃ added, links1 = links ++ added ∧ ∀ l ∈ added, link_pads_valid pdev l) ∧
    (∀ links ret links1, psee_graph_build_dma env pdev links = Run.ret (ret, links1) →
      ∃ added, links1 = links ++ added ∧ ∀ l ∈ added, link_pads_valid pdev l) ∧
    (∀ ret pdev1, psee_graph_notify_complete env pdev = Run.ret (ret, pdev1) →
      ∃ added, pdev1.links = pdev.links ++ added ∧ ∀ l ∈ added, link_pads_valid pdev l) := by
  have hone : ∀ e ∈ pdev.asd_list, ∀ links ep go r links1, ep ∈ env.endpoints e.fwnode →
      psee_graph_build_one_step env pdev e links ep = Run.ret (go, r, links1) →
      links1 = links ∨ ∃ l, links1 = links ++ [l] ∧ link_pads_valid pdev l :=
    fun e he links ep go r links1 _ h =>
      weaken_step (fun _ hl => hl.1) (build_one_step_valid env pdev e he links links1 ep go r h)
  have hdma : ∀ links ep go r links1, ep ∈ env.endpoints pdev.of_node →
      psee_graph_build_dma_step env pdev links ep = Run.ret (go, r, links1) →
      links1 = links ∨ ∃ l, links1 = links ++ [l] ∧ link_pads_valid pdev l :=
    fun links ep go r links1 _ h => build_dma_step_valid env pdev links links1 ep go r h
  refine ⟨?_, ?_, ?_⟩
  · intro e links ret links1 he h
    exact build_one_good env pdev _ e (hone e he) links links1 ret h
  · intro links ret links1 h
    exact build_dma_good env pdev _ hdma links links1 ret h
  · intro ret pdev1 h
    exact notify_complete_links env pdev _ hone hdma ret pdev1 h

/-- Witness of C22: the three links of the completed graph `fw_pair` join pads
that exist. -/
theorem psee_graph_links_pads_valid_witness :
    ∃ added,
      [({ source := 12, source_pad := 1, sink := 11, sink_pad := 0, flags := 1 } : media_link),
        { source := 11, source_pad := 1, sink := 20, sink_pad := 0, flags := 1 },
        { source := 21, source_pad := 0, sink := 12, sink_pad := 0, flags := 1 }] =
        [] ++ added ∧ ∀ l ∈ added, link_pads_valid pdev_pair l :=
  (psee_graph_links_pads_valid fw_pair pdev_pair).2.2 0
    { pdev_pair with
      links := [{ source := 12, source_pad := 1, sink := 11, sink_pad := 0, flags := 1 },
                { source := 11, source_pad := 1, sink := 20, sink_pad := 0, flags := 1 },
                { source := 21, source_pad := 0, sink := 12, sink_pad := 0, flags := 1 }],
      subdev_nodes := true, registered := true } (by decide)

/-- C23: every link added by `psee_graph_build_one` for a pending node starts
at a pad of that walk that is not a sink, and an endpoint on a sink pad is
skipped without error. When the DMA channels have the pad flags of
`psee_dma_init`, no pad of a bound entity is both source and sink, and the
kernel's `media_create_pad_link` refuses a source end without
`MEDIA_PAD_FL_SOURCE`, every link added by `psee_graph_build_dma`, and so by
`psee_graph_notify_complete`, starts at a pad that is not a sink: the pad of an
output channel, or the remote pad of a capture port, which the walk hands to
`media_create_pad_link` as the source without a look at its flags. -/
theorem psee_graph_links_origin (env : fwnode_graph) (pdev : psee_composite_device) :
    (∀ e links ret links1, e ∈ pdev.asd_list →
      psee_graph_build_one env pdev e links = Run.ret (ret, links1) →
      ∃ added, links1 = links ++ added ∧ ∀ l ∈ added, origin_not_sink pdev l) ∧
    (∀ (e : psee_graph_entity) (loc : media_entity) (links : List media_link)
      (ep : fwnode_endpoint), ¬ ep.parse_ret < 0 → e.entity = some loc →
      ep.link.local_port < loc.pads.length →
      loc.pads.getD ep.link.local_port 0 &&& MEDIA_PAD_FL_SINK ≠ 0 →
      psee_graph_build_one_step env pdev e links ep = Run.ret (true, ep.parse_ret, links)) ∧
    (dmas_initialised pdev → pads_typed pdev → create_pad_link_checks_source env pdev →
      (∀ links ret links1, psee_graph_build_dma env pdev links = Run.ret (ret, links1) →
        ∃ added, links1 = links ++ added ∧ ∀ l ∈ added, origin_not_sink pdev l) ∧
      (∀ ret pdev1, psee_graph_notify_complete env pdev = Run.ret (ret, pdev1) →
        ∃ added, pdev1.links = pdev.links ++ added ∧ ∀ l ∈ added, origin_not_sink pdev l)) := by
  have hone : ∀ e ∈ pdev.asd_list, ∀ links ep go r links1, ep ∈ env.endpoints e.fwnode →
      psee_graph_build_one_step env pdev e links ep = Run.ret (go, r, links1) →
      links1 = links ∨ ∃ l, links1 = links ++ [l] ∧ origin_not_sink pdev l :=
    fun e he links ep go r links1 _ h =>
      weaken_step (fun _ hl => hl.2) (build_one_step_valid env pdev e he links links1 ep go r h)
  refine ⟨?_, ?_, ?_⟩
  · intro e links ret links1 he h
    exact build_one_good env pdev _ e (hone e he) links links1 ret h
  · intro e loc links ep hp hloc hlp hsink
    exact build_one_step_skip env pdev e links ep loc hp hloc hlp (Or.inl hsink)
  · intro hinit htyped hcheck
    have hdma : ∀ links ep go r links1, ep ∈ env.endpoints pdev.of_node →
        psee_graph_build_dma_step env pdev links ep = Run.ret (go, r, links1) →
        links1 = links ∨ ∃ l, links1 = links ++ [l] ∧ origin_not_sink pdev l :=
      fun links ep go r links1 _ h =>
        build_dma_step_origin env pdev hinit htyped hcheck links links1 ep go r h
    refine ⟨?_, ?_⟩
    · intro links ret links1 h
      exact build_dma_good env pdev _ hdma links links1 ret h
    · intro ret pdev1 h
      exact notify_complete_links env pdev _ hone hdma ret pdev1 h

theorem pdev_pair_initialised : dmas_initialised pdev_pair := by
  unfold dmas_initialised
  decide

theorem pdev_pair_typed : pads_typed pdev_pair := by
  intro ent hent e he pad hpad hsrc
  have hmem : e = { id := 11, pads := [1, 2] } ∨ e = { id := 12, pads := [1, 2] } := by
    have h2 : ent.entity = some { id := 11, pads := [1, 2] } ∨
        ent.entity = some { id := 12, pads := [1, 2] } := by
      simp only [pdev_pair, pdev_init, List.mem_cons, List.mem_singleton, List.not_mem_nil,
        or_false] at hent
      rcases hent with rfl | rfl
      · exact Or.inl rfl
      · exact Or.inr rfl
    rcases h2 with h2 | h2
    · rw [he] at h2
      exact Or.inl (Option.some.inj h2)
    · rw [he] at h2
      exact Or.inr (Option.some.inj h2)
  have hpads : e.pads = [1, 2] := by
    rcases hmem with rfl | rfl <;> rfl
  rw [hpads] at hpad hsrc ⊢
  have hcases : pad = 0 ∨ pad = 1 := by
    simp only [List.length_cons, List.length_nil] at hpad
    omega
  rcases hcases with rfl | rfl
  · exact absurd (show ([1, 2] : List Nat).getD 0 0 &&& MEDIA_PAD_FL_SOURCE = 0 by decide) hsrc
  · decide

theorem media_create_pad_link_pair (l : media_link) (hsource : l.source = 11 ∨ l.source = 12)
    (hflag : ([1, 2] : List Nat).getD l.source_pad 0 &&& MEDIA_PAD_FL_SOURCE = 0) :
    media_create_pad_link pdev_pair l < 0 := by
  obtain ⟨source, source_pad, sink, sink_pad, flags⟩ := l
  dsimp only at hsource hflag
  have hpad : source_pad ≠ 1 := by
    intro h1
    rw [h1] at hflag
    exact absurd hflag (by decide)
  have hflags : media_pad_flags pdev_pair source source_pad = some 1 ∨
      media_pad_flags pdev_pair source source_pad = none := by
    rcases hsource with rfl | rfl
    · match source_pad, hpad with
      | 0, _ => exact Or.inl (by decide)
      | 1, h1 => exact absurd rfl h1
      | n + 2, _ =>
        right
        simp [media_pad_flags, pdev_pair, pdev_init]
    · match source_pad, hpad with
      | 0, _ => exact Or.inl (by decide)
      | 1, h1 => exact absurd rfl h1
      | n + 2, _ =>
        right
        simp [media_pad_flags, pdev_pair, pdev_init]
  unfold media_create_pad_link
  dsimp only
  rcases hflags with h1 | h1
  · rw [h1]
    cases media_pad_flags pdev_pair sink sink_pad with
    | none => decide
    | some fsink =>
      dsimp only
      rw [if_pos (by decide)]
      decide
  · rw [h1]
    show -EINVAL < 0
    decide

theorem fw_pair_checked_source : create_pad_link_checks_source fw_pair_checked pdev_pair := by
  intro links l ent e hent he hid hflag
  have h2 : ent.entity = some { id := 11, pads := [1, 2] } ∨
      ent.entity = some { id := 12, pads := [1, 2] } := by
    simp only [pdev_pair, pdev_init, List.mem_cons, List.mem_singleton, List.not_mem_nil,
      or_false] at hent
    rcases hent with rfl | rfl
    · exact Or.inl rfl
    · exact Or.inr rfl
  show media_create_pad_link pdev_pair l < 0
  rcases h2 with h2 | h2
  · rw [he] at h2
    rw [Option.some.inj h2] at hid hflag
    exact media_create_pad_link_pair l (Or.inl hid.symm) hflag
  · rw [he] at h2
    rw [Option.some.inj h2] at hid hflag
    exact media_create_pad_link_pair l (Or.inr hid.symm) hflag

/-- On `fw_capture_from_sink` the capture port 0 of the device is wired to pad
0 of the entity of node 1, a sink pad: `psee_graph_build_dma` hands that pad to
`media_create_pad_link` as the source, the kernel refuses it, and
`psee_graph_notify_complete` fails with `-EINVAL`, no link made and nothing
registered. -/
theorem build_dma_sink_origin_refused :
    psee_graph_build_dma_step fw_capture_from_sink pdev_one [] (fw_ep 0 0 1 0) =
      Run.ret (false, -EINVAL, []) ∧
    psee_graph_notify_complete fw_capture_from_sink pdev_one = Run.ret (-EINVAL, pdev_one) := by
  refine ⟨by decide, by decide⟩

/-- Witness of C23: on `fw_pair_checked`, where link creation runs the checks
of `media_create_pad_link`, the graph completes with three links, and they
start at pads that are not sinks. -/
theorem psee_graph_links_origin_witness :
    psee_graph_notify_complete fw_pair_checked pdev_pair =
      Run.ret (0, { pdev_pair with
        links := [{ source := 12, source_pad := 1, sink := 11, sink_pad := 0, flags := 1 },
                  { source := 11, source_pad := 1, sink := 20, sink_pad := 0, flags := 1 },
                  { source := 21, source_pad := 0, sink := 12, sink_pad := 0, flags := 1 }],
        subdev_nodes := true, registered := true }) ∧
    ∃ added,
      [({ source := 12, source_pad := 1, sink := 11, sink_pad := 0, flags := 1 } : media_link),
        { source := 11, source_pad := 1, sink := 20, sink_pad := 0, flags := 1 },
        { source := 21, source_pad := 0, sink := 12, sink_pad := 0, flags := 1 }] =
        [] ++ added ∧ ∀ l ∈ added, origin_not_sink pdev_pair l :=
  ⟨by decide,
    ((psee_graph_links_origin fw_pair_checked pdev_pair).2.2 pdev_pair_initialised
      pdev_pair_typed fw_pair_checked_source).2 0
      { pdev_pair with
        links := [{ source := 12, source_pad := 1, sink := 11, sink_pad := 0, flags := 1 },
                  { source := 11, source_pad := 1, sink := 20, sink_pad := 0, flags := 1 },
                  { source := 21, source_pad := 0, sink := 12, sink_pad := 0, flags := 1 }],
        subdev_nodes := true, registered := true } (by decide)⟩

/-! ## One link per connection -/

theorem step_links_eq
    (body : List media_link → fwnode_endpoint → Run (Bool × Int × List media_link))
    (ep : fwnode_endpoint) (out : List media_link)
    (h : ∀ links, ∃ r, ¬ r < 0 ∧ body links ep = Run.ret (true, r, links ++ out)) :
    step_links body ep = out := by
  obtain ⟨r, _, hr⟩ := h []
  unfold step_links
  rw [hr]
  exact List.nil_append out

/-- A loop whose every pass goes on with a value that is not negative runs to
its end and adds the links of each endpoint in turn. -/
theorem endpoint_loop_total
    (body : List media_link → fwnode_endpoint → Run (Bool × Int × List media_link)) :
    ∀ (eps : List fwnode_endpoint),
      (∀ ep ∈ eps, ∀ links, ∃ r, ¬ r < 0 ∧
        body links ep = Run.ret (true, r, links ++ step_links body ep)) →
      ∀ (ret : Int) (links : List media_link), ¬ ret < 0 →
        ∃ r, ¬ r < 0 ∧ endpoint_loop body ret links eps =
          Run.ret (true, r, links ++ eps.flatMap (step_links body)) := by
  intro eps
  induction eps with
  | nil =>
    intro _ ret links hret
    refine ⟨ret, hret, ?_⟩
    rw [endpoint_loop, List.flatMap_nil, List.append_nil]
  | cons ep rest ih =>
    intro hall ret links _
    obtain ⟨r1, hr1, hstep⟩ := hall ep (List.mem_cons_self ep rest) links
    obtain ⟨r, hr, hloop⟩ := ih (fun e he => hall e (List.mem_cons_of_mem ep he)) r1
      (links ++ step_links body ep) hr1
    refine ⟨r, hr, ?_⟩
    rw [endpoint_loop, hstep, bind_ret]
    dsimp only
    rw [if_pos rfl, hloop, List.flatMap_cons, List.append_assoc]

theorem flatMap_swap {α β γ : Type} (f : α → β → List γ) :
    ∀ (l₁ : List α) (l₂ : List β),
      (l₁.flatMap fun a => l₂.flatMap (f a)).Perm (l₂.flatMap fun b => l₁.flatMap fun a => f a b) := by
  intro l₁
  induction l₁ with
  | nil =>
    intro l₂
    have h : (l₂.flatMap fun _ : β => ([] : List γ)) = [] := by
      induction l₂ with
      | nil => rfl
      | cons b l₂ ih => rw [List.flatMap_cons, ih, List.nil_append]
    simp only [List.flatMap_nil]
    rw [h]
  | cons a l₁ ih =>
    intro l₂
    simp only [List.flatMap_cons]
    exact (List.Perm.append_left _ (ih l₂)).trans (List.flatMap_append_perm l₂ _ _)

theorem flatMap_indicator {α β : Type} (key : α → Nat) (n : Nat) (x : β) :
    ∀ l : List α, (l.map key).Nodup →
      (l.flatMap fun a => if n = key a then [x] else []) =
        if n ∈ l.map key then [x] else [] := by
  intro l
  induction l with
  | nil => intro _; rfl
  | cons a l ih =>
    intro hnd
    rw [List.map_cons, List.nodup_cons] at hnd
    rw [List.flatMap_cons, ih hnd.2, List.map_cons]
    by_cases ha : n = key a
    · have hnot : n ∉ l.map key := by
        rw [ha]
        exact hnd.1
      rw [if_pos ha, if_neg hnot, if_pos (List.mem_cons.2 (Or.inl ha))]
      rfl
    · rw [if_neg ha]
      by_cases hm : n ∈ l.map key
      · rw [if_pos hm, if_pos (List.mem_cons.2 (Or.inr hm))]
        rfl
      · rw [if_neg hm, if_neg (fun h => (List.mem_cons.1 h).elim ha hm)]
        rfl

theorem flatMap_none {α β : Type} (l : List α) :
    (l.flatMap fun _ : α => ([] : List β)) = [] := by
  induction l with
  | nil => rfl
  | cons a l ih => rw [List.flatMap_cons, ih, List.nil_append]

theorem flatMap_single {α β : Type} (f : α → β) (l : List α) :
    (l.flatMap fun a => [f a]) = l.map f := by
  induction l with
  | nil => rfl
  | cons a l ih => rw [List.flatMap_cons, ih, List.map_cons, List.singleton_append]

/-- On a pending list without duplicates, the entry of a node is the one
`psee_graph_find_entity` finds for it. -/
theorem find_entity_mem (pdev : psee_composite_device) (e : psee_graph_entity)
    (hinv : graph_parse_inv pdev) (he : e ∈ pdev.asd_list) :
    psee_graph_find_entity pdev e.fwnode = some e := by
  have hsome : (psee_graph_find_entity pdev e.fwnode).isSome = true :=
    (find_entity_isSome pdev e.fwnode).2 (List.mem_map.2 ⟨e, he, rfl⟩)
  cases hfind : psee_graph_find_entity pdev e.fwnode with
  | none => rw [hfind] at hsome; exact absurd hsome (by simp)
  | some ent =>
    have h1 := find_entity_some pdev e.fwnode ent hfind
    have heq : ent = e :=
      List.inj_on_of_nodup_map hinv.2 h1.2 he h1.1
    rw [heq]

theorem build_one_step_create (env : fwnode_graph) (pdev : psee_composite_device)
    (e : psee_graph_entity) (links : List media_link) (ep : fwnode_endpoint)
    (loc remote : media_entity) (ent : psee_graph_entity)
    (hp : ¬ ep.parse_ret < 0) (hloc : e.entity = some loc)
    (hlp : ep.link.local_port < loc.pads.length)
    (hsrc : loc.pads.getD ep.link.local_port 0 &&& MEDIA_PAD_FL_SINK = 0)
    (hroot : ep.link.remote_node ≠ pdev.of_node)
    (hfind : psee_graph_find_entity pdev ep.link.remote_node = some ent)
    (hrem : ent.entity = some remote) (hrp : ep.link.remote_port < remote.pads.length)
    (hcreate : ¬ env.create_pad_link links (node_link loc remote ep) < 0) :
    psee_graph_build_one_step env pdev e links ep =
      Run.ret (true, env.create_pad_link links (node_link loc remote ep),
        links ++ [node_link loc remote ep]) := by
  unfold psee_graph_build_one_step
  rw [if_neg hp, hloc]
  dsimp only
  rw [if_neg (Nat.not_le.2 hlp), if_neg (fun h => h hsrc), if_neg hroot, hfind]
  dsimp only
  rw [hrem]
  dsimp only
  rw [if_neg (Nat.not_le.2 hrp)]
  unfold node_link at hcreate
  rw [if_neg hcreate]
  rfl

theorem build_dma_step_create (env : fwnode_graph) (pdev : psee_composite_device)
    (links : List media_link) (ep : fwnode_endpoint) (dma : psee_dma) (remote : media_entity)
    (ent : psee_graph_entity) (hp : ¬ ep.parse_ret < 0)
    (hdma : psee_graph_find_dma pdev ep.link.local_port = some dma)
    (hfind : psee_graph_find_entity pdev ep.link.remote_node = some ent)
    (hrem : ent.entity = some remote) (hrp : ep.link.remote_port < remote.pads.length)
    (hcreate : ∀ l, ¬ env.create_pad_link links l < 0) :
    ∃ r, ¬ r < 0 ∧ psee_graph_build_dma_step env pdev links ep =
      Run.ret (true, r,
        links ++ [if dma.pad_flags &&& MEDIA_PAD_FL_SOURCE ≠ 0 then dma_link_out dma remote ep
          else dma_link_in dma remote ep]) := by
  refine ⟨_, hcreate (if dma.pad_flags &&& MEDIA_PAD_FL_SOURCE ≠ 0 then dma_link_out dma remote ep
    else dma_link_in dma remote ep), ?_⟩
  unfold psee_graph_build_dma_step
  rw [if_neg hp, hdma]
  dsimp only
  rw [hfind]
  dsimp only
  rw [hrem]
  dsimp only
  rw [if_neg (Nat.not_le.2 hrp)]
  have hc := hcreate (if dma.pad_flags &&& MEDIA_PAD_FL_SOURCE ≠ 0 then dma_link_out dma remote ep
    else dma_link_in dma remote ep)
  unfold dma_link_out dma_link_in at hc ⊢
  rw [if_neg hc]

theorem connection_pad_node (pdev : psee_composite_device) (node port : Nat) (s : Nat × Nat × Nat)
    (hnode : node ≠ pdev.of_node) (h : connection_pad pdev node port = some s) :
    ∃ ent e, psee_graph_find_entity pdev node = some ent ∧ ent.entity = some e ∧
      port < e.pads.length ∧ s = (e.id, port, e.pads.getD port 0) := by
  unfold connection_pad at h
  rw [if_neg hnode] at h
  split at h
  · exact absurd h (by simp)
  · rename_i ent hfind
    split at h
    · exact absurd h (by simp)
    · rename_i e he
      split at h
      · rename_i hport
        simp only [Option.some.injEq] at h
        exact ⟨ent, e, hfind, he, hport, h.symm⟩
      · exact absurd h (by simp)

theorem connection_pad_root (pdev : psee_composite_device) (node port : Nat) (s : Nat × Nat × Nat)
    (hnode : node = pdev.of_node) (h : connection_pad pdev node port = some s) :
    ∃ dma, psee_graph_find_dma pdev port = some dma ∧ s = (dma.entity, 0, dma.pad_flags) := by
  unfold connection_pad at h
  rw [if_pos hnode] at h
  cases hd : psee_graph_find_dma pdev port with
  | none => rw [hd] at h; exact absurd h (by simp)
  | some dma =>
    rw [hd] at h
    simp only [Option.map_some', Option.some.injEq] at h
    exact ⟨dma, rfl, h.symm⟩

/-- In the walk of the node at the source end of a connection, the endpoint of
that end gives the link of the connection, or nothing when the sink end is on
the device root. -/
theorem node_step_src (env : fwnode_graph) (pdev : psee_composite_device)
    (hinv : graph_parse_inv pdev) (hcreate : ∀ ls l, ¬ env.create_pad_link ls l < 0)
    (e : psee_graph_entity) (he : e ∈ pdev.asd_list) (c : connection)
    (hok : connection_ok pdev c) (hsrc : c.src_node = e.fwnode) (links : List media_link) :
    ∃ r, ¬ r < 0 ∧ psee_graph_build_one_step env pdev e links (connection_src_ep c) =
      Run.ret (true, r,
        links ++ (if c.dst_node = pdev.of_node then [] else [connection_link pdev c])) := by
  obtain ⟨s, d, hs, hd, hs1, _, _, _⟩ := hok
  have hne : c.src_node ≠ pdev.of_node := by
    intro h
    apply hinv.1
    rw [← h, hsrc]
    exact List.mem_map.2 ⟨e, he, rfl⟩
  obtain ⟨ent, loc, hfind, hloc, hlp, hseq⟩ := connection_pad_node pdev _ _ s hne hs
  rw [hsrc, find_entity_mem pdev e hinv he] at hfind
  simp only [Option.some.injEq] at hfind
  rw [← hfind] at hloc
  have hflags : loc.pads.getD c.src_port 0 &&& MEDIA_PAD_FL_SINK = 0 := by
    rw [hseq] at hs1
    exact hs1
  have hp : ¬ (connection_src_ep c).parse_ret < 0 := show ¬ ((0 : Int) < 0) by decide
  by_cases hdr : c.dst_node = pdev.of_node
  · rw [if_pos hdr, List.append_nil]
    refine ⟨(connection_src_ep c).parse_ret, hp, ?_⟩
    exact build_one_step_skip env pdev e links (connection_src_ep c) loc hp hloc hlp
      (Or.inr hdr)
  · rw [if_neg hdr]
    obtain ⟨ent2, rem, hfind2, hrem, hrp, hdeq⟩ := connection_pad_node pdev _ _ d hdr hd
    refine ⟨_, hcreate links (node_link loc rem (connection_src_ep c)), ?_⟩
    have hlink : connection_link pdev c = node_link loc rem (connection_src_ep c) := by
      unfold connection_link
      rw [hs, hd, hseq, hdeq]
      rfl
    rw [hlink]
    exact build_one_step_create env pdev e links (connection_src_ep c) loc rem ent2 hp hloc hlp
      hflags hdr hfind2 hrem hrp (hcreate links _)

/-- In the walk of the node at the sink end of a connection, the endpoint of
that end is skipped. -/
theorem node_step_dst (env : fwnode_graph) (pdev : psee_composite_device)
    (hinv : graph_parse_inv pdev) (e : psee_graph_entity) (he : e ∈ pdev.asd_list)
    (c : connection) (hok : connection_ok pdev c) (hdst : c.dst_node = e.fwnode)
    (links : List media_link) :
    ∃ r, ¬ r < 0 ∧ psee_graph_build_one_step env pdev e links (connection_dst_ep c) =
      Run.ret (true, r, links ++ []) := by
  obtain ⟨s, d, _, hd, _, _, hd1, _⟩ := hok
  have hne : c.dst_node ≠ pdev.of_node := by
    intro h
    apply hinv.1
    rw [← h, hdst]
    exact List.mem_map.2 ⟨e, he, rfl⟩
  obtain ⟨ent, loc, hfind, hloc, hlp, hdeq⟩ := connection_pad_node pdev _ _ d hne hd
  rw [hdst, find_entity_mem pdev e hinv he] at hfind
  simp only [Option.some.injEq] at hfind
  rw [← hfind] at hloc
  have hflags : loc.pads.getD c.dst_port 0 &&& MEDIA_PAD_FL_SINK ≠ 0 := by
    rw [hdeq] at hd1
    exact hd1
  have hp : ¬ (connection_dst_ep c).parse_ret < 0 := show ¬ ((0 : Int) < 0) by decide
  rw [List.append_nil]
  exact ⟨(connection_dst_ep c).parse_ret, hp,
    build_one_step_skip env pdev e links (connection_dst_ep c) loc hp hloc hlp (Or.inl hflags)⟩

/-- In the walk of the DMA ports, the endpoint of the end of a connection that
is on the device root gives the link of the connection, the other end being on
another node. -/
theorem dma_step_src (env : fwnode_graph) (pdev : psee_composite_device)
    (hcreate : ∀ ls l, ¬ env.create_pad_link ls l < 0) (c : connection)
    (hok : connection_ok pdev c) (hsrc : c.src_node = pdev.of_node)
    (hdst : c.dst_node ≠ pdev.of_node) (links : List media_link) :
    ∃ r, ¬ r < 0 ∧ psee_graph_build_dma_step env pdev links (connection_src_ep c) =
      Run.ret (true, r, links ++ [connection_link pdev c]) := by
  obtain ⟨s, d, hs, hd, _, hs2, _, _⟩ := hok
  obtain ⟨dma, hdma, hseq⟩ := connection_pad_root pdev _ _ s hsrc hs
  obtain ⟨ent, rem, hfind, hrem, hrp, hdeq⟩ := connection_pad_node pdev _ _ d hdst hd
  have hflags : dma.pad_flags &&& MEDIA_PAD_FL_SOURCE ≠ 0 := by
    rw [hseq] at hs2
    exact hs2
  have hp : ¬ (connection_src_ep c).parse_ret < 0 := show ¬ ((0 : Int) < 0) by decide
  obtain ⟨r, hr, hstep⟩ := build_dma_step_create env pdev links (connection_src_ep c) dma rem ent
    hp hdma hfind hrem hrp (hcreate links)
  rw [if_pos hflags] at hstep
  have hlink : connection_link pdev c = dma_link_out dma rem (connection_src_ep c) := by
    unfold connection_link
    rw [hs, hd, hseq, hdeq]
    rfl
  rw [hlink]
  exact ⟨r, hr, hstep⟩

theorem dma_step_dst (env : fwnode_graph) (pdev : psee_composite_device)
    (hcreate : ∀ ls l, ¬ env.create_pad_link ls l < 0) (c : connection)
    (hok : connection_ok pdev c) (hdst : c.dst_node = pdev.of_node)
    (hsrc : c.src_node ≠ pdev.of_node) (links : List media_link) :
    ∃ r, ¬ r < 0 ∧ psee_graph_build_dma_step env pdev links (connection_dst_ep c) =
      Run.ret (true, r, links ++ [connection_link pdev c]) := by
  obtain ⟨s, d, hs, hd, _, _, _, hd2⟩ := hok
  obtain ⟨dma, hdma, hdeq⟩ := connection_pad_root pdev _ _ d hdst hd
  obtain ⟨ent, rem, hfind, hrem, hrp, hseq⟩ := connection_pad_node pdev _ _ s hsrc hs
  have hflags : ¬ dma.pad_flags &&& MEDIA_PAD_FL_SOURCE ≠ 0 := by
    rw [hdeq] at hd2
    exact fun h => h hd2
  have hp : ¬ (connection_dst_ep c).parse_ret < 0 := show ¬ ((0 : Int) < 0) by decide
  obtain ⟨r, hr, hstep⟩ := build_dma_step_create env pdev links (connection_dst_ep c) dma rem ent
    hp hdma hfind hrem hrp (hcreate links)
  rw [if_neg hflags] at hstep
  have hlink : connection_link pdev c = dma_link_in dma rem (connection_dst_ep c) := by
    unfold connection_link
    rw [hs, hd, hseq, hdeq]
    rfl
  rw [hlink]
  exact ⟨r, hr, hstep⟩

theorem mem_connection_endpoints (conns : List connection) (n : Nat) (ep : fwnode_endpoint)
    (h : ep ∈ connection_endpoints conns n) :
    ∃ c ∈ conns, (c.src_node = n ∧ ep = connection_src_ep c) ∨
      (c.dst_node = n ∧ ep = connection_dst_ep c) := by
  unfold connection_endpoints at h
  rw [List.mem_flatMap] at h
  obtain ⟨c, hc, hep⟩ := h
  refine ⟨c, hc, ?_⟩
  rcases List.mem_append.1 hep with h1 | h1
  · by_cases hs : c.src_node = n
    · rw [if_pos hs, List.mem_singleton] at h1
      exact Or.inl ⟨hs, h1⟩
    · rw [if_neg hs] at h1
      exact absurd h1 (List.not_mem_nil ep)
  · by_cases hd : c.dst_node = n
    · rw [if_pos hd, List.mem_singleton] at h1
      exact Or.inr ⟨hd, h1⟩
    · rw [if_neg hd] at h1
      exact absurd h1 (List.not_mem_nil ep)

theorem step_total_of_out
    (body : List media_link → fwnode_endpoint → Run (Bool × Int × List media_link))
    (ep : fwnode_endpoint) (out : List media_link)
    (h : ∀ links, ∃ r, ¬ r < 0 ∧ body links ep = Run.ret (true, r, links ++ out)) :
    ∀ links, ∃ r, ¬ r < 0 ∧ body links ep = Run.ret (true, r, links ++ step_links body ep) := by
  rw [step_links_eq body ep out h]
  exact h

/-- On a well-formed topology the walk of a pending node returns a value that
is not negative and adds the links of its endpoints in turn. -/
theorem build_one_total (env : fwnode_graph) (pdev : psee_composite_device)
    (conns : List connection) (hwf : well_formed env pdev conns)
    (hcreate : ∀ ls l, ¬ env.create_pad_link ls l < 0)
    (e : psee_graph_entity) (he : e ∈ pdev.asd_list) (links : List media_link) :
    ∃ r, ¬ r < 0 ∧ psee_graph_build_one env pdev e links =
      Run.ret (r, links ++
        (env.endpoints e.fwnode).flatMap (step_links (psee_graph_build_one_step env pdev e))) := by
  have hall : ∀ ep ∈ env.endpoints e.fwnode, ∀ links, ∃ r, ¬ r < 0 ∧
      psee_graph_build_one_step env pdev e links ep =
        Run.ret (true, r, links ++ step_links (psee_graph_build_one_step env pdev e) ep) := by
    intro ep hep
    have hmem := (hwf.1 e.fwnode).mem_iff.1 hep
    obtain ⟨c, hc, hcase⟩ := mem_connection_endpoints conns e.fwnode ep hmem
    rcases hcase with ⟨hs, rfl⟩ | ⟨hd, rfl⟩
    · exact step_total_of_out _ _ _
        (node_step_src env pdev hwf.2.1 hcreate e he c (hwf.2.2 c hc) hs)
    · exact step_total_of_out _ _ _ (node_step_dst env pdev hwf.2.1 e he c (hwf.2.2 c hc) hd)
  obtain ⟨r, hr, hloop⟩ := endpoint_loop_total (psee_graph_build_one_step env pdev e)
    (env.endpoints e.fwnode) hall 0 links (by decide)
  refine ⟨r, hr, ?_⟩
  unfold psee_graph_build_one
  rw [hloop, bind_ret]

theorem build_dma_total (env : fwnode_graph) (pdev : psee_composite_device)
    (conns : List connection) (hwf : well_formed env pdev conns)
    (hloop : ∀ c ∈ conns, ¬ (c.src_node = pdev.of_node ∧ c.dst_node = pdev.of_node))
    (hcreate : ∀ ls l, ¬ env.create_pad_link ls l < 0) (links : List media_link) :
    ∃ r, ¬ r < 0 ∧ psee_graph_build_dma env pdev links =
      Run.ret (r, links ++
        (env.endpoints pdev.of_node).flatMap (step_links (psee_graph_build_dma_step env pdev))) := by
  have hall : ∀ ep ∈ env.endpoints pdev.of_node, ∀ links, ∃ r, ¬ r < 0 ∧
      psee_graph_build_dma_step env pdev links ep =
        Run.ret (true, r, links ++ step_links (psee_graph_build_dma_step env pdev) ep) := by
    intro ep hep
    have hmem := (hwf.1 pdev.of_node).mem_iff.1 hep
    obtain ⟨c, hc, hcase⟩ := mem_connection_endpoints conns pdev.of_node ep hmem
    rcases hcase with ⟨hs, rfl⟩ | ⟨hd, rfl⟩
    · exact step_total_of_out _ _ _ (dma_step_src env pdev hcreate c (hwf.2.2 c hc) hs
        (fun hd => hloop c hc ⟨hs, hd⟩))
    · exact step_total_of_out _ _ _ (dma_step_dst env pdev hcreate c (hwf.2.2 c hc) hd
        (fun hs => hloop c hc ⟨hs, hd⟩))
  obtain ⟨r, hr, hl⟩ := endpoint_loop_total (psee_graph_build_dma_step env pdev)
    (env.endpoints pdev.of_node) hall 0 links (by decide)
  refine ⟨r, hr, ?_⟩
  unfold psee_graph_build_dma
  rw [hl, bind_ret]

theorem notify_complete_loop_total (env : fwnode_graph) (pdev : psee_composite_device)
    (conns : List connection) (hwf : well_formed env pdev conns)
    (hcreate : ∀ ls l, ¬ env.create_pad_link ls l < 0) :
    ∀ (es : List psee_graph_entity), (∀ e ∈ es, e ∈ pdev.asd_list) →
      ∀ links, psee_graph_notify_complete_loop env pdev links es =
        Run.ret (none, links ++ es.flatMap fun e =>
          (env.endpoints e.fwnode).flatMap (step_links (psee_graph_build_one_step env pdev e))) := by
  intro es
  induction es with
  | nil =>
    intro _ links
    rw [psee_graph_notify_complete_loop, List.flatMap_nil, List.append_nil]
  | cons e rest ih =>
    intro hsub links
    obtain ⟨r, hr, hone⟩ := build_one_total env pdev conns hwf hcreate e
      (hsub e (List.mem_cons_self e rest)) links
    rw [psee_graph_notify_complete_loop, hone, bind_ret]
    dsimp only
    rw [if_neg hr, ih (fun x hx => hsub x (List.mem_cons_of_mem e hx)), List.flatMap_cons,
      List.append_assoc]

/-- The links that the walks of the pending nodes add on a well-formed
topology are, up to order, the links of the connections between two nodes other
than the device root. -/
theorem node_links_perm (env : fwnode_graph) (pdev : psee_composite_device)
    (conns : List connection) (hwf : well_formed env pdev conns)
    (hcreate : ∀ ls l, ¬ env.create_pad_link ls l < 0) :
    (pdev.asd_list.flatMap fun e =>
      (env.endpoints e.fwnode).flatMap (step_links (psee_graph_build_one_step env pdev e))).Perm
      (conns.flatMap fun c =>
        if c.src_node = pdev.of_node ∨ c.dst_node = pdev.of_node then []
        else [connection_link pdev c]) := by
  have h1 : (pdev.asd_list.flatMap fun e =>
      (env.endpoints e.fwnode).flatMap (step_links (psee_graph_build_one_step env pdev e))).Perm
      (pdev.asd_list.flatMap fun e => conns.flatMap fun c =>
        if c.dst_node = pdev.of_node then []
        else if c.src_node = e.fwnode then [connection_link pdev c] else []) := by
    apply List.Perm.flatMap_left
    intro e he
    refine ((hwf.1 e.fwnode).flatMap_right _).trans ?_
    unfold connection_endpoints
    rw [List.flatMap_assoc]
    apply List.Perm.flatMap_left
    intro c hc
    apply List.Perm.of_eq
    have hsrc : c.src_node = e.fwnode →
        step_links (psee_graph_build_one_step env pdev e) (connection_src_ep c) =
          if c.dst_node = pdev.of_node then [] else [connection_link pdev c] :=
      fun hs => step_links_eq _ _ _
        (node_step_src env pdev hwf.2.1 hcreate e he c (hwf.2.2 c hc) hs)
    have hdst : c.dst_node = e.fwnode →
        step_links (psee_graph_build_one_step env pdev e) (connection_dst_ep c) = [] :=
      fun hd => step_links_eq _ _ _
        (node_step_dst env pdev hwf.2.1 e he c (hwf.2.2 c hc) hd)
    rw [List.flatMap_append]
    by_cases hs : c.src_node = e.fwnode
    · by_cases hd : c.dst_node = e.fwnode
      · rw [if_pos hs, if_pos hd, List.flatMap_singleton, List.flatMap_singleton, hsrc hs,
          hdst hd, List.append_nil, if_pos hs]
      · rw [if_pos hs, if_neg hd, List.flatMap_singleton, List.flatMap_nil, hsrc hs,
          List.append_nil, if_pos hs]
    · by_cases hd : c.dst_node = e.fwnode
      · rw [if_neg hs, if_pos hd, List.flatMap_singleton, List.flatMap_nil, hdst hd,
          List.nil_append]
        by_cases hdr : c.dst_node = pdev.of_node
        · rw [if_pos hdr]
        · rw [if_neg hdr, if_neg hs]
      · rw [if_neg hs, if_neg hd, List.flatMap_nil, List.nil_append]
        by_cases hdr : c.dst_node = pdev.of_node
        · rw [if_pos hdr]
        · rw [if_neg hdr, if_neg hs]
  refine h1.trans ((flatMap_swap _ pdev.asd_list conns).trans ?_)
  apply List.Perm.flatMap_left
  intro c hc
  apply List.Perm.of_eq
  by_cases hdr : c.dst_node = pdev.of_node
  · simp only [if_pos hdr, if_pos (Or.inr hdr : c.src_node = pdev.of_node ∨
      c.dst_node = pdev.of_node)]
    exact flatMap_none pdev.asd_list
  · simp only [if_neg hdr]
    rw [flatMap_indicator (fun e : psee_graph_entity => e.fwnode) c.src_node
      (connection_link pdev c) pdev.asd_list hwf.2.1.2]
    by_cases hsr : c.src_node = pdev.of_node
    · have hnot : c.src_node ∉ pdev.asd_list.map (fun e => e.fwnode) := by
        rw [hsr]
        exact hwf.2.1.1
      rw [if_neg hnot, if_pos (Or.inl hsr)]
    · obtain ⟨s, d, hs, _⟩ := hwf.2.2 c hc
      obtain ⟨ent, _, hfind, _⟩ := connection_pad_node pdev _ _ s hsr hs
      have hmem : c.src_node ∈ pdev.asd_list.map (fun e => e.fwnode) :=
        (find_entity_isSome pdev c.src_node).1 (by rw [hfind]; rfl)
      rw [if_pos hmem, if_neg (fun h => h.elim hsr hdr)]

/-- The links that the walk of the DMA ports adds on a well-formed topology
without connection between two DMA ports are, up to order, the links of the
connections with an end on the device root. -/
theorem dma_links_perm (env : fwnode_graph) (pdev : psee_composite_device)
    (conns : List connection) (hwf : well_formed env pdev conns)
    (hloop : ∀ c ∈ conns, ¬ (c.src_node = pdev.of_node ∧ c.dst_node = pdev.of_node))
    (hcreate : ∀ ls l, ¬ env.create_pad_link ls l < 0) :
    ((env.endpoints pdev.of_node).flatMap
      (step_links (psee_graph_build_dma_step env pdev))).Perm
      (conns.flatMap fun c =>
        if c.src_node = pdev.of_node ∨ c.dst_node = pdev.of_node then [connection_link pdev c]
        else []) := by
  refine ((hwf.1 pdev.of_node).flatMap_right _).trans ?_
  unfold connection_endpoints
  rw [List.flatMap_assoc]
  apply List.Perm.flatMap_left
  intro c hc
  apply List.Perm.of_eq
  rw [List.flatMap_append]
  by_cases hs : c.src_node = pdev.of_node
  · have hd : ¬ c.dst_node = pdev.of_node := fun hd => hloop c hc ⟨hs, hd⟩
    rw [if_pos hs, if_neg hd, List.flatMap_singleton, List.flatMap_nil, List.append_nil,
      if_pos (Or.inl hs)]
    exact step_links_eq _ _ _ (dma_step_src env pdev hcreate c (hwf.2.2 c hc) hs hd)
  · by_cases hd : c.dst_node = pdev.of_node
    · rw [if_neg hs, if_pos hd, List.flatMap_singleton, List.flatMap_nil, List.nil_append,
        if_pos (Or.inr hd)]
      exact step_links_eq _ _ _ (dma_step_dst env pdev hcreate c (hwf.2.2 c hc) hd hs)
    · rw [if_neg hs, if_neg hd, List.flatMap_nil, List.nil_append,
        if_neg (fun h => h.elim hs hd)]

theorem connection_links_perm (pdev : psee_composite_device) (conns : List connection) :
    ((conns.flatMap fun c =>
        if c.src_node = pdev.of_node ∨ c.dst_node = pdev.of_node then []
        else [connection_link pdev c]) ++
      (conns.flatMap fun c =>
        if c.src_node = pdev.of_node ∨ c.dst_node = pdev.of_node then [connection_link pdev c]
        else [])).Perm (conns.map (connection_link pdev)) := by
  refine (List.flatMap_append_perm conns _ _).trans ?_
  rw [← flatMap_single]
  apply List.Perm.flatMap_left
  intro c _
  apply List.Perm.of_eq
  by_cases h : c.src_node = pdev.of_node ∨ c.dst_node = pdev.of_node
  · rw [if_pos h, if_pos h, List.nil_append]
  · rw [if_neg h, if_neg h, List.append_nil]

theorem loopback_well_formed :
    well_formed (fw_of_connections conns_loopback) pdev_one conns_loopback := by
  refine ⟨fun n => List.Perm.refl _, ?_, ?_⟩
  · unfold graph_parse_inv asd_fwnodes
    decide
  · intro c hc
    have hmem : c = { src_node := 1, src_port := 1, dst_node := 0, dst_port := 0 } ∨
        c = { src_node := 0, src_port := 1, dst_node := 0, dst_port := 0 } := by
      simpa [conns_loopback] using hc
    rcases hmem with rfl | rfl
    · exact ⟨(11, 1, 2), (20, 0, 1), by decide, by decide, by decide, by decide, by decide,
        by decide⟩
    · exact ⟨(21, 0, 2), (20, 0, 1), by decide, by decide, by decide, by decide, by decide,
        by decide⟩

theorem chain_well_formed : well_formed (fw_of_connections conns_chain) pdev_chain conns_chain := by
  refine ⟨fun n => List.Perm.refl _, ?_, ?_⟩
  · unfold graph_parse_inv asd_fwnodes
    decide
  · intro c hc
    have hmem : c = { src_node := 1, src_port := 0, dst_node := 2, dst_port := 0 } ∨
        c = { src_node := 2, src_port := 1, dst_node := 0, dst_port := 0 } := by
      simpa [conns_chain] using hc
    rcases hmem with rfl | rfl
    · exact ⟨(11, 0, 2), (12, 0, 1), by decide, by decide, by decide, by decide, by decide,
        by decide⟩
    · exact ⟨(12, 1, 2), (20, 0, 1), by decide, by decide, by decide, by decide, by decide,
        by decide⟩

theorem chain_no_loopback :
    ∀ c ∈ conns_chain, ¬ (c.src_node = pdev_chain.of_node ∧ c.dst_node = pdev_chain.of_node) := by
  decide

/-- C25 as stated fails: the topology `conns_loopback` is well formed, each of
its two connections joining a source pad to a sink pad with one endpoint at
each end, and one of them joins the output port 1 of the device to its capture
port 0. `psee_graph_notify_complete` creates the link of the first connection
and fails with `-ENODEV` at the endpoint of port 1, whose remote node is the
device root: no link is made for the second connection. -/
theorem psee_graph_dma_loopback_fails :
    well_formed (fw_of_connections conns_loopback) pdev_one conns_loopback ∧
    psee_graph_notify_complete (fw_of_connections conns_loopback) pdev_one =
      Run.ret (-ENODEV, { pdev_one with
        links := [{ source := 11, source_pad := 1, sink := 20, sink_pad := 0, flags := 1 }] }) ∧
    conns_loopback.length = 2 :=
  ⟨loopback_well_formed, by decide, by decide⟩

/-- C25 (amended): on a well-formed topology (each connection described by one
endpoint at each of its ends, from a source pad to a sink pad, pad indices in
range) without connection between two DMA ports of the device, with
`media_create_pad_link` succeeding, `psee_graph_notify_complete` returns the
value of `media_device_register` and the links it has added are, up to order,
the links of the connections, one for each. For the chain of the scenario it
adds the two links sensor to filter and filter to channel, the entities joined
to the channel by these links are the channel, the filter and the sensor, and
on every media device whose walk from the channel returns these entities, the
channel (with its sink pad) being the only video node among them,
`psee_pipeline_prepare` from the channel returns 0 with `num_dmas == 1` and the
channel as output. -/
theorem psee_graph_one_link_per_connection (env : fwnode_graph) (pdev : psee_composite_device)
    (conns : List connection) (hwf : well_formed env pdev conns)
    (hloop : ∀ c ∈ conns, ¬ (c.src_node = pdev.of_node ∧ c.dst_node = pdev.of_node))
    (hcreate : ∀ ls l, ¬ env.create_pad_link ls l < 0) :
    (∃ added,
      psee_graph_notify_complete env pdev =
        Run.ret (env.media_device_register,
          { pdev with links := pdev.links ++ added,
                      subdev_nodes := pdev.subdev_nodes || decide (0 ≤ env.register_subdev_nodes),
                      registered := pdev.registered || decide (0 ≤ env.media_device_register) }) ∧
      added.Perm (conns.map (connection_link pdev))) ∧
    psee_graph_notify_complete (fw_of_connections conns_chain) pdev_chain =
      Run.ret (0, { pdev_chain with
        links := [{ source := 11, source_pad := 0, sink := 12, sink_pad := 0, flags := 1 },
                  { source := 12, source_pad := 1, sink := 20, sink_pad := 0, flags := 1 }],
        subdev_nodes := true, registered := true }) ∧
    media_graph_component
        [{ source := 11, source_pad := 0, sink := 12, sink_pad := 0, flags := 1 },
         { source := 12, source_pad := 1, sink := 20, sink_pad := 0, flags := 1 }] 20 =
      [20, 12, 11] ∧
    (∀ menv : media_device, menv.walk_init_ok = true →
      (menv.graph_walk 20).Perm [20, 12, 11] →
      menv.function 20 = MEDIA_ENT_F_IO_V4L → menv.function 12 ≠ MEDIA_ENT_F_IO_V4L →
      menv.function 11 ≠ MEDIA_ENT_F_IO_V4L → (menv.pad0 20).flags = MEDIA_PAD_FL_SINK →
      psee_pipeline_prepare menv psee_pipeline_empty 20 =
        (0, { use_count := 1, stream_count := 0, num_dmas := 1, output := some 20 })) := by
  refine ⟨?_, by decide, by decide, ?_⟩
  · obtain ⟨r, hr, hdma⟩ := build_dma_total env pdev conns hwf hloop hcreate
      (pdev.links ++ pdev.asd_list.flatMap fun e =>
        (env.endpoints e.fwnode).flatMap (step_links (psee_graph_build_one_step env pdev e)))
    refine ⟨(pdev.asd_list.flatMap fun e =>
        (env.endpoints e.fwnode).flatMap (step_links (psee_graph_build_one_step env pdev e))) ++
      (env.endpoints pdev.of_node).flatMap (step_links (psee_graph_build_dma_step env pdev)),
      ?_, ?_⟩
    · unfold psee_graph_notify_complete
      rw [notify_complete_loop_total env pdev conns hwf hcreate pdev.asd_list (fun _ he => he),
        bind_ret]
      dsimp only
      rw [hdma, bind_ret]
      dsimp only
      rw [if_neg hr, List.append_assoc]
    · exact (List.Perm.append (node_links_perm env pdev conns hwf hcreate)
        (dma_links_perm env pdev conns hwf hloop hcreate)).trans
        (connection_links_perm pdev conns)
  · intro menv hinit hwalk hf20 hf12 hf11 hpad
    have hout : (menv.graph_walk 20).filter (is_output_dma menv) = [20] := by
      have hp := hwalk.filter (is_output_dma menv)
      have hlist : [20, 12, 11].filter (is_output_dma menv) = [20] := by
        simp [List.filter_cons, is_output_dma, hf20, hf12, hf11, hpad, MEDIA_PAD_FL_SINK]
      rw [hlist] at hp
      exact List.perm_singleton.1 hp
    have hin : ((menv.graph_walk 20).filter (is_input_dma menv)).length = 0 := by
      have hp := (hwalk.filter (is_input_dma menv)).length_eq
      have hlist : [20, 12, 11].filter (is_input_dma menv) = [] := by
        simp [List.filter_cons, is_input_dma, hf20, hf12, hf11, hpad, MEDIA_PAD_FL_SINK]
      rw [hlist] at hp
      exact hp
    exact prepare_first menv psee_pipeline_empty 20 20 0 rfl hinit hout hin (by decide)

/-- Witness of C25 (amended): on the chain of the scenario the call returns 0
with two links, and `psee_pipeline_prepare` from the channel on the media device
of the chain gives one DMA channel, the output. -/
theorem psee_graph_one_link_per_connection_witness :
    (∃ added,
      psee_graph_notify_complete (fw_of_connections conns_chain) pdev_chain =
        Run.ret (0, { pdev_chain with links := [] ++ added, subdev_nodes := true,
                                      registered := true }) ∧
      added.Perm (conns_chain.map (connection_link pdev_chain))) ∧
    psee_pipeline_prepare env_sensor_chain psee_pipeline_empty 20 =
      (0, { use_count := 1, stream_count := 0, num_dmas := 1, output := some 20 }) :=
  ⟨(psee_graph_one_link_per_connection (fw_of_connections conns_chain) pdev_chain conns_chain
      chain_well_formed chain_no_loopback (fun _ _ => show ¬ ((0 : Int) < 0) by decide)).1,
    (psee_graph_one_link_per_connection (fw_of_connections conns_chain) pdev_chain conns_chain
      chain_well_formed chain_no_loopback
      (fun _ _ => show ¬ ((0 : Int) < 0) by decide)).2.2.2 env_sensor_chain rfl
      (List.Perm.refl _) (by decide) (by decide) (by decide) (by decide)⟩

end Psee
